import Mathlib

/-!
# SuplaDevice: roller-shutter relay sequencing and position integration

A shallow embedding of `src/libraries/SuplaDevice/src/SuplaDevice.cpp`.

Conventions of the embedding

* `unsigned long` is 32 bits wide (AVR, ESP8266 and ESP32 alike); values are
  natural numbers and every arithmetic result is reduced modulo `2^32`.
* `millis()` is an explicit argument `now`.  One call of a function of the
  device is taken to be instantaneous: every `millis()` read inside it returns
  the same value.  The driver advances the clock between calls.
* Digital I/O (`Supla::Io`) is an output latch together with a sensing function;
  every `digitalWrite` is appended to a log so that the order of the individual
  pin writes can be observed.
-/

namespace SuplaDevice

/-! ## Constants of the source file -/

def RS_STOP_DELAY : Nat := 500
def RS_START_DELAY : Nat := 1000

def RS_RELAY_OFF : Nat := 0
def RS_RELAY_UP : Nat := 2
def RS_RELAY_DOWN : Nat := 1

def RS_DIRECTION_NONE : Nat := 0
def RS_DIRECTION_UP : Nat := 2
def RS_DIRECTION_DOWN : Nat := 1

/-! ## Machine arithmetic -/

/-- Number of values of an `unsigned long` (32 bits). -/
def ULONG_SIZE : Nat := 4294967296

/-- Reduction of a natural number to an `unsigned long`. -/
def u32 (x : Nat) : Nat := x % 4294967296

/-- Sum of two `unsigned long` values. -/
def uadd (a b : Nat) : Nat := (a + b) % 4294967296

/-- Difference `a - b` of two `unsigned long` values (wraps below zero). -/
def usub (a b : Nat) : Nat := (a + (4294967296 - b % 4294967296)) % 4294967296

/-- Product of two `unsigned long` values. -/
def umul (a b : Nat) : Nat := (a * b) % 4294967296

/-- Value of a 32-bit pattern read as a signed `int`, the cast `int(...)`. -/
def toInt32 (x : Nat) : Int :=
  if x % 4294967296 < 2147483648 then ((x % 4294967296 : Nat) : Int)
  else ((x % 4294967296 : Nat) : Int) - 4294967296

/-! ## Digital I/O -/

/-- Modelled from the spec: the digital I/O collaborator `Supla::Io`
(`readLevel`, `writeLevel`), whose code is not part of the sources.  `out` is
the level last written to each pin (`true` is `HIGH`), `sense` is the level a
read reports given the latch (the identity on the latch for a pin that reads
back what was written), and `writes` logs every write, oldest first.  The
channel number handed to `Supla::Io` does not select the pin and is dropped. -/
structure Io where
  out : Nat → Bool
  sense : (Nat → Bool) → Nat → Bool
  writes : List (Nat × Bool)

/-- `Supla::Io::digitalRead(channelNumber, pin)`; `pin` is a `uint8_t`. -/
def Io.digitalRead (io : Io) (pin : Nat) : Bool :=
  io.sense io.out (pin % 256)

/-- `Supla::Io::digitalWrite(channelNumber, pin, val)`; `pin` is a `uint8_t`. -/
def Io.digitalWrite (io : Io) (pin : Nat) (val : Bool) : Io :=
  { io with
    out := fun q => if q = pin % 256 then val else io.out q
    writes := io.writes ++ [(pin % 256, val)] }

/-- An I/O bank whose reads return the latch, with levels `lv` and an empty log. -/
def Io.ideal (lv : Nat → Bool) : Io :=
  { out := lv, sense := fun o p => o p, writes := [] }

/-- The latch after each write of a list of writes, oldest first. -/
def replay (o : Nat → Bool) : List (Nat × Bool) → List (Nat → Bool)
  | [] => []
  | (p, v) :: ws =>
    (fun q => if q = p then v else o q) ::
      replay (fun q => if q = p then v else o q) ws

/-! ## Data model -/

/-- Modelled from the spec: `SuplaChannelPin` (declared in `SuplaDevice.h`,
which is not part of the sources): primary and secondary pin, polarity
inversion flag, bistable flag, the three countdown timers and the level last
observed on the secondary pin. -/
structure SuplaChannelPin where
  pin1 : Nat
  pin2 : Nat
  hiIsLo : Bool
  bistable : Bool
  time_left : Nat
  bi_time_left : Nat
  vc_time : Nat
  last_val : Bool

/-- Modelled from the spec: `SuplaDeviceRollerShutterTask`: target percent,
direction and active flag. -/
structure SuplaDeviceRollerShutterTask where
  percent : Nat
  direction : Nat
  active : Bool
  deriving DecidableEq

/-- Modelled from the spec: `SuplaDeviceRollerShutterCVR`, a deferred relay
write: output value, scheduled fire time and active flag. -/
structure SuplaDeviceRollerShutterCVR where
  value : Nat
  time : Nat
  active : Bool
  deriving DecidableEq

/-- Modelled from the spec: `SuplaDeviceRollerShutterButton`: pin, last stable
level and last-change timestamp. -/
structure SuplaDeviceRollerShutterButton where
  pin : Nat
  value : Nat
  time : Nat
  deriving DecidableEq

/-- Modelled from the spec: `SuplaDeviceRollerShutter`.  `position` is the
unsigned fixed-point estimate `100 + percent * 100`; every value outside
`[100, 10100]` means that the position is unknown.  The times are
`unsigned long` milliseconds. -/
structure SuplaDeviceRollerShutter where
  btnUp : SuplaDeviceRollerShutterButton
  btnDown : SuplaDeviceRollerShutterButton
  position : Nat
  last_position : Nat
  channel_number : Nat
  full_opening_time : Nat
  full_closing_time : Nat
  last_iterate_time : Nat
  tick_1s : Nat
  up_time : Nat
  down_time : Nat
  start_time : Nat
  stop_time : Nat
  cvr1 : SuplaDeviceRollerShutterCVR
  cvr2 : SuplaDeviceRollerShutterCVR
  task : SuplaDeviceRollerShutterTask
  save_position : Nat
  deriving DecidableEq

/-- The state `addRollerShutterRelays` creates: the record is cleared with
`memset`, then `channel_number` is stored and `position` is set to 0. -/
def rsZero (channel_number : Nat) : SuplaDeviceRollerShutter :=
  { btnUp := ⟨0, 0, 0⟩
    btnDown := ⟨0, 0, 0⟩
    position := 0
    last_position := 0
    channel_number := channel_number
    full_opening_time := 0
    full_closing_time := 0
    last_iterate_time := 0
    tick_1s := 0
    up_time := 0
    down_time := 0
    start_time := 0
    stop_time := 0
    cvr1 := ⟨0, 0, false⟩
    cvr2 := ⟨0, 0, false⟩
    task := ⟨0, 0, false⟩
    save_position := 0 }

/-- The part of the device one roller shutter works on: its record, the pin
binding of its channel and the digital I/O. -/
structure RsCtx where
  rs : SuplaDeviceRollerShutter
  pin : SuplaChannelPin
  io : Io

/-! ## Pin access with polarity -/

/-- `SuplaDeviceClass::suplaDigitalRead_isHI`. -/
def suplaDigitalRead_isHI (c : RsCtx) (pin : Nat) : Bool :=
  c.io.digitalRead pin == (if c.pin.hiIsLo then false else true)

/-- `SuplaDeviceClass::suplaDigitalWrite_setHI`. -/
def suplaDigitalWrite_setHI (c : RsCtx) (pin : Nat) (hi : Bool) : RsCtx :=
  let hi := if c.pin.hiIsLo then (if hi then false else true) else hi
  { c with io := c.io.digitalWrite pin hi }

/-- A latch `o` drives `pin` to the active level of the binding. -/
def drivenActive (b : SuplaChannelPin) (o : Nat → Bool) (pin : Nat) : Bool :=
  o (pin % 256) == (if b.hiIsLo then false else true)

/-! ## Relay sequencing -/

/-- `SuplaDeviceClass::rs_cancel_task`. -/
def rs_cancel_task (rs : SuplaDeviceRollerShutter) : SuplaDeviceRollerShutter :=
  { rs with task := { active := false, percent := 0, direction := RS_DIRECTION_NONE } }

/-- The branch `value == RS_RELAY_OFF` of `rs_set_relay`, after the optional
task cancellation. -/
def rs_set_relay_off (rs : SuplaDeviceRollerShutter) (value : Nat) (now : Nat) :
    SuplaDeviceRollerShutter :=
  if rs.cvr1.active then rs
  else
    let rs := { rs with cvr2 := { rs.cvr2 with active := false } }
    let rs := { rs with cvr1 := { rs.cvr1 with value := value } }
    let rs :=
      if usub now rs.start_time ≥ RS_STOP_DELAY then
        { rs with cvr1 := { rs.cvr1 with time := now } }
      else
        { rs with cvr1 :=
            { rs.cvr1 with time := usub (uadd now RS_STOP_DELAY) (usub now rs.start_time) } }
    { rs with cvr1 := { rs.cvr1 with active := true } }

/-- `SuplaDeviceClass::rs_set_relay(rs, pin, value, cancel_task, stop_delay)`.
The only recursive call of the source, `rs_set_relay(rs, pin, RS_RELAY_OFF,
false, stop_delay)`, enters the off branch, which does not recurse; it is the
call of `rs_set_relay_off` below, made without cancelling the task. -/
def rs_set_relay (c : RsCtx) (value : Nat) (cancel_task : Bool) (stop_delay : Bool)
    (now : Nat) : RsCtx :=
  let _unused := stop_delay
  let rs := if cancel_task then rs_cancel_task c.rs else c.rs
  if value = RS_RELAY_OFF then
    { c with rs := rs_set_relay_off rs value now }
  else if rs.cvr2.active then
    { c with rs := rs }
  else
    let rs := { rs with cvr1 := { rs.cvr1 with active := false } }
    let rs := { rs with cvr2 := { rs.cvr2 with value := value } }
    let _pin := if value = RS_RELAY_DOWN then c.pin.pin2 else c.pin.pin1
    let rs :=
      if suplaDigitalRead_isHI c _pin then
        let rs := rs_set_relay_off rs RS_RELAY_OFF now
        { rs with cvr2 := { rs.cvr2 with time := uadd rs.cvr1.time RS_START_DELAY } }
      else if usub now rs.stop_time ≥ RS_START_DELAY then
        { rs with cvr2 := { rs.cvr2 with time := now } }
      else
        { rs with cvr2 :=
            { rs.cvr2 with time := usub (uadd now RS_START_DELAY) (usub now rs.stop_time) } }
    { c with rs := { rs with cvr2 := { rs.cvr2 with active := true } } }

/-- Which of the two deferred records a call of `rs_cvr_processing` is given
(`&rs->cvr1` or `&rs->cvr2`). -/
inductive CvrSel where
  | first
  | second
  deriving DecidableEq

/-- The record a selector points to. -/
def CvrSel.get (s : CvrSel) (rs : SuplaDeviceRollerShutter) : SuplaDeviceRollerShutterCVR :=
  match s with
  | .first => rs.cvr1
  | .second => rs.cvr2

/-- Store through the pointer: `cvr->active = a`. -/
def CvrSel.setActive (s : CvrSel) (rs : SuplaDeviceRollerShutter) (a : Bool) :
    SuplaDeviceRollerShutter :=
  match s with
  | .first => { rs with cvr1 := { rs.cvr1 with active := a } }
  | .second => { rs with cvr2 := { rs.cvr2 with active := a } }

/-- `SuplaDeviceClass::rs_cvr_processing(rs, pin, cvr)`. -/
def rs_cvr_processing (c : RsCtx) (cvr : CvrSel) (now : Nat) : RsCtx :=
  if (cvr.get c.rs).active ∧ (cvr.get c.rs).time ≤ now then
    let c := { c with rs := cvr.setActive c.rs false }
    if (cvr.get c.rs).value = RS_RELAY_UP then
      let c := { c with rs := { c.rs with start_time := now } }
      let c := suplaDigitalWrite_setHI c c.pin.pin1 false
      suplaDigitalWrite_setHI c c.pin.pin2 true
    else if (cvr.get c.rs).value = RS_RELAY_DOWN then
      let c := { c with rs := { c.rs with start_time := now } }
      let c := suplaDigitalWrite_setHI c c.pin.pin2 false
      suplaDigitalWrite_setHI c c.pin.pin1 true
    else
      let c := { c with rs := { c.rs with stop_time := now } }
      let c := suplaDigitalWrite_setHI c c.pin.pin1 false
      suplaDigitalWrite_setHI c c.pin.pin2 false
  else c

/-- The two calls that open `iterate_rollershutter`:
`rs_cvr_processing(rs, pin, &rs->cvr1); rs_cvr_processing(rs, pin, &rs->cvr2);`. -/
def rs_cvr_pass (c : RsCtx) (now : Nat) : RsCtx :=
  rs_cvr_processing (rs_cvr_processing c .first now) .second now


/-! ## Floating point

The source computes `(*time) * 100.00 / full_time * 100` and `full_time * 1.1`
in `double`.  The values met are nonnegative and far from the subnormal and
the overflow range, so a `double` is a nonnegative fraction and every
operation rounds the exact result to the nearest value with a 53-bit
significand, ties to even (IEEE 754 binary64, as on ESP8266 and ESP32). -/

/-- A nonnegative `double`, the fraction `num / den`. -/
structure Dbl where
  num : Nat
  den : Nat
  deriving DecidableEq

/-- Floor of the binary logarithm, by halving, with `fuel` bounding the number
of halvings. -/
def log2Fuel : Nat → Nat → Nat
  | 0, _ => 0
  | fuel + 1, n => if 2 ≤ n then log2Fuel fuel (n / 2) + 1 else 0

/-- Floor of the binary logarithm of `n` (0 for `n = 0`). -/
def ilog2 (n : Nat) : Nat := log2Fuel n n

/-- Nearest integer to `n / d`, ties to even. -/
def roundHalfEven (n d : Nat) : Nat :=
  if 2 * (n % d) < d then n / d
  else if d < 2 * (n % d) then n / d + 1
  else if (n / d) % 2 = 0 then n / d else n / d + 1

/-- The `double` nearest to `N / D`: the quotient is scaled by a power of two
into `[2^52, 2^53)`, rounded to an integer, and scaled back.  (`D = 0` does not
occur: the source divides only after checking `full_time`.) -/
def Dbl.round (N D : Nat) : Dbl :=
  if N = 0 ∨ D = 0 then ⟨0, 1⟩
  else
    let k := ilog2 N
    let l := ilog2 D
    let c := if D * 2 ^ k ≤ N * 2 ^ l then 52 else 53
    let a := (c + l) - k
    let b := k - (c + l)
    ⟨roundHalfEven (N * 2 ^ a) (D * 2 ^ b) * 2 ^ b, 2 ^ a⟩

/-- Conversion of an `unsigned long` to `double` (exact, the value is below
`2^53`). -/
def Dbl.ofNat (n : Nat) : Dbl := ⟨n, 1⟩

/-- Product of two `double` values. -/
def Dbl.mul (x y : Dbl) : Dbl := Dbl.round (x.num * y.num) (x.den * y.den)

/-- Quotient of two `double` values. -/
def Dbl.div (x y : Dbl) : Dbl := Dbl.round (x.num * y.den) (x.den * y.num)

/-- Conversion `(unsigned long) x`: truncation toward zero.  (Out of range the
conversion is undefined in C; here it is reduced modulo `2^32`.) -/
def Dbl.toULong (x : Dbl) : Nat := (x.num / x.den) % 4294967296

/-- Comparison `x <= y` of two `double` values. -/
def Dbl.le (x y : Dbl) : Bool := decide (x.num * y.den ≤ y.num * x.den)

/-- The literal `1.1`: the `double` nearest to 11/10. -/
def Dbl.c1_1 : Dbl := Dbl.round 11 10

/-! ## Position estimate -/

/-- `SuplaDeviceClass::rs_calibrate`. -/
def rs_calibrate (rs : SuplaDeviceRollerShutter) (full_time : Nat) (time : Nat)
    (dest_pos : Nat) : SuplaDeviceRollerShutter :=
  if full_time > 0 ∧ (rs.position < 100 ∨ rs.position > 10100) then
    let full_time := Dbl.toULong (Dbl.mul (Dbl.ofNat full_time) Dbl.c1_1)
    if time ≥ full_time then
      { rs with position := dest_pos, save_position := 1 }
    else rs
  else rs

/-- Which accumulator the `unsigned long *time` argument of `rs_move_position`
points to (`&rs->up_time` or `&rs->down_time`). -/
inductive TimeSel where
  | up
  | down
  deriving DecidableEq

/-- Load through the pointer: `*time`. -/
def TimeSel.get (s : TimeSel) (rs : SuplaDeviceRollerShutter) : Nat :=
  match s with
  | .up => rs.up_time
  | .down => rs.down_time

/-- Store through the pointer: `*time = v`. -/
def TimeSel.set (s : TimeSel) (rs : SuplaDeviceRollerShutter) (v : Nat) :
    SuplaDeviceRollerShutter :=
  match s with
  | .up => { rs with up_time := v }
  | .down => { rs with down_time := v }

/-- The position delta `p` of `rs_move_position`:
`(*time) * 100.00 / full_time * 100`, converted to `unsigned long`. -/
def positionDelta (time full_time : Nat) : Nat :=
  Dbl.toULong
    (Dbl.mul (Dbl.div (Dbl.mul (Dbl.ofNat time) (Dbl.ofNat 100)) (Dbl.ofNat full_time))
      (Dbl.ofNat 100))

/-- `SuplaDeviceClass::rs_move_position(rs, pin, full_time, time, up)`. -/
def rs_move_position (c : RsCtx) (full_time : Nat) (time : TimeSel) (up : Bool)
    (now : Nat) : RsCtx :=
  if c.rs.position < 100 ∨ c.rs.position > 10100 ∨ full_time = 0 then c
  else
    let last_pos := c.rs.position
    let p := positionDelta (time.get c.rs) full_time
    let x := umul p full_time / 10000
    let c :=
      if p > 0 then
        let c :=
          if up then
            if toInt32 (usub c.rs.position p) ≤ 100 then
              { c with rs := { c.rs with position := 100 } }
            else { c with rs := { c.rs with position := usub c.rs.position p } }
          else
            if toInt32 (uadd c.rs.position p) ≥ 10100 then
              { c with rs := { c.rs with position := 10100 } }
            else { c with rs := { c.rs with position := uadd c.rs.position p } }
        if last_pos ≠ c.rs.position then
          { c with rs := { c.rs with save_position := 1 } }
        else c
      else c
    if (up ∧ c.rs.position = 100) ∨ (¬ up ∧ c.rs.position = 10100) then
      if Dbl.le (Dbl.mul (Dbl.ofNat full_time) Dbl.c1_1) (Dbl.ofNat (time.get c.rs)) then
        rs_set_relay c RS_RELAY_OFF false false now
      else c
    else if x ≤ time.get c.rs then
      { c with rs := time.set c.rs (usub (time.get c.rs) x) }
    else
      { c with rs := time.set c.rs 0 }

/-- The position integration of `iterate_rollershutter`: the relay sensing
with the accumulation of `up_time` and `down_time` and the calls of
`rs_calibrate` and `rs_move_position`, for a pass at time `now` that comes
`time_diff` ms after the previous one. -/
def rs_integrate (c : RsCtx) (time_diff : Nat) (now : Nat) : RsCtx :=
  if suplaDigitalRead_isHI c c.pin.pin1 then
    let c := { c with rs := { c.rs with up_time := 0 } }
    let c := { c with rs := { c.rs with down_time := uadd c.rs.down_time time_diff } }
    let c := { c with rs := rs_calibrate c.rs c.rs.full_closing_time c.rs.down_time 1100 }
    rs_move_position c c.rs.full_closing_time .down false now
  else if suplaDigitalRead_isHI c c.pin.pin2 then
    let c := { c with rs := { c.rs with up_time := uadd c.rs.up_time time_diff } }
    let c := { c with rs := { c.rs with down_time := 0 } }
    let c := { c with rs := rs_calibrate c.rs c.rs.full_opening_time c.rs.up_time 100 }
    rs_move_position c c.rs.full_opening_time .up true now
  else
    let c := if c.rs.up_time ≠ 0 then { c with rs := { c.rs with up_time := 0 } } else c
    if c.rs.down_time ≠ 0 then { c with rs := { c.rs with down_time := 0 } } else c

/-- Service passes following each other `time_diff` ms apart, starting after
time `now`; of each pass only the position integration is taken. -/
def rs_integrate_run (c : RsCtx) (now : Nat) : List Nat → RsCtx
  | [] => c
  | d :: ds => rs_integrate_run (rs_integrate c d (uadd now d)) (uadd now d) ds

/-! ## Channels, uplink and plain relays -/

/-- Modelled from the spec: the channel type tag "Relay" (`SUPLA_CHANNELTYPE_RELAY`
of the protocol header, which is not part of the sources). -/
def SUPLA_CHANNELTYPE_RELAY : Nat := 2900

/-- Modelled from the spec: the channel type tag "ImpulseCounter". -/
def SUPLA_CHANNELTYPE_IMPULSE_COUNTER : Nat := 5010

/-- Modelled from the spec: the capability bit "controlling the roller shutter". -/
def SUPLA_BIT_FUNC_CONTROLLINGTHEROLLERSHUTTER : Nat := 16

/-- Modelled from the spec: one entry of `Supla::Channel::reg_dev.channels`:
index, type tag, capability mask and the first byte of the reported value
(a `char`). -/
structure Channel where
  Number : Nat
  chType : Nat
  FuncList : Nat
  value0 : Int

/-- The connection to the server as the channel code sees it: whether `srpc`
is set, the `registered` tri-state, and the value-changed notifications handed
to `srpc_ds_async_channel_value_changed`, oldest first, as (channel, first
value byte). -/
structure Uplink where
  srpc : Bool
  registered : Int
  sent : List (Nat × Int)

/-- `SuplaDeviceClass::channelValueChanged(channel_number, v)`, for the channel
`ch` that `channel_number` designates. -/
def channelValueChanged (u : Uplink) (ch : Channel) (channel_number : Nat) (v : Int) :
    Uplink × Channel :=
  if u.srpc ∧ u.registered = 1 then
    ({ u with sent := u.sent ++ [(channel_number, v)] }, { ch with value0 := v })
  else (u, ch)

/-- The part of the device one plain or bistable relay channel works on: pin
binding, channel entry, digital I/O, uplink, and the total of the `delay()`
calls in ms. -/
structure RelayCtx where
  pin : SuplaChannelPin
  ch : Channel
  io : Io
  up : Uplink
  delayed : Nat

/-- A level as the `uint8_t` that `digitalRead` returns (`HIGH` is 1). -/
def levelValue (b : Bool) : Int := if b then 1 else 0

/-- The bistable preamble of `channelSetValue`: the request is dropped
(`value = -1`) while a pulse is in flight or when the sense pin already reads
the requested value; else `value` becomes 1 and the pulse timer is armed.  A
channel that is not bistable passes through. -/
def channelSetValue_bistable (c : RelayCtx) (value : Int) : Int × RelayCtx :=
  if c.pin.bistable then
    if c.pin.bi_time_left > 0 ∨ levelValue (c.io.digitalRead c.pin.pin2) = value then
      (-1, c)
    else
      (1, { c with pin := { c.pin with bi_time_left := 500 } })
  else (value, c)

/-- The branch `value == 0` of `channelSetValue`: the pin writes and the
resulting `success`. -/
def channelSetValue_off (c : RelayCtx) : RelayCtx × Bool :=
  let _LO : Bool := if c.pin.hiIsLo then true else false
  let cs : RelayCtx × Bool :=
    if c.pin.pin1 ≠ 0 then
      let c := { c with io := c.io.digitalWrite c.pin.pin1 _LO }
      (c, c.io.digitalRead c.pin.pin1 == _LO)
    else (c, false)
  if cs.1.pin.pin2 ≠ 0 ∧ cs.1.pin.bistable = false then
    let c := { cs.1 with io := cs.1.io.digitalWrite cs.1.pin.pin2 _LO }
    if !cs.2 then (c, c.io.digitalRead c.pin.pin2 == _LO) else (c, cs.2)
  else cs

/-- The branch `value == 1` of `channelSetValue`: the pin writes, the arming
of the auto-off timer and the resulting `success`. -/
def channelSetValue_on (c : RelayCtx) (DurationMS : Int) : RelayCtx × Bool :=
  let _HI : Bool := if c.pin.hiIsLo then false else true
  let _LO : Bool := if c.pin.hiIsLo then true else false
  let c :=
    if c.pin.pin2 ≠ 0 ∧ c.pin.bistable = false then
      { c with io := c.io.digitalWrite c.pin.pin2 _LO, delayed := c.delayed + 50 }
    else c
  if c.pin.pin1 ≠ 0 then
    let c := { c with io := c.io.digitalWrite c.pin.pin1 _HI }
    let success := c.io.digitalRead c.pin.pin1 == _HI
    let c :=
      if DurationMS > 0 then { c with pin := { c.pin with time_left := DurationMS.toNat } }
      else c
    (c, success)
  else (c, false)

/-- The end of `channelSetValue`: the mirrored value is updated on success, a
bistable channel clears `success` and waits 50 ms, and a success that is left
is reported when the device is registered. -/
def channelSetValue_finish (c : RelayCtx) (value : Int) (success : Bool) : RelayCtx :=
  let c := if success then { c with ch := { c.ch with value0 := value } } else c
  let cs : RelayCtx × Bool :=
    if c.pin.bistable then ({ c with delayed := c.delayed + 50 }, false) else (c, success)
  if cs.2 ∧ cs.1.up.registered = 1 ∧ cs.1.up.srpc then
    let uc := channelValueChanged cs.1.up cs.1.ch cs.1.ch.Number value
    { cs.1 with up := uc.1, ch := uc.2 }
  else cs.1

/-- `SuplaDeviceClass::channelSetValue(channel, value, DurationMS)`, composed
of its four parts in program order.  For a channel that is not a relay
`success` stays false and nothing happens. -/
def channelSetValue (c : RelayCtx) (value : Int) (DurationMS : Int) : RelayCtx :=
  if c.ch.chType = SUPLA_CHANNELTYPE_RELAY then
    let vc := channelSetValue_bistable c value
    let cs : RelayCtx × Bool :=
      if vc.1 = 0 then channelSetValue_off vc.2
      else if vc.1 = 1 then channelSetValue_on vc.2 DurationMS
      else (vc.2, false)
    channelSetValue_finish cs.1 vc.1 cs.2
  else c

/-! ## Connection and registration -/

/-- Modelled from the spec: the status values `status()` is called with
(`STATUS_*` of `SuplaDevice.h`, which is not part of the sources), one
constructor for each name that occurs in the source file. -/
inductive Status where
  | UNKNOWN
  | ALREADY_INITIALIZED
  | MISSING_NETWORK_INTERFACE
  | INVALID_GUID
  | UNKNOWN_SERVER_ADDRESS
  | MISSING_CREDENTIALS
  | CHANNEL_LIMIT_EXCEEDED
  | INITIALIZED
  | NETWORK_DISCONNECTED
  | SERVER_DISCONNECTED
  | ITERATE_FAIL
  | REGISTER_IN_PROGRESS
  | PROTOCOL_VERSION_ERROR
  | REGISTERED_AND_READY
  | BAD_CREDENTIALS
  | TEMPORARILY_UNAVAILABLE
  | LOCATION_CONFLICT
  | CHANNEL_CONFLICT
  | DEVICE_IS_DISABLED
  | LOCATION_IS_DISABLED
  | DEVICE_LIMIT_EXCEEDED
  deriving DecidableEq

/-- Modelled from the spec: the result codes of a register-device result
(`SUPLA_RESULTCODE_*` of the protocol header), one constructor for each case
label of `onRegisterResult`, and `OTHER` for every code without a label. -/
inductive ResultCode where
  | TRUE
  | BAD_CREDENTIALS
  | TEMPORARILY_UNAVAILABLE
  | LOCATION_CONFLICT
  | CHANNEL_CONFLICT
  | DEVICE_DISABLED
  | LOCATION_DISABLED
  | DEVICE_LIMITEXCEEDED
  | GUID_ERROR
  | AUTHKEY_ERROR
  | REGISTRATION_DISABLED
  | NO_LOCATION_AVAILABLE
  | USER_CONFLICT
  | OTHER (code : Int)
  deriving DecidableEq

/-- Modelled from the spec: the keep-alive interval the device prefers
(`ACTIVITY_TIMEOUT` of `SuplaDevice.h`), in seconds. -/
def ACTIVITY_TIMEOUT : Int := 30

/-- What `iterate` and the inbound calls do to their collaborators, recorded in
program order: the element hooks, the pulse-counter storage, the network
layer (`Supla::Network`), the remote call layer (`srpc`), `status()` and the
per-channel servicing with its channel index and elapsed time. -/
inductive Action where
  | elementsIterateAlways
  | updateStorageOccasionally
  | networkSetup
  | networkIsReady
  | networkConnected
  | networkConnect
  | networkDisconnect
  | networkIterate
  | networkPing
  | networkSetActivityTimeout (seconds : Int)
  | srpcIterate
  | srpcRegisterDevice
  | srpcSetActivityTimeout (seconds : Int)
  | clearAllUpdateReady
  | elementsIterateConnected
  | iterate_relay (channel_number : Nat) (time_diff : Nat)
  | iterate_impulse_counter (channel_number : Nat) (time_diff : Nat)
  | status (s : Status)
  deriving DecidableEq

/-- The process-wide connection state of `SuplaDeviceClass`, with the record of
the calls made so far, oldest first.  `initialized` is `srpc != NULL`. -/
structure ConnState where
  initialized : Bool
  registered : Int
  connectionFailCounter : Nat
  networkIsNotReadyCounter : Nat
  wait_for_iterate : Nat
  last_iterate_time : Nat
  channel_pin_count : Nat
  log : List Action

/-- Calls the server makes into the device while `srpc_iterate` runs. -/
inductive Inbound where
  | registerResult (result_code : ResultCode) (activity_timeout : Int)
  | versionError

/-- Modelled from the spec: what the transport and the remote call layer answer
during one tick: `IsReady()`, `Connected()`, the result of `Connect()`, whether
`srpc_iterate` succeeds and which inbound calls it dispatches, the result of
`Ping()`. -/
structure NetEnv where
  isReady : Bool
  connected : Bool
  connectResult : Int
  srpcIterateOk : Bool
  inbound : List Inbound
  pingOk : Bool

/-- Append one call to the record. -/
def ConnState.did (s : ConnState) (a : Action) : ConnState :=
  { s with log := s.log ++ [a] }

/-- `SuplaDeviceClass::onVersionError`. -/
def onVersionError (s : ConnState) (now : Nat) : ConnState :=
  let s := s.did (.status .PROTOCOL_VERSION_ERROR)
  let s := s.did .networkDisconnect
  { s with wait_for_iterate := uadd now 5000 }

/-- The status `onRegisterResult` reports for a result code other than
success; `none` for the `default` label, which only logs. -/
def registerFailureStatus : ResultCode → Option Status
  | .BAD_CREDENTIALS => some .BAD_CREDENTIALS
  | .TEMPORARILY_UNAVAILABLE => some .TEMPORARILY_UNAVAILABLE
  | .LOCATION_CONFLICT => some .LOCATION_CONFLICT
  | .CHANNEL_CONFLICT => some .CHANNEL_CONFLICT
  | .DEVICE_DISABLED => some .DEVICE_IS_DISABLED
  | .LOCATION_DISABLED => some .LOCATION_IS_DISABLED
  | .DEVICE_LIMITEXCEEDED => some .DEVICE_LIMIT_EXCEEDED
  | .GUID_ERROR => some .INVALID_GUID
  | .AUTHKEY_ERROR => some .INVALID_GUID
  | .REGISTRATION_DISABLED => some .INVALID_GUID
  | .NO_LOCATION_AVAILABLE => some .INVALID_GUID
  | .USER_CONFLICT => some .INVALID_GUID
  | _ => none

/-- `SuplaDeviceClass::onRegisterResult`. -/
def onRegisterResult (s : ConnState) (result_code : ResultCode) (activity_timeout : Int)
    (now : Nat) : ConnState :=
  if result_code = .TRUE then
    let s := s.did (.networkSetActivityTimeout activity_timeout)
    let s := { s with registered := 1 }
    let s := { s with last_iterate_time := now }
    let s := s.did (.status .REGISTERED_AND_READY)
    if activity_timeout ≠ ACTIVITY_TIMEOUT then
      s.did (.srpcSetActivityTimeout ACTIVITY_TIMEOUT)
    else s
  else
    let s :=
      match registerFailureStatus result_code with
      | some st => s.did (.status st)
      | none => s
    let s := s.did .networkDisconnect
    { s with wait_for_iterate := uadd now 5000 }

/-- Dispatch of one inbound call. -/
def onInbound (now : Nat) (s : ConnState) : Inbound → ConnState
  | .registerResult code t => onRegisterResult s code t now
  | .versionError => onVersionError s now

/-- The per-channel servicing loop of `iterate`: for every channel index in
ascending order, `iterate_relay` and then `iterate_impulse_counter`. -/
def serviceChannels (s : ConnState) (time_diff : Nat) : ConnState :=
  (List.range s.channel_pin_count).foldl
    (fun s a => (s.did (.iterate_relay a time_diff)).did (.iterate_impulse_counter a time_diff))
    s

/-- The connect stage of `iterate` (`if (!Supla::Network::Connected()) ...`);
the flag tells whether the tick goes on. -/
def iterate_connect (s : ConnState) (env : NetEnv) (now : Nat) : ConnState × Bool :=
  let s := s.did .networkConnected
  if ¬ env.connected then
    let s := s.did (.status .SERVER_DISCONNECTED)
    let s := { s with registered := 0 }
    let s := s.did .networkConnect
    if 1 = env.connectResult then
      ({ s with connectionFailCounter := 0 }, true)
    else
      let s := s.did .networkDisconnect
      let s := { s with wait_for_iterate := uadd now 2000 }
      ({ s with connectionFailCounter := s.connectionFailCounter + 1 }, false)
  else (s, true)

/-- The rest of `iterate` once the transport is connected: transport I/O,
registration, liveness probe and channel servicing. -/
def iterate_connected (s : ConnState) (env : NetEnv) (now : Nat) (time_diff : Nat) :
    ConnState :=
  let s := s.did .networkIterate
  let s := s.did .srpcIterate
  let s := env.inbound.foldl (onInbound now) s
  if ¬ env.srpcIterateOk then
    let s := s.did (.status .ITERATE_FAIL)
    let s := s.did .networkDisconnect
    { s with wait_for_iterate := uadd now 5000 }
  else if s.registered = 0 then
    let s := { s with registered := -1 }
    let s := s.did (.status .REGISTER_IN_PROGRESS)
    let s := s.did .srpcRegisterDevice
    s.did .clearAllUpdateReady
  else if s.registered = 1 then
    let s := s.did .networkPing
    let s := if env.pingOk = false then s.did .networkDisconnect else s
    if time_diff > 0 then
      let s := s.did .elementsIterateConnected
      let s := serviceChannels s time_diff
      { s with last_iterate_time := now }
    else s
  else s

/-- `SuplaDeviceClass::iterate`, for a tick at time `now` in which the
collaborators answer as `env` says. -/
def iterate (s : ConnState) (env : NetEnv) (now : Nat) : ConnState :=
  if ¬ s.initialized then s
  else
    let time_diff := usub now s.last_iterate_time
    let s := s.did .elementsIterateAlways
    let s := s.did .updateStorageOccasionally
    if s.wait_for_iterate ≠ 0 ∧ now < s.wait_for_iterate then s
    else
      let s := { s with wait_for_iterate := 0 }
      if s.connectionFailCounter > 30 then
        let s := { s with connectionFailCounter := 0 }
        s.did .networkSetup
      else
        let s := s.did .networkIsReady
        if ¬ env.isReady then
          let s := { s with wait_for_iterate := uadd now 100 }
          let s := s.did (.status .NETWORK_DISCONNECTED)
          let s := { s with networkIsNotReadyCounter := s.networkIsNotReadyCounter + 1 }
          if s.networkIsNotReadyCounter > 20 then
            let s := { s with networkIsNotReadyCounter := 0 }
            { s with connectionFailCounter := s.connectionFailCounter + 1 }
          else s
        else
          let s := { s with networkIsNotReadyCounter := 0 }
          let sc := iterate_connect s env now
          if sc.2 then iterate_connected sc.1 env now time_diff else sc.1

/-- A run of ticks, each with the answers of the collaborators and its time. -/
def iterate_run (s : ConnState) : List (NetEnv × Nat) → ConnState
  | [] => s
  | t :: ts => iterate_run (iterate s t.1 t.2) ts

/-- The tick at time `now` passes the backoff gate of state `s`. -/
def ungated (s : ConnState) (now : Nat) : Bool :=
  !(decide (s.wait_for_iterate ≠ 0) && decide (now < s.wait_for_iterate))

/-- Every tick of a run passes the gate of the state it meets. -/
def ungatedRun (s : ConnState) : List (NetEnv × Nat) → Bool
  | [] => true
  | t :: ts => ungated s t.2 && ungatedRun (iterate s t.1 t.2) ts

/-- The network is ready, the transport is not connected and the connect
attempt fails. -/
def connectFails (env : NetEnv) : Bool :=
  env.isReady && !env.connected && decide (env.connectResult ≠ 1)

/-- Number of network re-setups recorded. -/
def setupCount (s : ConnState) : Nat :=
  s.log.count .networkSetup

/-! ## Tasks and server commands -/

/-- The `uint8_t percent` of the position estimate, before truncation to 8
bits: `(rs->position - 100) / 100` in unsigned arithmetic. -/
def positionPercent (rs : SuplaDeviceRollerShutter) : Nat :=
  usub rs.position 100 / 100

/-- `SuplaDeviceClass::rs_add_task(rs, percent)`; `percent` is an
`unsigned char`. -/
def rs_add_task (rs : SuplaDeviceRollerShutter) (percent : Nat) : SuplaDeviceRollerShutter :=
  if positionPercent rs = percent then rs
  else
    let percent := if percent > 100 then 100 else percent
    { rs with task := { percent := percent, direction := RS_DIRECTION_NONE, active := true } }

/-- One channel of the device with everything a server command for it can
touch: the relay view of the channel, the roller-shutter record attached to
the channel, if there is one, and the calls of `rs_save_settings`, oldest
first, as (channel, full opening time, full closing time). -/
structure DevSlice where
  relay : RelayCtx
  roller_shutter : Option SuplaDeviceRollerShutter
  saved_settings : List (Nat × Nat × Nat)

/-- `SuplaDeviceClass::rsByChannelNumber`, on the one record of the slice. -/
def rsByChannelNumber (d : DevSlice) (channel_number : Nat) :
    Option SuplaDeviceRollerShutter :=
  match d.roller_shutter with
  | some rs => if rs.channel_number = channel_number then some rs else none
  | none => none

/-- `SuplaDeviceClass::rs_set_relay(channel_number, value)`: the relay request
with `cancel_task` and `stop_delay` both true, on the record of the channel. -/
def rs_set_relay_channel (d : DevSlice) (channel_number : Nat) (value : Nat) (now : Nat) :
    DevSlice :=
  match rsByChannelNumber d channel_number with
  | some rs =>
    let c := rs_set_relay ⟨rs, d.relay.pin, d.relay.io⟩ value true true now
    { d with roller_shutter := some c.rs }
  | none => d

/-- The travel times a server command carries, from the 32-bit pattern of
`DurationMS`: closing time in the low, opening time in the high 16 bits, in
tenths of a second, converted to ms. -/
def serverClosingTime (DurationMS : Int) : Nat :=
  umul ((DurationMS % 4294967296).toNat % 65536) 100

/-- See `serverClosingTime`. -/
def serverOpeningTime (DurationMS : Int) : Nat :=
  umul (((DurationMS % 4294967296).toNat / 65536) % 65536) 100

/-- The settings update of `channelSetValueByServer` on the record: travel
times that differ from the stored ones are stored, the position becomes
unknown (`-1`) and is marked for saving. -/
def rs_server_settings (rs : SuplaDeviceRollerShutter) (DurationMS : Int) :
    SuplaDeviceRollerShutter :=
  let ct := serverClosingTime DurationMS
  let ot := serverOpeningTime DurationMS
  if ct ≠ rs.full_closing_time ∨ ot ≠ rs.full_opening_time then
    let rs := { rs with full_closing_time := ct }
    let rs := { rs with full_opening_time := ot }
    let rs := { rs with position := 4294967295 }
    { rs with save_position := 1 }
  else rs

/-- `SuplaDeviceClass::channelSetValueByServer`, for the channel of the slice;
`value0` is `new_value->value[0]`.  `rs_save_settings` is called, with the new
travel times, exactly when the settings update changes them. -/
def channelSetValueByServer (d : DevSlice) (ChannelNumber : Nat) (value0 : Int)
    (DurationMS : Int) (now : Nat) : DevSlice :=
  if ChannelNumber = d.relay.ch.Number then
    if d.relay.ch.chType = SUPLA_CHANNELTYPE_RELAY then
      if d.relay.ch.FuncList = SUPLA_BIT_FUNC_CONTROLLINGTHEROLLERSHUTTER then
        match rsByChannelNumber d ChannelNumber with
        | some rs =>
          let v := value0
          let d :=
            if serverClosingTime DurationMS ≠ rs.full_closing_time ∨
                serverOpeningTime DurationMS ≠ rs.full_opening_time then
              { d with saved_settings := d.saved_settings ++
                  [(rs.channel_number, serverOpeningTime DurationMS,
                    serverClosingTime DurationMS)] }
            else d
          let rs := rs_server_settings rs DurationMS
          let d := { d with roller_shutter := some rs }
          if v ≥ 10 ∧ v ≤ 110 then
            { d with roller_shutter := some (rs_add_task rs (Int.toNat (v - 10))) }
          else if v = 1 then
            rs_set_relay_channel d rs.channel_number RS_RELAY_DOWN now
          else if v = 2 then
            rs_set_relay_channel d rs.channel_number RS_RELAY_UP now
          else
            rs_set_relay_channel d rs.channel_number RS_RELAY_OFF now
        | none => d
      else
        { d with relay := channelSetValue d.relay value0 DurationMS }
    else d
  else d

/-! ## Task execution and the service pass -/

/-- `SuplaDeviceClass::rs_time_margin(full_time, time, m)`; the product is an
`unsigned long`. -/
def rs_time_margin (full_time time m : Nat) : Bool :=
  decide (full_time > 0 ∧ umul time 100 / full_time < m)

/-- The store `rs->task.direction = direction`. -/
def taskSetDirection (c : RsCtx) (direction : Nat) : RsCtx :=
  { c with rs := { c.rs with task := { c.rs.task with direction := direction } } }

/-- The store `rs->task.active = 0`. -/
def taskDeactivate (c : RsCtx) : RsCtx :=
  { c with rs := { c.rs with task := { c.rs.task with active := false } } }

/-- The branch of `rs_task_processing` for an active task and a known
position; `percent` is a `uint8_t`. -/
def rs_task_processing_known (c : RsCtx) (now : Nat) : RsCtx :=
  let percent := positionPercent c.rs % 256
  if c.rs.task.direction = RS_DIRECTION_NONE then
    if percent > c.rs.task.percent then
      rs_set_relay (taskSetDirection c RS_DIRECTION_UP) RS_RELAY_UP false false now
    else if percent < c.rs.task.percent then
      rs_set_relay (taskSetDirection c RS_DIRECTION_DOWN) RS_RELAY_DOWN false false now
    else
      rs_set_relay (taskDeactivate c) RS_RELAY_OFF false false now
  else if (c.rs.task.direction = RS_DIRECTION_UP ∧ percent ≤ c.rs.task.percent) ∨
      (c.rs.task.direction = RS_DIRECTION_DOWN ∧ percent ≥ c.rs.task.percent) then
    if c.rs.task.percent = 0 ∧ rs_time_margin c.rs.full_opening_time c.rs.up_time 5 = true then
      c
    else if c.rs.task.percent = 100 ∧
        rs_time_margin c.rs.full_closing_time c.rs.down_time 5 = true then
      c
    else
      rs_set_relay (taskDeactivate c) RS_RELAY_OFF false false now
  else c

/-- `SuplaDeviceClass::rs_task_processing(rs, pin)`. -/
def rs_task_processing (c : RsCtx) (now : Nat) : RsCtx :=
  if c.rs.task.active = false then c
  else if c.rs.position < 100 ∨ c.rs.position > 10100 then
    if suplaDigitalRead_isHI c c.pin.pin1 = false ∧
        suplaDigitalRead_isHI c c.pin.pin2 = false ∧
        c.rs.full_opening_time > 0 ∧ c.rs.full_closing_time > 0 then
      if c.rs.task.percent < 50 then rs_set_relay c RS_RELAY_UP false false now
      else rs_set_relay c RS_RELAY_DOWN false false now
    else c
  else rs_task_processing_known c now

/-- One roller shutter with what a service pass of it can touch: the record
with its pin binding and the digital I/O, the channel entry of its channel,
the uplink, the number of registered channels, and the calls of
`rs_save_position`, oldest first, as (channel, position). -/
structure ShutterDev where
  c : RsCtx
  ch : Channel
  up : Uplink
  channel_count : Nat
  saved_positions : List (Nat × Nat)

/-- `SuplaDeviceClass::rs_button_released(btn)`; `level` is what the Arduino
`digitalRead` reports for each pin during the pass (`HIGH` is 1). -/
def rs_button_released (btn : SuplaDeviceRollerShutterButton) (level : Nat → Nat)
    (now : Nat) : SuplaDeviceRollerShutterButton × Bool :=
  if btn.pin > 0 then
    let v := level btn.pin % 256
    if v ≠ btn.value ∧ usub now btn.time ≥ 50 then ({ btn with value := v }, decide (v = 1))
    else (btn, false)
  else (btn, false)

/-- The 1-second bookkeeping of `iterate_rollershutter`, entered when
`last_iterate_time - tick_1s >= 1000`: value-changed notification with the
percent narrowed to the byte of the `char` argument, 10-minute timeout, saving
of the position, restart of the 1-second timer. -/
def rs_tick_1s (d : ShutterDev) (now : Nat) : ShutterDev :=
  let d :=
    if d.c.rs.last_position ≠ d.c.rs.position then
      let d := { d with c := { d.c with rs := { d.c.rs with last_position := d.c.rs.position } } }
      let r := channelValueChanged d.up d.ch d.c.rs.channel_number
        ((positionPercent d.c.rs % 256 : Nat) : Int)
      { d with up := r.1, ch := r.2 }
    else d
  let d :=
    if d.c.rs.up_time > 600000 ∨ d.c.rs.down_time > 600000 then
      { d with c := rs_set_relay d.c RS_RELAY_OFF false false now }
    else d
  let d :=
    if d.c.rs.save_position ≠ 0 then
      let d := { d with c := { d.c with rs := { d.c.rs with save_position := 0 } } }
      { d with saved_positions := d.saved_positions ++ [(d.c.rs.channel_number, d.c.rs.position)] }
    else d
  { d with c := { d.c with rs := { d.c.rs with tick_1s := now } } }

/-- The first stage of `SuplaDeviceClass::iterate_relay`: the countdown of the
bistable pulse; at expiry the drive pin is released.  The declaration of the
timers is not part of the sources; the subtraction is taken in `unsigned
long`, the type of `time_diff`. -/
def iterate_relay_pulse (c : RelayCtx) (time_diff : Nat) : RelayCtx :=
  if c.pin.bi_time_left ≠ 0 then
    if time_diff ≥ c.pin.bi_time_left then
      { c with
        io := c.io.digitalWrite c.pin.pin1 (if c.pin.hiIsLo then true else false)
        pin := { c.pin with bi_time_left := 0 } }
    else if c.pin.bi_time_left > 0 then
      { c with pin := { c.pin with bi_time_left := usub c.pin.bi_time_left time_diff } }
    else c
  else c

/-- The second stage of `iterate_relay`: the countdown of the auto-off timer;
at expiry the mirrored value of a relay is cleared and the channel is switched
off through `channelSetValue(channel_number, 0, 0)`. -/
def iterate_relay_autooff (c : RelayCtx) (time_diff : Nat) : RelayCtx :=
  if c.pin.time_left ≠ 0 then
    if time_diff ≥ c.pin.time_left then
      let c := { c with pin := { c.pin with time_left := 0 } }
      let c :=
        if c.ch.chType = SUPLA_CHANNELTYPE_RELAY then { c with ch := { c.ch with value0 := 0 } }
        else c
      channelSetValue c 0 0
    else if c.pin.time_left > 0 then
      { c with pin := { c.pin with time_left := usub c.pin.time_left time_diff } }
    else c
  else c

/-- The third stage of `iterate_relay`, for a bistable relay: when
`time_diff >= vc_time` the timer is decremented and the sense pin is not read;
otherwise the sense pin is read, and a level that differs from `last_val` is
stored, re-arms the timer with 200, sets the mirrored value and is notified. -/
def iterate_relay_poll (c : RelayCtx) (time_diff : Nat) : RelayCtx :=
  if c.ch.chType = SUPLA_CHANNELTYPE_RELAY ∧ c.pin.bistable = true then
    if time_diff ≥ c.pin.vc_time then
      { c with pin := { c.pin with vc_time := usub c.pin.vc_time time_diff } }
    else
      let val := c.io.digitalRead c.pin.pin2
      if val ≠ c.pin.last_val then
        let c := { c with
                   pin := { c.pin with last_val := val, vc_time := 200 }
                   ch := { c.ch with value0 := levelValue val } }
        let uc := channelValueChanged c.up c.ch c.ch.Number (levelValue val)
        { c with up := uc.1, ch := uc.2 }
      else c
  else c

/-- `SuplaDeviceClass::iterate_relay(pin, channel, time_diff, channel_number)`. -/
def iterate_relay (c : RelayCtx) (time_diff : Nat) : RelayCtx :=
  iterate_relay_poll (iterate_relay_autooff (iterate_relay_pulse c time_diff) time_diff) time_diff

/-- The environment changes what the pins read: the sense function of the
digital I/O is replaced, the latch and the log stay. -/
def RelayCtx.senseBecomes (c : RelayCtx) (sense : (Nat → Bool) → Nat → Bool) : RelayCtx :=
  { c with io := { c.io with sense := sense } }

/-! ## The calibrate step of a pass -/

/-- The closing branch of the position integration up to and including its
call of `rs_calibrate`: the state it hands to `rs_move_position`. -/
def rs_integrate_closing_calibrate (c : RsCtx) (time_diff : Nat) : RsCtx :=
  let c := { c with rs := { c.rs with up_time := 0 } }
  let c := { c with rs := { c.rs with down_time := uadd c.rs.down_time time_diff } }
  { c with rs := rs_calibrate c.rs c.rs.full_closing_time c.rs.down_time 1100 }

/-- The opening branch of the position integration up to and including its
call of `rs_calibrate`. -/
def rs_integrate_opening_calibrate (c : RsCtx) (time_diff : Nat) : RsCtx :=
  let c := { c with rs := { c.rs with up_time := uadd c.rs.up_time time_diff } }
  let c := { c with rs := { c.rs with down_time := 0 } }
  { c with rs := rs_calibrate c.rs c.rs.full_opening_time c.rs.up_time 100 }

/-! ## Closed forms used by the proofs -/

/-- Fire time the off branch of `rs_set_relay` stores in cvr1. -/
def stopFireTime (start_time now : Nat) : Nat :=
  if usub now start_time ≥ RS_STOP_DELAY then now
  else usub (uadd now RS_STOP_DELAY) (usub now start_time)

/-- Fire time the idle start branch of `rs_set_relay` stores in cvr2. -/
def startFireTime (stop_time now : Nat) : Nat :=
  if usub now stop_time ≥ RS_START_DELAY then now
  else usub (uadd now RS_START_DELAY) (usub now stop_time)

/-- The pin `rs_set_relay` senses for a direction request: the relay of the
opposite direction. -/
def oppositePin (pin : SuplaChannelPin) (value : Nat) : Nat :=
  if value = RS_RELAY_DOWN then pin.pin2 else pin.pin1

/-- The pin writes `rs_cvr_processing` performs when a record with the given
value fires, in program order, as (pin, raw level) pairs. -/
def cvrWrites (b : SuplaChannelPin) (value : Nat) : List (Nat × Bool) :=
  if value = RS_RELAY_UP then
    [(b.pin1 % 256, b.hiIsLo), (b.pin2 % 256, !b.hiIsLo)]
  else if value = RS_RELAY_DOWN then
    [(b.pin2 % 256, b.hiIsLo), (b.pin1 % 256, !b.hiIsLo)]
  else
    [(b.pin1 % 256, b.hiIsLo), (b.pin2 % 256, b.hiIsLo)]

/-- States of one shutter reachable from the state `addRollerShutterRelays`
creates, by relay requests and by calls of `rs_cvr_processing`, with arbitrary
values, flags and clock readings; the environment may change the digital I/O
between calls. -/
inductive Reachable : RsCtx → Prop where
  | init (channel_number : Nat) (pin : SuplaChannelPin) (io : Io) :
      Reachable ⟨rsZero channel_number, pin, io⟩
  | request (c : RsCtx) (value : Nat) (cancel_task stop_delay : Bool) (now : Nat) :
      Reachable c → Reachable (rs_set_relay c value cancel_task stop_delay now)
  | service (c : RsCtx) (cvr : CvrSel) (now : Nat) :
      Reachable c → Reachable (rs_cvr_processing c cvr now)
  | environment (c : RsCtx) (io : Io) :
      Reachable c → Reachable { c with io := io }

/-- A run of service passes at the given clock readings, oldest first; of each
pass only the two `rs_cvr_processing` calls are taken. -/
def rs_cvr_run (c : RsCtx) (times : List Nat) : RsCtx :=
  times.foldl rs_cvr_pass c

/-- Progress of a reversal whose stop is scheduled at `T` and whose start, of
value `v`, at `T + RS_START_DELAY`, in a state `s` whose latest pass was at
time `lo`; `w0` is the write log at the time of the request.  Either nothing
has fired and nothing was written, or only the stop has fired, or the stop and
then the start have fired. -/
def ReversalPhase (T v : Nat) (b : SuplaChannelPin) (w0 : List (Nat × Bool)) (lo : Nat)
    (s : RsCtx) : Prop :=
  s.pin = b ∧ s.rs.cvr1.value = RS_RELAY_OFF ∧ s.rs.cvr1.time = T ∧
  s.rs.cvr2.value = v ∧ s.rs.cvr2.time = T + RS_START_DELAY ∧
  ((s.rs.cvr1.active = true ∧ s.rs.cvr2.active = true ∧ s.io.writes = w0) ∨
   (s.rs.cvr1.active = false ∧ s.rs.cvr2.active = true ∧
      T ≤ s.rs.stop_time ∧ s.rs.stop_time ≤ lo ∧
      s.io.writes = w0 ++ cvrWrites b RS_RELAY_OFF ∧
      drivenActive b s.io.out b.pin1 = false ∧ drivenActive b s.io.out b.pin2 = false) ∨
   (s.rs.cvr1.active = false ∧ s.rs.cvr2.active = false ∧
      T ≤ s.rs.stop_time ∧ s.rs.stop_time ≤ s.rs.start_time ∧
      T + RS_START_DELAY ≤ s.rs.start_time ∧
      s.io.writes = w0 ++ cvrWrites b RS_RELAY_OFF ++ cvrWrites b v))

/-- Invariant of a closing run from position 100 after `E` ms of motion, for a
full closing time `F`: binding, I/O and both deferred records are as at the
start, the accumulated time is at most `E`, and the position either is at the
closing limit or accounts for all the time consumed so far and lags the exact
value `100 + E * 10000 / F` by less than `1 + 10000 / 2^51`. -/
def ClosingInv (F : Nat) (b : SuplaChannelPin) (io : Io)
    (r1 r2 : SuplaDeviceRollerShutterCVR) (E : Nat) (s : RsCtx) : Prop :=
  s.pin = b ∧ s.io = io ∧ s.rs.cvr1 = r1 ∧ s.rs.cvr2 = r2 ∧
  s.rs.full_closing_time = F ∧ s.rs.down_time ≤ E ∧
  100 ≤ s.rs.position ∧ s.rs.position ≤ 10100 ∧
  (s.rs.position = 10100 ∨
    ((E - s.rs.down_time) * 10000 ≤ (s.rs.position - 100) * F ∧
     E * 10000 * 2251799813685247 ≤ (s.rs.position - 100 + 1) * F * 2251799813685248))

/-- The position that the update block of `rs_move_position` stores, from the
position `pos` before and the delta `p`: the clamp tests the 32-bit difference
or sum read as a signed `int`. -/
def movedPosition (pos p : Nat) (up : Bool) : Nat :=
  if p > 0 then
    if up then
      if toInt32 (usub pos p) ≤ 100 then 100 else usub pos p
    else
      if toInt32 (uadd pos p) ≥ 10100 then 10100 else uadd pos p
  else pos

/-- The state after the update block of `rs_move_position` (the statement
`if (p > 0) ...` with the dirty flag). -/
def rs_move_position_update (c : RsCtx) (p : Nat) (up : Bool) : RsCtx :=
  if p > 0 then
    let d :=
      if up then
        if toInt32 (usub c.rs.position p) ≤ 100 then
          { c with rs := { c.rs with position := 100 } }
        else { c with rs := { c.rs with position := usub c.rs.position p } }
      else
        if toInt32 (uadd c.rs.position p) ≥ 10100 then
          { c with rs := { c.rs with position := 10100 } }
        else { c with rs := { c.rs with position := uadd c.rs.position p } }
    if c.rs.position ≠ d.rs.position then
      { d with rs := { d.rs with save_position := 1 } }
    else d
  else c

/-! ## Concrete scenarios -/

/-- A binding with the down relay on pin 4 and the up relay on pin 5,
active-high, not bistable. -/
def exPin : SuplaChannelPin :=
  { pin1 := 4, pin2 := 5, hiIsLo := false, bistable := false,
    time_left := 0, bi_time_left := 0, vc_time := 0, last_val := false }

/-- A freshly added shutter on channel 0, both relays low, pins reading back
the latch. -/
def exInit : RsCtx := ⟨rsZero 0, exPin, Io.ideal (fun _ => false)⟩

/-- The shutter after an accepted "up" request at time 4000: a start is in
flight and no stop is. -/
def exStartPending : RsCtx := rs_set_relay exInit RS_RELAY_UP true true 4000

/-- The shutter after an accepted "off" request at time 100: a stop is in
flight and no start is. -/
def exStopPending : RsCtx := rs_set_relay exInit RS_RELAY_OFF true true 100

/-- The shutter running down: "down" requested at time 1000 and served by the
pass at time 1000. -/
def exRunningDown : RsCtx :=
  rs_cvr_pass (rs_set_relay exInit RS_RELAY_DOWN true true 1000) 1000

/-- The running-down shutter after "up" is requested at time 5000. -/
def exReversal : RsCtx := rs_set_relay exRunningDown RS_RELAY_UP true true 5000

/-- A shutter calibrated to 1000 ms of full closing time, at known position
100 (fully open), running down: the down relay (pin 4) is sensed active. -/
def exClosing : RsCtx :=
  { rs := { rsZero 0 with position := 100, full_opening_time := 1000,
                          full_closing_time := 1000 }
    pin := exPin
    io := Io.ideal (fun q => decide (q = 4)) }


/-- A plain relay channel number 3 with primary pin 4 and secondary pin 5,
active-high, both low, pins reading back the latch, device registered. -/
def exRelay : RelayCtx :=
  { pin := exPin
    ch := { Number := 3, chType := SUPLA_CHANNELTYPE_RELAY, FuncList := 0, value0 := 0 }
    io := Io.ideal (fun _ => false)
    up := { srpc := true, registered := 1, sent := [] }
    delayed := 0 }

/-- The plain relay with both pins stuck high: no read-back ever returns low. -/
def exRelayStuck : RelayCtx :=
  { exRelay with io := { out := fun _ => false, sense := fun _ _ => true, writes := [] } }

/-- A bistable relay on channel 3: drive pin 4, sense pin 5 reading high (the
relay is on), no pulse in flight, device registered. -/
def exBistableOn : RelayCtx :=
  { pin := { exPin with bistable := true }
    ch := { Number := 3, chType := SUPLA_CHANNELTYPE_RELAY, FuncList := 0, value0 := 1 }
    io := { out := fun _ => false, sense := fun o p => if p = 5 then true else o p,
            writes := [] }
    up := { srpc := true, registered := 1, sent := [] }
    delayed := 0 }

/-- An initialised, unregistered device with two channels and nothing recorded. -/
def exConn : ConnState :=
  { initialized := true, registered := 0, connectionFailCounter := 0,
    networkIsNotReadyCounter := 0, wait_for_iterate := 0, last_iterate_time := 0,
    channel_pin_count := 2, log := [] }

/-- A tick in which the network is ready and the connect attempt fails. -/
def exEnvFail : NetEnv :=
  { isReady := true, connected := false, connectResult := 0, srpcIterateOk := true,
    inbound := [], pingOk := true }

/-- A tick in which the network is ready and the connect attempt succeeds. -/
def exEnvOk : NetEnv := { exEnvFail with connectResult := 1 }

/-- 31 failing ticks, 2000 ms apart, starting at time 1000. -/
def exFailTicks : List (NetEnv × Nat) :=
  (List.range 31).map (fun i => (exEnvFail, 1000 + 2000 * i))

/-- The channel of a roller shutter calibrated to 10 s both ways, at known
position 5100 (50 %), idle. -/
def exShutterSlice : DevSlice :=
  { relay := { exRelay with
      ch := { Number := 3, chType := SUPLA_CHANNELTYPE_RELAY,
              FuncList := SUPLA_BIT_FUNC_CONTROLLINGTHEROLLERSHUTTER, value0 := 50 } }
    roller_shutter := some { rsZero 3 with position := 5100, full_opening_time := 10000,
                                            full_closing_time := 10000 }
    saved_settings := [] }

/-- The `DurationMS` of a server command that carries 10 s for both travel
times: 100 tenths of a second in each half. -/
def exDuration : Int := 100 * 65536 + 100

/-- A shutter with unknown position (0, as after `addRollerShutterRelays`),
both travel times 10000 ms, opening: the up relay (pin 5) is sensed active and
the down relay is not. -/
def exOpeningUnknown : RsCtx :=
  { rs := { rsZero 0 with full_opening_time := 10000, full_closing_time := 10000 }
    pin := exPin
    io := Io.ideal (fun q => decide (q = 5)) }

/-- A shutter device calibrated to 10000 ms each way, idle at 50 % (position
5100) on pins 4 (down) and 5 (up), active-high, no buttons, last serviced at
time 5000, registered with the server. -/
def exShutterHalf : ShutterDev :=
  { c := { rs := { rsZero 0 with position := 5100, last_position := 5100,
                                 full_opening_time := 10000, full_closing_time := 10000,
                                 last_iterate_time := 5000, tick_1s := 5000 }
           pin := exPin
           io := Io.ideal (fun _ => false) }
    ch := { Number := 0, chType := SUPLA_CHANNELTYPE_RELAY,
            FuncList := SUPLA_BIT_FUNC_CONTROLLINGTHEROLLERSHUTTER, value0 := 50 }
    up := { srpc := true, registered := 1, sent := [] }
    channel_count := 1
    saved_positions := [] }

/-- A tick in which the network is ready, the transport is connected, the
transport I/O succeeds without inbound calls and the liveness probe succeeds. -/
def exEnvConnected : NetEnv := { exEnvFail with connected := true }

/-- An initialised device with two channels whose registration is pending
(`registered == -1`), last serviced at time 900. -/
def exConnPending : ConnState :=
  { exConn with registered := -1, last_iterate_time := 900 }

/-- An initialised, registered device with two channels, last serviced at time
900. -/
def exConnRegistered : ConnState :=
  { exConn with registered := 1, last_iterate_time := 900 }

/-- The shutter of `exShutterHalf` at position 5200 (51 %) with an active task
for 51 % whose direction is down. -/
def exTaskReached : RsCtx :=
  { exShutterHalf.c with
    rs := { exShutterHalf.c.rs with position := 5200, task := ⟨51, RS_DIRECTION_DOWN, true⟩ } }

/-- The device `exShutterHalf` with 600001 ms of closing time accumulated. -/
def exRunaway : ShutterDev :=
  { exShutterHalf with
    c := { exShutterHalf.c with rs := { exShutterHalf.c.rs with down_time := 600001 } } }

/-- A button on pin 7 as `addRollerShutterButtons` leaves it: stored level 1
(released) and, from the cleared record, time stamp 0. -/
def exButton : SuplaDeviceRollerShutterButton := ⟨7, 1, 0⟩

/-- The bistable relay of `exBistableOn` (sense pin 5 reading high) with the
poll timer at 200 and the last observed level low. -/
def exBistableArmed : RelayCtx :=
  { exBistableOn with pin := { exBistableOn.pin with vc_time := 200 } }

/-- The sense function after the relay is toggled by hand: pin 5 reads low. -/
def exSenseLow : (Nat → Bool) → Nat → Bool := fun o p => if p = 5 then false else o p

/-- A shutter with unknown position (0), both travel times 10000 ms, closing:
the down relay (pin 4) is sensed active, and 10900 ms of closing time are
accumulated. -/
def exClosingUnknown : RsCtx :=
  { rs := { rsZero 0 with full_opening_time := 10000, full_closing_time := 10000,
                          down_time := 10900 }
    pin := exPin
    io := Io.ideal (fun q => decide (q = 4)) }

/-- The shutter of `exOpeningUnknown` with 10900 ms of opening time accumulated. -/
def exOpeningUnknownLate : RsCtx :=
  { exOpeningUnknown with rs := { exOpeningUnknown.rs with up_time := 10900 } }

/-- A shutter calibrated to 10000 ms each way at known position 5000, closing,
with 29 ms of closing time accumulated. -/
def exCreep : RsCtx :=
  { exClosing with
    rs := { exClosing.rs with position := 5000, full_opening_time := 10000,
                              full_closing_time := 10000, down_time := 29 } }

/-- A shutter with full closing time 100 ms at known position 5000, closing,
with 30000000 ms of closing time accumulated. -/
def exLongRun : RsCtx :=
  { exClosing with
    rs := { exClosing.rs with position := 5000, full_opening_time := 100,
                              full_closing_time := 100, down_time := 30000000 } }

theorem rs_set_relay_off_eq (rs : SuplaDeviceRollerShutter) (value now : Nat) :
    rs_set_relay_off rs value now =
      if rs.cvr1.active then rs
      else { rs with
             cvr1 := ⟨value, stopFireTime rs.start_time now, true⟩
             cvr2 := ⟨rs.cvr2.value, rs.cvr2.time, false⟩ } := by
  unfold rs_set_relay_off stopFireTime
  by_cases h1 : rs.cvr1.active = true
  · simp [h1]
  · by_cases h2 : usub now rs.start_time ≥ RS_STOP_DELAY <;> simp [h1, h2]

theorem rs_set_relay_pin (c : RsCtx) (value : Nat) (ct sd : Bool) (now : Nat) :
    (rs_set_relay c value ct sd now).pin = c.pin := by
  unfold rs_set_relay
  simp only []
  split_ifs <;> rfl

theorem rs_set_relay_io (c : RsCtx) (value : Nat) (ct sd : Bool) (now : Nat) :
    (rs_set_relay c value ct sd now).io = c.io := by
  unfold rs_set_relay
  simp only []
  split_ifs <;> rfl

theorem rs_set_relay_rs_off (c : RsCtx) (ct sd : Bool) (now : Nat) :
    (rs_set_relay c RS_RELAY_OFF ct sd now).rs =
      rs_set_relay_off (if ct then rs_cancel_task c.rs else c.rs) RS_RELAY_OFF now := by
  unfold rs_set_relay
  simp

theorem rs_set_relay_rs_dir (c : RsCtx) (value : Nat) (ct sd : Bool) (now : Nat)
    (hv : value ≠ RS_RELAY_OFF) :
    (rs_set_relay c value ct sd now).rs =
      if (if ct then rs_cancel_task c.rs else c.rs).cvr2.active then
        (if ct then rs_cancel_task c.rs else c.rs)
      else if suplaDigitalRead_isHI c (oppositePin c.pin value) then
        { (if ct then rs_cancel_task c.rs else c.rs) with
          cvr1 := ⟨RS_RELAY_OFF, stopFireTime c.rs.start_time now, true⟩
          cvr2 := ⟨value, uadd (stopFireTime c.rs.start_time now) RS_START_DELAY, true⟩ }
      else
        { (if ct then rs_cancel_task c.rs else c.rs) with
          cvr1 := ⟨c.rs.cvr1.value, c.rs.cvr1.time, false⟩
          cvr2 := ⟨value, startFireTime c.rs.stop_time now, true⟩ } := by
  unfold rs_set_relay
  simp only [hv, if_false, rs_set_relay_off_eq, oppositePin, startFireTime]
  cases ct <;> simp [rs_cancel_task] <;> split_ifs <;> simp_all


/-! ## Relay requests: which request is ignored -/

/-- C1 (counterexample): with a start in flight and no stop in flight, an "off"
request at time 4000 is not ignored: it clears the active flag of the start
record and schedules the stop. -/
theorem C1_off_request_cancels_pending_start :
    exStartPending.rs.cvr1.active = false ∧
    exStartPending.rs.cvr2 = ⟨RS_RELAY_UP, 4000, true⟩ ∧
    (rs_set_relay exStartPending RS_RELAY_OFF false false 4000).rs.cvr2
      = ⟨RS_RELAY_UP, 4000, false⟩ ∧
    (rs_set_relay exStartPending RS_RELAY_OFF false false 4000).rs.cvr1
      = ⟨RS_RELAY_OFF, 4000, true⟩ := by
  decide

/-- C1 (amended): in a state in which the start record cvr2 is active, an "off"
request is ignored exactly when the stop record cvr1 is active as well: then
both records are left as they are and the pending start still fires.  When
cvr1 is not active the request is accepted: cvr2 is deactivated, keeping its
time and value, and cvr1 becomes active with value off. -/
theorem C1_off_request_with_start_in_flight (c : RsCtx) (cancel_task stop_delay : Bool)
    (now : Nat) (h : c.rs.cvr2.active = true) :
    (c.rs.cvr1.active = true →
      (rs_set_relay c RS_RELAY_OFF cancel_task stop_delay now).rs.cvr1 = c.rs.cvr1 ∧
      (rs_set_relay c RS_RELAY_OFF cancel_task stop_delay now).rs.cvr2 = c.rs.cvr2) ∧
    (c.rs.cvr1.active = false →
      (rs_set_relay c RS_RELAY_OFF cancel_task stop_delay now).rs.cvr2
        = { c.rs.cvr2 with active := false } ∧
      (rs_set_relay c RS_RELAY_OFF cancel_task stop_delay now).rs.cvr1.active = true ∧
      (rs_set_relay c RS_RELAY_OFF cancel_task stop_delay now).rs.cvr1.value
        = RS_RELAY_OFF) := by
  have _hstart := h
  rw [rs_set_relay_rs_off, rs_set_relay_off_eq]
  constructor
  · intro h1
    cases cancel_task <;> simp [rs_cancel_task, h1]
  · intro h1
    cases cancel_task <;> simp [rs_cancel_task, h1]

/-- Witness of C1 (amended) at the state with only a start in flight. -/
theorem C1_off_request_with_start_in_flight_witness :
    (rs_set_relay exStartPending RS_RELAY_OFF true true 4000).rs.cvr2
        = { exStartPending.rs.cvr2 with active := false } ∧
      (rs_set_relay exStartPending RS_RELAY_OFF true true 4000).rs.cvr1.active = true ∧
      (rs_set_relay exStartPending RS_RELAY_OFF true true 4000).rs.cvr1.value
        = RS_RELAY_OFF :=
  (C1_off_request_with_start_in_flight exStartPending true true 4000 (by decide)).2
    (by decide)

/-- C2 (counterexample): with a stop in flight and no start in flight, an "up"
request at time 200 is not ignored: it clears the active flag of the stop
record and schedules a start. -/
theorem C2_up_request_cancels_pending_stop :
    exStopPending.rs.cvr1 = ⟨RS_RELAY_OFF, 500, true⟩ ∧
    exStopPending.rs.cvr2.active = false ∧
    (rs_set_relay exStopPending RS_RELAY_UP false false 200).rs.cvr1
      = ⟨RS_RELAY_OFF, 500, false⟩ ∧
    (rs_set_relay exStopPending RS_RELAY_UP false false 200).rs.cvr2
      = ⟨RS_RELAY_UP, 1000, true⟩ := by
  decide

/-- C2 (amended): in a state in which the stop record cvr1 is active, an "up"
or "down" request is ignored exactly when the start record cvr2 is active as
well: then both records are left as they are.  When cvr2 is not active the
request is accepted and a start is scheduled with the requested value; the
pending stop is cancelled (cvr1 deactivated, time and value kept) if the
relay of the opposite direction is not sensed active, and re-issued through
the nested off request if it is. -/
theorem C2_direction_request_with_stop_in_flight (c : RsCtx) (value : Nat)
    (cancel_task stop_delay : Bool) (now : Nat)
    (hv : value = RS_RELAY_UP ∨ value = RS_RELAY_DOWN) (h : c.rs.cvr1.active = true) :
    (c.rs.cvr2.active = true →
      (rs_set_relay c value cancel_task stop_delay now).rs.cvr1 = c.rs.cvr1 ∧
      (rs_set_relay c value cancel_task stop_delay now).rs.cvr2 = c.rs.cvr2) ∧
    (c.rs.cvr2.active = false →
      (rs_set_relay c value cancel_task stop_delay now).rs.cvr2.active = true ∧
      (rs_set_relay c value cancel_task stop_delay now).rs.cvr2.value = value ∧
      (suplaDigitalRead_isHI c (oppositePin c.pin value) = false →
        (rs_set_relay c value cancel_task stop_delay now).rs.cvr1
          = { c.rs.cvr1 with active := false }) ∧
      (suplaDigitalRead_isHI c (oppositePin c.pin value) = true →
        (rs_set_relay c value cancel_task stop_delay now).rs.cvr1.active = true ∧
        (rs_set_relay c value cancel_task stop_delay now).rs.cvr1.value = RS_RELAY_OFF)) := by
  have hv0 : value ≠ RS_RELAY_OFF := by
    rcases hv with hv | hv <;> simp [hv, RS_RELAY_OFF, RS_RELAY_UP, RS_RELAY_DOWN]
  have _hstop := h
  rw [rs_set_relay_rs_dir c value cancel_task stop_delay now hv0]
  refine ⟨?_, ?_⟩
  · intro h2
    cases cancel_task <;> simp [rs_cancel_task, h2]
  · intro h2
    refine ⟨?_, ?_, ?_, ?_⟩
    · cases cancel_task <;> simp [rs_cancel_task, h2] <;> split_ifs <;> rfl
    · cases cancel_task <;> simp [rs_cancel_task, h2] <;> split_ifs <;> rfl
    · intro hp
      cases cancel_task <;> simp [rs_cancel_task, h2, hp]
    · intro hp
      cases cancel_task <;> simp [rs_cancel_task, h2, hp]

/-- Witness of C2 (amended) at the state with only a stop in flight. -/
theorem C2_direction_request_with_stop_in_flight_witness :
    (rs_set_relay exStopPending RS_RELAY_UP true true 200).rs.cvr2.active = true ∧
    (rs_set_relay exStopPending RS_RELAY_UP true true 200).rs.cvr1
      = { exStopPending.rs.cvr1 with active := false } :=
  have h := (C2_direction_request_with_stop_in_flight exStopPending RS_RELAY_UP true true 200
    (Or.inl rfl) (by decide)).2 (by decide)
  ⟨h.1, h.2.2.1 (by decide)⟩


/-! ## Relay requests: scheduled fire times -/

theorem stopFireTime_eq_max (start_time now : Nat) (h1 : start_time ≤ now)
    (h2 : now + RS_STOP_DELAY < ULONG_SIZE) :
    stopFireTime start_time now = max now (start_time + RS_STOP_DELAY) := by
  unfold stopFireTime usub uadd
  simp only [RS_STOP_DELAY, ULONG_SIZE] at *
  split_ifs <;> omega

theorem startFireTime_eq_max (stop_time now : Nat) (h1 : stop_time ≤ now)
    (h2 : now + RS_START_DELAY < ULONG_SIZE) :
    startFireTime stop_time now = max now (stop_time + RS_START_DELAY) := by
  unfold startFireTime usub uadd
  simp only [RS_START_DELAY, ULONG_SIZE] at *
  split_ifs <;> omega

/-- C6: an "off" request accepted at time now (no stop in flight), with
start_time <= now and now + 500 below the wrap of the clock, makes cvr1 active
with value off and fire time max(now, start_time + 500): now itself when at
least 500 ms have passed since the last start, else 500 ms after that start. -/
theorem C6_accepted_off_fire_time (c : RsCtx) (cancel_task stop_delay : Bool) (now : Nat)
    (hacc : c.rs.cvr1.active = false) (hle : c.rs.start_time ≤ now)
    (hwrap : now + RS_STOP_DELAY < ULONG_SIZE) :
    (rs_set_relay c RS_RELAY_OFF cancel_task stop_delay now).rs.cvr1
        = ⟨RS_RELAY_OFF, max now (c.rs.start_time + RS_STOP_DELAY), true⟩ ∧
    (now - c.rs.start_time ≥ RS_STOP_DELAY →
      (rs_set_relay c RS_RELAY_OFF cancel_task stop_delay now).rs.cvr1.time = now) ∧
    (now - c.rs.start_time < RS_STOP_DELAY →
      (rs_set_relay c RS_RELAY_OFF cancel_task stop_delay now).rs.cvr1.time
        = c.rs.start_time + RS_STOP_DELAY) := by
  rw [rs_set_relay_rs_off, rs_set_relay_off_eq]
  have hmax := stopFireTime_eq_max c.rs.start_time now hle hwrap
  cases cancel_task <;> simp [rs_cancel_task, hacc, hmax] <;>
    (simp only [RS_STOP_DELAY]; omega)

/-- Witness of C6: the fresh shutter, "off" requested at time 100. -/
theorem C6_accepted_off_fire_time_witness :
    (rs_set_relay exInit RS_RELAY_OFF true true 100).rs.cvr1
        = ⟨RS_RELAY_OFF, max 100 (exInit.rs.start_time + RS_STOP_DELAY), true⟩ :=
  (C6_accepted_off_fire_time exInit true true 100 (by decide) (by decide) (by decide)).1

/-- C7: an accepted "up" or "down" request (no start in flight) that senses the
relay of the opposite direction active schedules the stop as the nested off
request does, leaving the task alone when the caller did not ask to cancel it,
and schedules the start 1000 ms after the stop's fire time, with the requested
direction as its value. -/
theorem C7_reversal_schedules_stop_then_start (c : RsCtx) (value : Nat)
    (cancel_task stop_delay : Bool) (now : Nat)
    (hv : value = RS_RELAY_UP ∨ value = RS_RELAY_DOWN)
    (hacc : c.rs.cvr2.active = false)
    (hopp : suplaDigitalRead_isHI c (oppositePin c.pin value) = true) :
    (rs_set_relay c value cancel_task stop_delay now).rs.cvr1
        = (rs_set_relay_off { c.rs with cvr1 := { c.rs.cvr1 with active := false } }
            RS_RELAY_OFF now).cvr1 ∧
    (rs_set_relay c value cancel_task stop_delay now).rs.cvr1.active = true ∧
    (rs_set_relay c value cancel_task stop_delay now).rs.cvr1.value = RS_RELAY_OFF ∧
    (rs_set_relay c value cancel_task stop_delay now).rs.cvr2.active = true ∧
    (rs_set_relay c value cancel_task stop_delay now).rs.cvr2.value = value ∧
    (rs_set_relay c value cancel_task stop_delay now).rs.cvr2.time
        = uadd (rs_set_relay c value cancel_task stop_delay now).rs.cvr1.time
            RS_START_DELAY ∧
    ((rs_set_relay c value cancel_task stop_delay now).rs.cvr1.time + RS_START_DELAY
        < ULONG_SIZE →
      (rs_set_relay c value cancel_task stop_delay now).rs.cvr2.time
        = (rs_set_relay c value cancel_task stop_delay now).rs.cvr1.time + RS_START_DELAY) ∧
    (rs_set_relay c value false stop_delay now).rs.task = c.rs.task := by
  have hv0 : value ≠ RS_RELAY_OFF := by
    rcases hv with hv | hv <;> simp [hv, RS_RELAY_OFF, RS_RELAY_UP, RS_RELAY_DOWN]
  rw [rs_set_relay_rs_dir c value cancel_task stop_delay now hv0,
    rs_set_relay_rs_dir c value false stop_delay now hv0, rs_set_relay_off_eq]
  cases cancel_task <;> simp [rs_cancel_task, hacc, hopp] <;>
    (intro h; simp only [uadd, ULONG_SIZE] at *; omega)

/-- Witness of C7: "up" requested at time 5000 while the shutter runs down. -/
theorem C7_reversal_schedules_stop_then_start_witness :
    exReversal.rs.cvr1.active = true ∧ exReversal.rs.cvr2.active = true ∧
    exReversal.rs.cvr2.value = RS_RELAY_UP ∧
    exReversal.rs.cvr2.time = uadd exReversal.rs.cvr1.time RS_START_DELAY :=
  have h := C7_reversal_schedules_stop_then_start exRunningDown RS_RELAY_UP true true 5000
    (Or.inl rfl) (by decide) (by decide)
  ⟨h.2.1, h.2.2.2.1, h.2.2.2.2.1, h.2.2.2.2.2.1⟩

/-- C8: an accepted "up" or "down" request (no start in flight) that senses the
relay of the opposite direction not active, at time now with stop_time <= now
and now + 1000 below the wrap of the clock, makes cvr2 active with the
requested value and fire time max(now, stop_time + 1000): now itself when at
least 1000 ms have passed since the last stop, else 1000 ms after that stop. -/
theorem C8_idle_start_fire_time (c : RsCtx) (value : Nat)
    (cancel_task stop_delay : Bool) (now : Nat)
    (hv : value = RS_RELAY_UP ∨ value = RS_RELAY_DOWN)
    (hacc : c.rs.cvr2.active = false)
    (hopp : suplaDigitalRead_isHI c (oppositePin c.pin value) = false)
    (hle : c.rs.stop_time ≤ now) (hwrap : now + RS_START_DELAY < ULONG_SIZE) :
    (rs_set_relay c value cancel_task stop_delay now).rs.cvr2
        = ⟨value, max now (c.rs.stop_time + RS_START_DELAY), true⟩ ∧
    (now - c.rs.stop_time ≥ RS_START_DELAY →
      (rs_set_relay c value cancel_task stop_delay now).rs.cvr2.time = now) ∧
    (now - c.rs.stop_time < RS_START_DELAY →
      (rs_set_relay c value cancel_task stop_delay now).rs.cvr2.time
        = c.rs.stop_time + RS_START_DELAY) := by
  have hv0 : value ≠ RS_RELAY_OFF := by
    rcases hv with hv | hv <;> simp [hv, RS_RELAY_OFF, RS_RELAY_UP, RS_RELAY_DOWN]
  rw [rs_set_relay_rs_dir c value cancel_task stop_delay now hv0]
  have hmax := startFireTime_eq_max c.rs.stop_time now hle hwrap
  cases cancel_task <;> simp [rs_cancel_task, hacc, hopp, hmax] <;>
    (simp only [RS_START_DELAY]; omega)

/-- Witness of C8: the fresh shutter, "up" requested at time 200. -/
theorem C8_idle_start_fire_time_witness :
    (rs_set_relay exInit RS_RELAY_UP true true 200).rs.cvr2
        = ⟨RS_RELAY_UP, max 200 (exInit.rs.stop_time + RS_START_DELAY), true⟩ :=
  (C8_idle_start_fire_time exInit RS_RELAY_UP true true 200 (Or.inl rfl) (by decide)
    (by decide) (by decide) (by decide)).1

/-- C9: task cancellation is independent of the relay timing: for every state,
value and time, the call with cancel_task = false leaves the task unchanged,
the call with cancel_task = true resets it to inactive, percent 0, direction
none, and both calls produce the same cvr1 and cvr2. -/
theorem C9_cancel_task_is_independent (c : RsCtx) (value : Nat) (stop_delay : Bool)
    (now : Nat) :
    (rs_set_relay c value false stop_delay now).rs.task = c.rs.task ∧
    (rs_set_relay c value true stop_delay now).rs.task
      = ⟨0, RS_DIRECTION_NONE, false⟩ ∧
    (rs_set_relay c value true stop_delay now).rs.cvr1
      = (rs_set_relay c value false stop_delay now).rs.cvr1 ∧
    (rs_set_relay c value true stop_delay now).rs.cvr2
      = (rs_set_relay c value false stop_delay now).rs.cvr2 := by
  by_cases hv : value = RS_RELAY_OFF
  · subst hv
    simp only [rs_set_relay_rs_off, rs_set_relay_off_eq]
    by_cases h1 : c.rs.cvr1.active = true <;> simp [rs_cancel_task, h1]
  · simp only [rs_set_relay_rs_dir c value _ stop_delay now hv]
    by_cases h2 : c.rs.cvr2.active = true <;>
      by_cases hp : suplaDigitalRead_isHI c (oppositePin c.pin value) = true <;>
      simp [rs_cancel_task, h2, hp]


/-! ## Firing a deferred record -/

theorem rs_cvr_processing_pin (c : RsCtx) (cvr : CvrSel) (now : Nat) :
    (rs_cvr_processing c cvr now).pin = c.pin := by
  unfold rs_cvr_processing suplaDigitalWrite_setHI
  simp only []
  split_ifs <;> rfl

theorem rs_cvr_processing_idle (c : RsCtx) (cvr : CvrSel) (now : Nat)
    (h : ¬ ((cvr.get c.rs).active = true ∧ (cvr.get c.rs).time ≤ now)) :
    rs_cvr_processing c cvr now = c := by
  unfold rs_cvr_processing
  simp only [h, if_false]

theorem cvrsel_get_setActive (cvr : CvrSel) (rs : SuplaDeviceRollerShutter) (a : Bool) :
    (cvr.get (cvr.setActive rs a)).value = (cvr.get rs).value := by
  cases cvr <;> rfl

theorem rs_cvr_processing_io (c : RsCtx) (cvr : CvrSel) (now : Nat)
    (h : (cvr.get c.rs).active = true ∧ (cvr.get c.rs).time ≤ now) :
    (rs_cvr_processing c cvr now).io.writes
        = c.io.writes ++ cvrWrites c.pin (cvr.get c.rs).value ∧
    (rs_cvr_processing c cvr now).io.out
        = (replay c.io.out (cvrWrites c.pin (cvr.get c.rs).value)).getLastD c.io.out ∧
    (rs_cvr_processing c cvr now).io.sense = c.io.sense := by
  unfold rs_cvr_processing
  simp only [h, and_self, if_true, cvrsel_get_setActive, cvrWrites]
  by_cases h1 : (cvr.get c.rs).value = RS_RELAY_UP
  · cases hb : c.pin.hiIsLo <;>
      simp [h1, suplaDigitalWrite_setHI, Io.digitalWrite, replay, hb]
  · by_cases h2 : (cvr.get c.rs).value = RS_RELAY_DOWN
    · have hdu : ¬ RS_RELAY_DOWN = RS_RELAY_UP := by decide
      cases hb : c.pin.hiIsLo <;>
        simp [h1, h2, hdu, suplaDigitalWrite_setHI, Io.digitalWrite, replay, hb]
    · cases hb : c.pin.hiIsLo <;>
        simp [h1, h2, suplaDigitalWrite_setHI, Io.digitalWrite, replay, hb]

theorem cvrWrites_safe (b : SuplaChannelPin) (value : Nat) (o0 : Nat → Bool)
    (hpins : b.pin1 % 256 ≠ b.pin2 % 256) :
    ∀ o ∈ replay o0 (cvrWrites b value),
      ¬ (drivenActive b o b.pin1 = true ∧ drivenActive b o b.pin2 = true) := by
  have hpins2 : b.pin2 % 256 ≠ b.pin1 % 256 := fun h => hpins h.symm
  unfold cvrWrites
  by_cases h1 : value = RS_RELAY_UP
  · cases hb : b.hiIsLo <;> simp [h1, replay, drivenActive, hb, hpins, hpins2]
  · by_cases h2 : value = RS_RELAY_DOWN
    · have hdu : ¬ RS_RELAY_DOWN = RS_RELAY_UP := by decide
      cases hb : b.hiIsLo <;> simp [h1, h2, hdu, replay, drivenActive, hb, hpins, hpins2]
    · cases hb : b.hiIsLo <;> simp [h1, h2, replay, drivenActive, hb, hpins, hpins2]

/-- C4: firing a deferred record never activates both relay pins at once.  For
every prior latch, record and value, with the two relays on different pins,
rs_cvr_processing appends to the write log exactly the writes of the record's
value (for a start the opposite pin inactive first, then the selected pin
active; for a stop both inactive), after each single one of these writes at
most one of the two relay pins is driven active, and after a stop both pins
are driven inactive. -/
theorem C4_cvr_processing_never_drives_both (c : RsCtx) (cvr : CvrSel) (now : Nat)
    (hpins : c.pin.pin1 % 256 ≠ c.pin.pin2 % 256) :
    (rs_cvr_processing c cvr now).io.writes
        = c.io.writes ++
          (if (cvr.get c.rs).active = true ∧ (cvr.get c.rs).time ≤ now then
            cvrWrites c.pin (cvr.get c.rs).value else []) ∧
    (∀ o ∈ replay c.io.out
          (if (cvr.get c.rs).active = true ∧ (cvr.get c.rs).time ≤ now then
            cvrWrites c.pin (cvr.get c.rs).value else []),
      ¬ (drivenActive c.pin o c.pin.pin1 = true ∧ drivenActive c.pin o c.pin.pin2 = true)) ∧
    (rs_cvr_processing c cvr now).io.out
        = (replay c.io.out
            (if (cvr.get c.rs).active = true ∧ (cvr.get c.rs).time ≤ now then
              cvrWrites c.pin (cvr.get c.rs).value else [])).getLastD c.io.out ∧
    ((cvr.get c.rs).active = true ∧ (cvr.get c.rs).time ≤ now →
      (cvr.get c.rs).value ≠ RS_RELAY_UP → (cvr.get c.rs).value ≠ RS_RELAY_DOWN →
      drivenActive c.pin (rs_cvr_processing c cvr now).io.out c.pin.pin1 = false ∧
      drivenActive c.pin (rs_cvr_processing c cvr now).io.out c.pin.pin2 = false) := by
  by_cases h : (cvr.get c.rs).active = true ∧ (cvr.get c.rs).time ≤ now
  · obtain ⟨hw, ho, _⟩ := rs_cvr_processing_io c cvr now h
    simp only [h, and_self, if_true]
    refine ⟨hw, cvrWrites_safe c.pin _ c.io.out hpins, ho, ?_⟩
    intro _ h1 h2
    rw [ho]
    cases hb : c.pin.hiIsLo <;>
      simp [cvrWrites, h1, h2, replay, drivenActive, hb, hpins]
  · rw [rs_cvr_processing_idle c cvr now h]
    simp [h, replay]

/-- Witness of C4: the start record of the reversal scenario fires at time
6000 on pins 4 and 5. -/
theorem C4_cvr_processing_never_drives_both_witness :
    (rs_cvr_processing exReversal .second 6000).io.writes
        = exReversal.io.writes ++ [(4, false), (5, true)] :=
  (C4_cvr_processing_never_drives_both exReversal .second 6000 (by decide)).1

/-! ## Mutual exclusion of the two records -/

/-- C5 (counterexample): the state after "up" is requested while the shutter
runs down is reachable and has both records active at once. -/
theorem C5_reversal_has_both_records_active :
    Reachable exReversal ∧ exReversal.rs.cvr1.active = true ∧
    exReversal.rs.cvr2.active = true := by
  refine ⟨?_, by decide, by decide⟩
  unfold exReversal exRunningDown rs_cvr_pass exInit
  exact .request _ _ _ _ _ (.service _ _ _ (.service _ _ _ (.request _ _ _ _ _ (.init _ _ _))))

/-- In every reachable state cvr1 holds value off, an active cvr2 holds a
direction, and when both are active cvr2 is scheduled 1000 ms after cvr1. -/
theorem cvr_invariant (c : RsCtx) (h : Reachable c) :
    c.rs.cvr1.value = RS_RELAY_OFF ∧
    (c.rs.cvr2.active = true → c.rs.cvr2.value ≠ RS_RELAY_OFF) ∧
    (c.rs.cvr1.active = true → c.rs.cvr2.active = true →
      c.rs.cvr2.time = uadd c.rs.cvr1.time RS_START_DELAY) := by
  induction h with
  | init n pin io => simp [rsZero, RS_RELAY_OFF]
  | request c value ct sd now _ ih =>
    obtain ⟨i1, i2, i3⟩ := ih
    by_cases hv : value = RS_RELAY_OFF
    · subst hv
      rw [rs_set_relay_rs_off, rs_set_relay_off_eq]
      by_cases h1 : c.rs.cvr1.active = true <;> cases ct <;>
        simp_all [rs_cancel_task]
    · rw [rs_set_relay_rs_dir c value ct sd now hv]
      by_cases h2 : c.rs.cvr2.active = true <;>
        by_cases hp : suplaDigitalRead_isHI c (oppositePin c.pin value) = true <;>
        cases ct <;> simp_all [rs_cancel_task]
  | service c cvr now _ ih =>
    obtain ⟨i1, i2, i3⟩ := ih
    by_cases hf : (cvr.get c.rs).active = true ∧ (cvr.get c.rs).time ≤ now
    · unfold rs_cvr_processing
      simp only [hf, and_self, if_true, suplaDigitalWrite_setHI]
      cases cvr <;> simp only [CvrSel.get, CvrSel.setActive] <;> split_ifs <;> simp_all
    · rw [rs_cvr_processing_idle c cvr now hf]
      exact ⟨i1, i2, i3⟩
  | environment c io _ ih => exact ih

/-- C5 (amended): in every reachable state the two records are both active
only in the configuration a reversal request creates: cvr1 then holds the
stop (value off), cvr2 holds a start (value not off) and cvr2 is scheduled
1000 ms (modulo 2^32) after cvr1.  In every other reachable state at most one
of them is active. -/
theorem C5_both_active_only_as_stop_then_start (c : RsCtx) (h : Reachable c) :
    (c.rs.cvr1.active = true ∧ c.rs.cvr2.active = true) →
      c.rs.cvr1.value = RS_RELAY_OFF ∧ c.rs.cvr2.value ≠ RS_RELAY_OFF ∧
      c.rs.cvr2.time = uadd c.rs.cvr1.time RS_START_DELAY := by
  intro hb
  obtain ⟨i1, i2, i3⟩ := cvr_invariant c h
  exact ⟨i1, i2 hb.2, i3 hb.1 hb.2⟩

/-- Witness of C5 (amended) at the reversal scenario. -/
theorem C5_both_active_only_as_stop_then_start_witness :
    exReversal.rs.cvr1.value = RS_RELAY_OFF ∧ exReversal.rs.cvr2.value ≠ RS_RELAY_OFF ∧
      exReversal.rs.cvr2.time = uadd exReversal.rs.cvr1.time RS_START_DELAY :=
  C5_both_active_only_as_stop_then_start exReversal
    (by
      unfold exReversal exRunningDown rs_cvr_pass exInit
      exact .request _ _ _ _ _
        (.service _ _ _ (.service _ _ _ (.request _ _ _ _ _ (.init _ _ _)))))
    (by decide)


/-! ## Reversal: stop, dead time, start -/

theorem rs_cvr_processing_rs (c : RsCtx) (cvr : CvrSel) (now : Nat)
    (h : (cvr.get c.rs).active = true ∧ (cvr.get c.rs).time ≤ now) :
    (rs_cvr_processing c cvr now).rs =
      if (cvr.get c.rs).value = RS_RELAY_UP ∨ (cvr.get c.rs).value = RS_RELAY_DOWN then
        { cvr.setActive c.rs false with start_time := now }
      else { cvr.setActive c.rs false with stop_time := now } := by
  unfold rs_cvr_processing
  simp only [h, and_self, if_true, cvrsel_get_setActive, suplaDigitalWrite_setHI]
  by_cases h1 : (cvr.get c.rs).value = RS_RELAY_UP
  · simp [h1]
  · have hdu : ¬ RS_RELAY_DOWN = RS_RELAY_UP := by decide
    by_cases h2 : (cvr.get c.rs).value = RS_RELAY_DOWN
    · simp [h1, h2, hdu]
    · simp [h1, h2]

theorem off_writes_inactive (b : SuplaChannelPin) (o : Nat → Bool) :
    drivenActive b ((replay o (cvrWrites b RS_RELAY_OFF)).getLastD o) b.pin1 = false ∧
    drivenActive b ((replay o (cvrWrites b RS_RELAY_OFF)).getLastD o) b.pin2 = false := by
  have h1 : ¬ RS_RELAY_OFF = RS_RELAY_UP := by decide
  have h2 : ¬ RS_RELAY_OFF = RS_RELAY_DOWN := by decide
  cases hb : b.hiIsLo <;> simp [cvrWrites, h1, h2, replay, drivenActive, hb]

theorem reversalPhase_pass (T v : Nat) (b : SuplaChannelPin) (w0 : List (Nat × Bool))
    (lo t : Nat) (s : RsCtx) (hv : v = RS_RELAY_UP ∨ v = RS_RELAY_DOWN)
    (hlo : lo ≤ t) (h : ReversalPhase T v b w0 lo s) :
    ReversalPhase T v b w0 t (rs_cvr_pass s t) := by
  obtain ⟨hp, hv1, ht1, hv2, ht2, hph⟩ := h
  have hoff1 : ¬ RS_RELAY_OFF = RS_RELAY_UP := by decide
  have hoff2 : ¬ RS_RELAY_OFF = RS_RELAY_DOWN := by decide
  unfold rs_cvr_pass
  rcases hph with ⟨a1, a2, hw⟩ | ⟨a1, a2, hs1, hs2, hw, hd1, hd2⟩ | ⟨a1, a2, hs1, hs2, hs3, hw⟩
  · -- nothing has fired yet
    by_cases hf1 : T ≤ t
    · have hfire1 : (CvrSel.first.get s.rs).active = true ∧ (CvrSel.first.get s.rs).time ≤ t := by
        simp [CvrSel.get, a1, ht1, hf1]
      have hrs1 := rs_cvr_processing_rs s .first t hfire1
      have hio1 := rs_cvr_processing_io s .first t hfire1
      have hpin1 := rs_cvr_processing_pin s .first t
      simp only [CvrSel.get, hv1, hoff1, hoff2, or_self, if_false, CvrSel.setActive] at hrs1 hio1
      by_cases hf2 : T + RS_START_DELAY ≤ t
      · have hfire2 : (CvrSel.second.get (rs_cvr_processing s .first t).rs).active = true ∧
            (CvrSel.second.get (rs_cvr_processing s .first t).rs).time ≤ t := by
          simp [CvrSel.get, hrs1, a2, ht2, hf2]
        have hrs2 := rs_cvr_processing_rs _ .second t hfire2
        have hio2 := rs_cvr_processing_io _ .second t hfire2
        have hpin2 := rs_cvr_processing_pin (rs_cvr_processing s .first t) .second t
        simp only [CvrSel.get, CvrSel.setActive, hrs1, hv2, hv, if_true] at hrs2 hio2
        refine ⟨by rw [hpin2, hpin1, hp], by simp [hrs2], by simp [hrs2, ht1],
          by simp [hrs2, hv2], by simp [hrs2, ht2], Or.inr (Or.inr ⟨by simp [hrs2],
            by simp [hrs2], by simp [hrs2, hf1], by simp [hrs2], by simp [hrs2, hf2], ?_⟩)⟩
        rw [hio2.1, hio1.1, hw, hpin1, hp]
      · have hidle2 : ¬ ((CvrSel.second.get (rs_cvr_processing s .first t).rs).active = true ∧
            (CvrSel.second.get (rs_cvr_processing s .first t).rs).time ≤ t) := by
          simp [CvrSel.get, hrs1, a2, ht2, hf2]
        rw [rs_cvr_processing_idle _ .second t hidle2]
        refine ⟨by rw [hpin1, hp], by simp [hrs1], by simp [hrs1, ht1],
          by simp [hrs1, hv2], by simp [hrs1, ht2], Or.inr (Or.inl ⟨by simp [hrs1],
            by simp [hrs1, a2], by simp [hrs1, hf1], by simp [hrs1], ?_, ?_, ?_⟩)⟩
        · rw [hio1.1, hw, hp]
        · rw [hio1.2.1, hp]; exact (off_writes_inactive b s.io.out).1
        · rw [hio1.2.1, hp]; exact (off_writes_inactive b s.io.out).2
    · have hidle1 : ¬ ((CvrSel.first.get s.rs).active = true ∧ (CvrSel.first.get s.rs).time ≤ t) := by
        simp [CvrSel.get, ht1, hf1]
      rw [rs_cvr_processing_idle s .first t hidle1]
      have hidle2 : ¬ ((CvrSel.second.get s.rs).active = true ∧ (CvrSel.second.get s.rs).time ≤ t) := by
        simp only [CvrSel.get, ht2, not_and, not_le]; intro _; omega
      rw [rs_cvr_processing_idle s .second t hidle2]
      exact ⟨hp, hv1, ht1, hv2, ht2, Or.inl ⟨a1, a2, hw⟩⟩
  · -- the stop has fired, the start has not
    have hidle1 : ¬ ((CvrSel.first.get s.rs).active = true ∧ (CvrSel.first.get s.rs).time ≤ t) := by
      simp [CvrSel.get, a1]
    rw [rs_cvr_processing_idle s .first t hidle1]
    by_cases hf2 : T + RS_START_DELAY ≤ t
    · have hfire2 : (CvrSel.second.get s.rs).active = true ∧ (CvrSel.second.get s.rs).time ≤ t := by
        simp [CvrSel.get, a2, ht2, hf2]
      have hrs2 := rs_cvr_processing_rs s .second t hfire2
      have hio2 := rs_cvr_processing_io s .second t hfire2
      have hpin2 := rs_cvr_processing_pin s .second t
      simp only [CvrSel.get, CvrSel.setActive, hv2, hv, if_true] at hrs2 hio2
      refine ⟨by rw [hpin2, hp], by simp [hrs2, hv1], by simp [hrs2, ht1],
        by simp [hrs2, hv2], by simp [hrs2, ht2], Or.inr (Or.inr ⟨by simp [hrs2, a1],
          by simp [hrs2], by simp [hrs2, hs1], by simp [hrs2]; omega, by simp [hrs2, hf2], ?_⟩)⟩
      rw [hio2.1, hw, hp]
    · have hidle2 : ¬ ((CvrSel.second.get s.rs).active = true ∧ (CvrSel.second.get s.rs).time ≤ t) := by
        simp [CvrSel.get, ht2, hf2]
      rw [rs_cvr_processing_idle s .second t hidle2]
      exact ⟨hp, hv1, ht1, hv2, ht2, Or.inr (Or.inl ⟨a1, a2, hs1, by omega, hw, hd1, hd2⟩)⟩
  · -- both have fired
    have hidle1 : ¬ ((CvrSel.first.get s.rs).active = true ∧ (CvrSel.first.get s.rs).time ≤ t) := by
      simp [CvrSel.get, a1]
    have hidle2 : ¬ ((CvrSel.second.get s.rs).active = true ∧ (CvrSel.second.get s.rs).time ≤ t) := by
      simp [CvrSel.get, a2]
    rw [rs_cvr_processing_idle s .first t hidle1, rs_cvr_processing_idle s .second t hidle2]
    exact ⟨hp, hv1, ht1, hv2, ht2, Or.inr (Or.inr ⟨a1, a2, hs1, hs2, hs3, hw⟩)⟩

theorem reversalPhase_run (T v : Nat) (b : SuplaChannelPin) (w0 : List (Nat × Bool))
    (hv : v = RS_RELAY_UP ∨ v = RS_RELAY_DOWN) (times : List Nat) :
    ∀ (lo : Nat) (s : RsCtx), ReversalPhase T v b w0 lo s →
      List.Pairwise (fun t1 t2 => t1 ≤ t2) times → (∀ t ∈ times, lo ≤ t) →
      ∃ lo2, ReversalPhase T v b w0 lo2 (rs_cvr_run s times) := by
  induction times with
  | nil => intro lo s h _ _; exact ⟨lo, h⟩
  | cons t ts ih =>
    intro lo s h hs hlo
    rw [List.pairwise_cons] at hs
    have hstep := reversalPhase_pass T v b w0 lo t s hv (hlo t (List.mem_cons_self _ _)) h
    exact ih t (rs_cvr_pass s t) hstep hs.2 hs.1

/-- C3 (failing input): the shutter runs down (down relay sensed active) and
"up" is requested at time 5000, which schedules the stop at 5000 and the
start at 6000.  When the next service pass comes at time 6500, the stop and
the start fire in that same pass: both are stamped 6500, 0 ms apart, and the
four pin writes follow each other directly, where the claim asks for at least
1000 ms between the stop event and the start event. -/
theorem C3_late_pass_fires_stop_and_start_together :
    suplaDigitalRead_isHI exRunningDown (oppositePin exRunningDown.pin RS_RELAY_UP) = true ∧
    exReversal.rs.cvr1 = ⟨RS_RELAY_OFF, 5000, true⟩ ∧
    exReversal.rs.cvr2 = ⟨RS_RELAY_UP, 6000, true⟩ ∧
    (rs_cvr_pass exReversal 6500).rs.stop_time = 6500 ∧
    (rs_cvr_pass exReversal 6500).rs.start_time = 6500 ∧
    (rs_cvr_pass exReversal 6500).io.writes
      = exReversal.io.writes ++ [(4, false), (5, false), (4, false), (5, true)] := by
  decide

/-- What the reversal path does guarantee.  If "up" is requested while the
down relay is sensed active (or "down" while up is active) and the request is
accepted, then in every run of service passes at non-decreasing times, with T
the fire time scheduled for the stop and T + 1000 below the wrap of the clock:
no pin is written before the stop fires; the stop fires in a pass at a time
at least T, drives both pins inactive and stamps stop_time; the start fires
after the stop's writes, in a pass at a time at least T + 1000.  The dead time
is counted from the scheduled fire time of the stop, not from the stop event
itself. -/
theorem reversal_start_after_scheduled_stop (c : RsCtx) (value : Nat)
    (cancel_task stop_delay : Bool) (now : Nat) (times : List Nat)
    (hv : value = RS_RELAY_UP ∨ value = RS_RELAY_DOWN)
    (hacc : c.rs.cvr2.active = false)
    (hopp : suplaDigitalRead_isHI c (oppositePin c.pin value) = true)
    (hwrap : stopFireTime c.rs.start_time now + RS_START_DELAY < ULONG_SIZE)
    (hmono : List.Pairwise (fun t1 t2 => t1 ≤ t2) times) :
    (rs_set_relay c value cancel_task stop_delay now).rs.cvr1.time
        = stopFireTime c.rs.start_time now ∧
    ((rs_cvr_run (rs_set_relay c value cancel_task stop_delay now) times).rs.cvr1.active = true →
      (rs_cvr_run (rs_set_relay c value cancel_task stop_delay now) times).rs.cvr2.active = true ∧
      (rs_cvr_run (rs_set_relay c value cancel_task stop_delay now) times).io.writes
        = c.io.writes) ∧
    ((rs_cvr_run (rs_set_relay c value cancel_task stop_delay now) times).rs.cvr1.active = false →
      (rs_cvr_run (rs_set_relay c value cancel_task stop_delay now) times).rs.cvr2.active = true →
      stopFireTime c.rs.start_time now
        ≤ (rs_cvr_run (rs_set_relay c value cancel_task stop_delay now) times).rs.stop_time ∧
      (rs_cvr_run (rs_set_relay c value cancel_task stop_delay now) times).io.writes
        = c.io.writes ++ cvrWrites c.pin RS_RELAY_OFF ∧
      drivenActive c.pin
        (rs_cvr_run (rs_set_relay c value cancel_task stop_delay now) times).io.out
        c.pin.pin1 = false ∧
      drivenActive c.pin
        (rs_cvr_run (rs_set_relay c value cancel_task stop_delay now) times).io.out
        c.pin.pin2 = false) ∧
    ((rs_cvr_run (rs_set_relay c value cancel_task stop_delay now) times).rs.cvr2.active = false →
      (rs_cvr_run (rs_set_relay c value cancel_task stop_delay now) times).rs.cvr1.active = false ∧
      stopFireTime c.rs.start_time now
        ≤ (rs_cvr_run (rs_set_relay c value cancel_task stop_delay now) times).rs.stop_time ∧
      (rs_cvr_run (rs_set_relay c value cancel_task stop_delay now) times).rs.stop_time
        ≤ (rs_cvr_run (rs_set_relay c value cancel_task stop_delay now) times).rs.start_time ∧
      stopFireTime c.rs.start_time now + RS_START_DELAY
        ≤ (rs_cvr_run (rs_set_relay c value cancel_task stop_delay now) times).rs.start_time ∧
      (rs_cvr_run (rs_set_relay c value cancel_task stop_delay now) times).io.writes
        = c.io.writes ++ cvrWrites c.pin RS_RELAY_OFF ++ cvrWrites c.pin value) := by
  have hv0 : value ≠ RS_RELAY_OFF := by
    rcases hv with hv | hv <;> simp [hv, RS_RELAY_OFF, RS_RELAY_UP, RS_RELAY_DOWN]
  have hrs := rs_set_relay_rs_dir c value cancel_task stop_delay now hv0
  have hio := rs_set_relay_io c value cancel_task stop_delay now
  have hpin := rs_set_relay_pin c value cancel_task stop_delay now
  have hadd : uadd (stopFireTime c.rs.start_time now) RS_START_DELAY
      = stopFireTime c.rs.start_time now + RS_START_DELAY := by
    simp only [uadd, ULONG_SIZE] at *; omega
  have hcvr1 : (rs_set_relay c value cancel_task stop_delay now).rs.cvr1
      = ⟨RS_RELAY_OFF, stopFireTime c.rs.start_time now, true⟩ := by
    rw [hrs]; cases cancel_task <;> simp [rs_cancel_task, hacc, hopp]
  have hcvr2 : (rs_set_relay c value cancel_task stop_delay now).rs.cvr2
      = ⟨value, stopFireTime c.rs.start_time now + RS_START_DELAY, true⟩ := by
    rw [hrs]; cases cancel_task <;> simp [rs_cancel_task, hacc, hopp, hadd]
  have h0 : ReversalPhase (stopFireTime c.rs.start_time now) value c.pin c.io.writes 0
      (rs_set_relay c value cancel_task stop_delay now) :=
    ⟨hpin, by rw [hcvr1], by rw [hcvr1], by rw [hcvr2], by rw [hcvr2],
      Or.inl ⟨by rw [hcvr1], by rw [hcvr2], by rw [hio]⟩⟩
  obtain ⟨lo2, hp, hv1, ht1, hv2, ht2, hph⟩ :=
    reversalPhase_run _ value c.pin c.io.writes hv times 0 _ h0 hmono (fun _ _ => Nat.zero_le _)
  refine ⟨by rw [hcvr1], ?_, ?_, ?_⟩
  · intro ha
    rcases hph with ⟨a1, a2, hw⟩ | ⟨a1, _⟩ | ⟨a1, _⟩
    · exact ⟨a2, hw⟩
    · rw [a1] at ha; cases ha
    · rw [a1] at ha; cases ha
  · intro ha hb
    rcases hph with ⟨a1, _⟩ | ⟨a1, a2, hs1, hs2, hw, hd1, hd2⟩ | ⟨_, a2, _⟩
    · rw [a1] at ha; cases ha
    · exact ⟨hs1, hw, hd1, hd2⟩
    · rw [a2] at hb; cases hb
  · intro hb
    rcases hph with ⟨_, a2, _⟩ | ⟨_, a2, _⟩ | ⟨a1, a2, hs1, hs2, hs3, hw⟩
    · rw [a2] at hb; cases hb
    · rw [a2] at hb; cases hb
    · exact ⟨a1, hs1, hs2, hs3, hw⟩

/-- The reversal scenario served in time, by passes at times 5000, 5500 and
6000: the stop fires at 5000 and the start at 6000. -/
theorem reversal_start_after_scheduled_stop_example :
    (rs_cvr_run exReversal [5000, 5500, 6000]).rs.cvr1.active = false ∧
    stopFireTime exRunningDown.rs.start_time 5000
      ≤ (rs_cvr_run exReversal [5000, 5500, 6000]).rs.stop_time ∧
    (rs_cvr_run exReversal [5000, 5500, 6000]).rs.stop_time
      ≤ (rs_cvr_run exReversal [5000, 5500, 6000]).rs.start_time ∧
    stopFireTime exRunningDown.rs.start_time 5000 + RS_START_DELAY
      ≤ (rs_cvr_run exReversal [5000, 5500, 6000]).rs.start_time ∧
    (rs_cvr_run exReversal [5000, 5500, 6000]).io.writes
      = exRunningDown.io.writes ++ cvrWrites exRunningDown.pin RS_RELAY_OFF
          ++ cvrWrites exRunningDown.pin RS_RELAY_UP :=
  (reversal_start_after_scheduled_stop exRunningDown RS_RELAY_UP true true 5000
    [5000, 5500, 6000] (Or.inl rfl) (by decide) (by decide) (by decide)
    (by decide)).2.2.2 (by decide)


/-! ## Rounding error of the floating-point model -/

theorem log2Fuel_spec : ∀ (fuel n : Nat), n ≠ 0 → n ≤ fuel →
    2 ^ log2Fuel fuel n ≤ n ∧ n < 2 ^ (log2Fuel fuel n + 1) := by
  intro fuel
  induction fuel with
  | zero => intro n h0 h; omega
  | succ f ih =>
    intro n h0 h
    unfold log2Fuel
    by_cases h2 : 2 ≤ n
    · simp only [h2, if_true]
      obtain ⟨i1, i2⟩ := ih (n / 2) (by omega) (by omega)
      rw [pow_succ] at i2
      rw [pow_succ, pow_succ, pow_succ]
      constructor <;> omega
    · simp only [h2, if_false]
      simp
      omega

theorem ilog2_spec (n : Nat) (h0 : n ≠ 0) : 2 ^ ilog2 n ≤ n ∧ n < 2 ^ (ilog2 n + 1) :=
  log2Fuel_spec n n h0 (Nat.le_refl n)

theorem roundHalfEven_spec (n d : Nat) (hd : 0 < d) :
    2 * (roundHalfEven n d * d) ≤ 2 * n + d ∧ 2 * n ≤ 2 * (roundHalfEven n d * d) + d := by
  have hdm := Nat.div_add_mod n d
  have hr := Nat.mod_lt n hd
  have hmul : (n / d + 1) * d = d * (n / d) + d := by ring
  have hmul0 : (n / d) * d = d * (n / d) := by ring
  unfold roundHalfEven
  split_ifs <;> simp only [hmul, hmul0] <;> omega

/-- The scaled quotient is at least `2^52`: the significand is normalised. -/
theorem round_scale (N D : Nat) (hN : N ≠ 0) (hD : D ≠ 0) :
    2 ^ 52 * (D * 2 ^ (ilog2 N - ((if D * 2 ^ ilog2 N ≤ N * 2 ^ ilog2 D then 52 else 53)
        + ilog2 D)))
      ≤ N * 2 ^ (((if D * 2 ^ ilog2 N ≤ N * 2 ^ ilog2 D then 52 else 53) + ilog2 D)
        - ilog2 N) := by
  obtain ⟨hk1, hk2⟩ := ilog2_spec N hN
  obtain ⟨hl1, hl2⟩ := ilog2_spec D hD
  generalize ilog2 N = k at *
  generalize ilog2 D = l at *
  -- the key inequality  D * 2^k * 2^52 ≤ N * 2^(c + l)
  have key : D * 2 ^ k * 2 ^ 52 ≤
      N * 2 ^ ((if D * 2 ^ k ≤ N * 2 ^ l then 52 else 53) + l) := by
    by_cases hc : D * 2 ^ k ≤ N * 2 ^ l
    · simp only [hc, if_true]
      calc D * 2 ^ k * 2 ^ 52 ≤ N * 2 ^ l * 2 ^ 52 := Nat.mul_le_mul_right _ hc
        _ = N * 2 ^ (52 + l) := by rw [pow_add]; ring
    · simp only [hc, if_false]
      have h1 : D * 2 ^ k ≤ 2 ^ (l + 1) * N :=
        le_trans (Nat.mul_le_mul_right _ (le_of_lt hl2)) (Nat.mul_le_mul_left _ hk1)
      calc D * 2 ^ k * 2 ^ 52 ≤ 2 ^ (l + 1) * N * 2 ^ 52 := Nat.mul_le_mul_right _ h1
        _ = N * 2 ^ (53 + l) := by rw [pow_add, pow_succ]; ring
  generalize (if D * 2 ^ k ≤ N * 2 ^ l then 52 else 53) + l = e at *
  have hpos : 0 < 2 ^ k := Nat.two_pow_pos _
  apply Nat.le_of_mul_le_mul_right _ hpos
  have hexp : 2 ^ (e - k) * 2 ^ k = 2 ^ e * 2 ^ (k - e) := by
    rw [← pow_add, ← pow_add]
    congr 1
    omega
  calc 2 ^ 52 * (D * 2 ^ (k - e)) * 2 ^ k = D * 2 ^ k * 2 ^ 52 * 2 ^ (k - e) := by ring
    _ ≤ N * 2 ^ e * 2 ^ (k - e) := Nat.mul_le_mul_right _ key
    _ = N * (2 ^ (e - k) * 2 ^ k) := by rw [hexp]; ring
    _ = N * 2 ^ (e - k) * 2 ^ k := by ring

/-- The relative error of a rounding is at most `2^-53`, in integers. -/
theorem round_error (N D : Nat) (hD : D ≠ 0) :
    0 < (Dbl.round N D).den ∧
    (2 ^ 53 - 1) * (N * (Dbl.round N D).den) ≤ 2 ^ 53 * ((Dbl.round N D).num * D) ∧
    2 ^ 53 * ((Dbl.round N D).num * D) ≤ (2 ^ 53 + 1) * (N * (Dbl.round N D).den) := by
  by_cases hN : N = 0
  · subst hN
    simp [Dbl.round]
  · have hs := round_scale N D hN hD
    unfold Dbl.round
    simp only [hN, hD, or_self, if_false]
    generalize ((if D * 2 ^ ilog2 N ≤ N * 2 ^ ilog2 D then 52 else 53) + ilog2 D)
      - ilog2 N = a at *
    generalize ilog2 N - ((if D * 2 ^ ilog2 N ≤ N * 2 ^ ilog2 D then 52 else 53) + ilog2 D)
      = b at *
    have hDs : 0 < D * 2 ^ b := Nat.mul_pos (Nat.pos_of_ne_zero hD) (Nat.two_pow_pos _)
    obtain ⟨r1, r2⟩ := roundHalfEven_spec (N * 2 ^ a) (D * 2 ^ b) hDs
    generalize roundHalfEven (N * 2 ^ a) (D * 2 ^ b) = m at *
    have e1 : m * 2 ^ b * D = m * (D * 2 ^ b) := by ring
    refine ⟨Nat.two_pow_pos _, ?_, ?_⟩
    · rw [e1]
      generalize m * (D * 2 ^ b) = M at *
      generalize N * 2 ^ a = Ns at *
      generalize D * 2 ^ b = Ds at *
      norm_num at *
      omega
    · rw [e1]
      generalize m * (D * 2 ^ b) = M at *
      generalize N * 2 ^ a = Ns at *
      generalize D * 2 ^ b = Ds at *
      norm_num at *
      omega


/-- The relative error of a rounding is at most `2^-53`, in rationals. -/
theorem round_val (N D : Nat) (hD : D ≠ 0) :
    (0 : ℚ) < ((Dbl.round N D).den : ℚ) ∧
    (N : ℚ) / D * (1 - 1 / 2 ^ 53) ≤ ((Dbl.round N D).num : ℚ) / (Dbl.round N D).den ∧
    ((Dbl.round N D).num : ℚ) / (Dbl.round N D).den ≤ (N : ℚ) / D * (1 + 1 / 2 ^ 53) := by
  obtain ⟨h0, h1, h2⟩ := round_error N D hD
  have hd : (0 : ℚ) < ((Dbl.round N D).den : ℚ) := by exact_mod_cast h0
  have hD2 : (0 : ℚ) < (D : ℚ) := by exact_mod_cast Nat.pos_of_ne_zero hD
  have c1 : ((9007199254740991 : ℚ)) * ((N : ℚ) * (Dbl.round N D).den)
      ≤ 9007199254740992 * (((Dbl.round N D).num : ℚ) * D) := by
    have := h1
    norm_num at this
    exact_mod_cast this
  have c2 : (9007199254740992 : ℚ) * (((Dbl.round N D).num : ℚ) * D)
      ≤ 9007199254740993 * ((N : ℚ) * (Dbl.round N D).den) := by
    have := h2
    norm_num at this
    exact_mod_cast this
  refine ⟨hd, ?_, ?_⟩
  · rw [div_mul_eq_mul_div, div_le_div_iff₀ hD2 hd]
    norm_num
    linarith
  · rw [div_mul_eq_mul_div, div_le_div_iff₀ hd hD2]
    norm_num
    linarith

/-- The value `positionDelta` truncates: within three roundings of
`time * 10000 / full_time`. -/
theorem positionDelta_val (t F : Nat) (hF : 0 < F) :
    ∃ n d : Nat, 0 < d ∧ positionDelta t F = (n / d) % 4294967296 ∧
      (t : ℚ) * 10000 / F * (1 - 1 / 2 ^ 53) ^ 3 ≤ (n : ℚ) / d ∧
      (n : ℚ) / d ≤ (t : ℚ) * 10000 / F * (1 + 1 / 2 ^ 53) ^ 3 := by
  unfold positionDelta Dbl.toULong Dbl.mul Dbl.div Dbl.ofNat
  simp only [Nat.mul_one, Nat.one_mul]
  obtain ⟨d1, l1, u1⟩ := round_val (t * 100) 1 (by norm_num)
  generalize Dbl.round (t * 100) 1 = r1 at *
  have hd1 : r1.den ≠ 0 := by
    intro h; rw [h] at d1; simp at d1
  obtain ⟨d2, l2, u2⟩ := round_val r1.num (r1.den * F) (Nat.mul_ne_zero hd1 (by omega))
  generalize Dbl.round r1.num (r1.den * F) = r2 at *
  have hd2 : r2.den ≠ 0 := by
    intro h; rw [h] at d2; simp at d2
  obtain ⟨d3, l3, u3⟩ := round_val (r2.num * 100) r2.den hd2
  generalize Dbl.round (r2.num * 100) r2.den = r3 at *
  have hF2 : (0 : ℚ) < (F : ℚ) := by exact_mod_cast hF
  refine ⟨r3.num, r3.den, by exact_mod_cast d3, rfl, ?_, ?_⟩
  · push_cast at l1 l2 l3
    have e2 : (r1.num : ℚ) / (r1.den * F) = (r1.num : ℚ) / r1.den / F := by
      rw [div_div]
    have e3 : (r2.num : ℚ) * 100 / r2.den = (r2.num : ℚ) / r2.den * 100 := by ring
    rw [e2] at l2
    rw [e3] at l3
    have hpos : (0 : ℚ) ≤ 1 - 1 / 2 ^ 53 := by norm_num
    have s1 : (t : ℚ) * 100 / 1 * (1 - 1 / 2 ^ 53) / F * (1 - 1 / 2 ^ 53)
        ≤ (r2.num : ℚ) / r2.den :=
      le_trans (mul_le_mul_of_nonneg_right
        (div_le_div_of_nonneg_right l1 (le_of_lt hF2)) hpos) l2
    have s2 : (t : ℚ) * 100 / 1 * (1 - 1 / 2 ^ 53) / F * (1 - 1 / 2 ^ 53) * 100
        * (1 - 1 / 2 ^ 53) ≤ (r3.num : ℚ) / r3.den :=
      le_trans (mul_le_mul_of_nonneg_right
        (mul_le_mul_of_nonneg_right s1 (by norm_num)) hpos) l3
    calc (t : ℚ) * 10000 / F * (1 - 1 / 2 ^ 53) ^ 3
        = (t : ℚ) * 100 / 1 * (1 - 1 / 2 ^ 53) / F * (1 - 1 / 2 ^ 53) * 100
            * (1 - 1 / 2 ^ 53) := by ring
      _ ≤ (r3.num : ℚ) / r3.den := s2
  · push_cast at u1 u2 u3
    have e2 : (r1.num : ℚ) / (r1.den * F) = (r1.num : ℚ) / r1.den / F := by
      rw [div_div]
    have e3 : (r2.num : ℚ) * 100 / r2.den = (r2.num : ℚ) / r2.den * 100 := by ring
    rw [e2] at u2
    rw [e3] at u3
    have hpos : (0 : ℚ) ≤ 1 + 1 / 2 ^ 53 := by norm_num
    have s1 : (r2.num : ℚ) / r2.den
        ≤ (t : ℚ) * 100 / 1 * (1 + 1 / 2 ^ 53) / F * (1 + 1 / 2 ^ 53) :=
      le_trans u2 (mul_le_mul_of_nonneg_right
        (div_le_div_of_nonneg_right u1 (le_of_lt hF2)) hpos)
    have s2 : (r3.num : ℚ) / r3.den
        ≤ (t : ℚ) * 100 / 1 * (1 + 1 / 2 ^ 53) / F * (1 + 1 / 2 ^ 53) * 100
          * (1 + 1 / 2 ^ 53) :=
      le_trans u3 (mul_le_mul_of_nonneg_right
        (mul_le_mul_of_nonneg_right s1 (by norm_num)) hpos)
    calc (r3.num : ℚ) / r3.den
        ≤ (t : ℚ) * 100 / 1 * (1 + 1 / 2 ^ 53) / F * (1 + 1 / 2 ^ 53) * 100
          * (1 + 1 / 2 ^ 53) := s2
      _ = (t : ℚ) * 10000 / F * (1 + 1 / 2 ^ 53) ^ 3 := by ring

/-- For an accumulated time within the full travel time the delta is at most
10000 and falls short of `time * 10000 / full_time` by less than
`1 + 10000 / 2^51`. -/
theorem positionDelta_bounds (t F : Nat) (hF : 0 < F) (ht : t ≤ F) :
    positionDelta t F ≤ 10000 ∧
    t * 10000 * (2 ^ 51 - 1) ≤ (positionDelta t F + 1) * F * 2 ^ 51 := by
  obtain ⟨n, d, hd, hp, hl, hu⟩ := positionDelta_val t F hF
  have hF2 : (0 : ℚ) < (F : ℚ) := by exact_mod_cast hF
  have hd2 : (0 : ℚ) < (d : ℚ) := by exact_mod_cast hd
  have ht2 : (t : ℚ) ≤ (F : ℚ) := by exact_mod_cast ht
  have ht0 : (0 : ℚ) ≤ (t : ℚ) := by exact_mod_cast Nat.zero_le t
  have hq : (t : ℚ) * 10000 / F ≤ 10000 := by
    rw [div_le_iff₀ hF2]; linarith
  have hq0 : (0 : ℚ) ≤ (t : ℚ) * 10000 / F := by positivity
  -- the truncated value
  have hfl1 : ((n / d : ℕ) : ℚ) ≤ (n : ℚ) / d := Nat.cast_div_le
  have hfl2 : (n : ℚ) / d < ((n / d : ℕ) : ℚ) + 1 := by
    rw [div_lt_iff₀ hd2]
    have := Nat.lt_mul_div_succ n hd
    have h2 : (n : ℚ) < (d : ℚ) * ((n / d : ℕ) + 1) := by exact_mod_cast this
    linarith
  have hup : ((n / d : ℕ) : ℚ) < 10001 := by
    have : (n : ℚ) / d ≤ 10000 * (1 + 1 / 2 ^ 53) ^ 3 :=
      le_trans hu (mul_le_mul_of_nonneg_right hq (by norm_num))
    have h3 : (10000 : ℚ) * (1 + 1 / 2 ^ 53) ^ 3 < 10001 := by norm_num
    linarith
  have hup2 : n / d < 10001 := by exact_mod_cast hup
  have hpe : positionDelta t F = n / d := by
    rw [hp]; exact Nat.mod_eq_of_lt (by omega)
  rw [hpe]
  refine ⟨by omega, ?_⟩
  have hlow : (t : ℚ) * 10000 / F * (1 - 1 / 2 ^ 53) ^ 3 < ((n / d : ℕ) : ℚ) + 1 :=
    lt_of_le_of_lt hl hfl2
  have h51 : (1 : ℚ) - 1 / 2 ^ 51 ≤ (1 - 1 / 2 ^ 53) ^ 3 := by norm_num
  have hlow2 : (t : ℚ) * 10000 / F * (1 - 1 / 2 ^ 51) < ((n / d : ℕ) : ℚ) + 1 :=
    lt_of_le_of_lt (mul_le_mul_of_nonneg_left h51 hq0) hlow
  have hlow3 : (t : ℚ) * 10000 * (2 ^ 51 - 1) ≤ (((n / d : ℕ) : ℚ) + 1) * F * 2 ^ 51 := by
    have e : (t : ℚ) * 10000 / F * (1 - 1 / 2 ^ 51) * (F * 2 ^ 51)
        = (t : ℚ) * 10000 * (2 ^ 51 - 1) := by
      field_simp
    have hpos : (0 : ℚ) < (F : ℚ) * 2 ^ 51 := by positivity
    have := mul_le_mul_of_nonneg_right (le_of_lt hlow2) (le_of_lt hpos)
    rw [e] at this
    linarith
  have hcast : ((t * 10000 * (2 ^ 51 - 1) : ℕ) : ℚ) ≤ (((n / d + 1) * F * 2 ^ 51 : ℕ) : ℚ) := by
    push_cast
    norm_num at hlow3 ⊢
    linarith
  exact_mod_cast hcast


/-! ## Position integration while closing -/

/-- While the accumulated time is within the full travel time, the comparison
`(*time) >= full_time * 1.1` of `rs_move_position` is false. -/
theorem no_autostop_within_full_time (t F : Nat) (hF : 0 < F) (ht : t ≤ F) :
    Dbl.le (Dbl.mul (Dbl.ofNat F) Dbl.c1_1) (Dbl.ofNat t) = false := by
  have hc : Dbl.c1_1 = ⟨4953959590107546, 4503599627370496⟩ := by decide
  rw [hc]
  unfold Dbl.le Dbl.mul Dbl.ofNat
  simp only [Nat.mul_one, Nat.one_mul, decide_eq_false_iff_not, not_le]
  obtain ⟨d1, l1, _⟩ := round_val (F * 4953959590107546) 4503599627370496 (by norm_num)
  generalize Dbl.round (F * 4953959590107546) 4503599627370496 = r at *
  have hF2 : (0 : ℚ) < (F : ℚ) := by exact_mod_cast hF
  have ht2 : (t : ℚ) ≤ (F : ℚ) := by exact_mod_cast ht
  have h1 : (F : ℚ) < (r.num : ℚ) / r.den := by
    refine lt_of_lt_of_le ?_ l1
    push_cast
    have : (F : ℚ) * 4953959590107546 / 4503599627370496 * (1 - 1 / 2 ^ 53)
        = (F : ℚ) * (4953959590107546 / 4503599627370496 * (1 - 1 / 2 ^ 53)) := by ring
    rw [this]
    have h2 : (1 : ℚ) < 4953959590107546 / 4503599627370496 * (1 - 1 / 2 ^ 53) := by
      norm_num
    nlinarith
  have h3 : (t : ℚ) * r.den < (r.num : ℚ) := by
    rw [lt_div_iff₀ d1] at h1
    nlinarith
  exact_mod_cast h3

/-- One closing call of `rs_move_position` with a known position and an
accumulated time within the full travel time. -/
theorem rs_move_position_closing (c : RsCtx) (F now : Nat)
    (hF : 0 < F) (hp1 : 100 ≤ c.rs.position) (hp2 : c.rs.position ≤ 10100)
    (ht : c.rs.down_time ≤ F) (hF32 : F < ULONG_SIZE) :
    (rs_move_position c F .down false now).pin = c.pin ∧
    (rs_move_position c F .down false now).io = c.io ∧
    (rs_move_position c F .down false now).rs.cvr1 = c.rs.cvr1 ∧
    (rs_move_position c F .down false now).rs.cvr2 = c.rs.cvr2 ∧
    (rs_move_position c F .down false now).rs.full_closing_time = c.rs.full_closing_time ∧
    (rs_move_position c F .down false now).rs.position
      = min (c.rs.position + positionDelta c.rs.down_time F) 10100 ∧
    (rs_move_position c F .down false now).rs.down_time
      = if min (c.rs.position + positionDelta c.rs.down_time F) 10100 = 10100 then
          c.rs.down_time
        else if umul (positionDelta c.rs.down_time F) F / 10000 ≤ c.rs.down_time then
          c.rs.down_time - umul (positionDelta c.rs.down_time F) F / 10000
        else 0 := by
  obtain ⟨hpb, _⟩ := positionDelta_bounds c.rs.down_time F hF ht
  have hcmp := no_autostop_within_full_time c.rs.down_time F hF ht
  have hF0 : F ≠ 0 := by omega
  have hguard : ¬ (c.rs.position < 100 ∨ c.rs.position > 10100 ∨ F = 0) := by omega
  unfold rs_move_position
  simp only [hguard, if_false, TimeSel.get, TimeSel.set, Bool.false_eq_true, false_and,
    not_false_eq_true, true_and, false_or, if_false]
  generalize positionDelta c.rs.down_time F = p at *
  have hsum : uadd c.rs.position p = c.rs.position + p := by
    unfold uadd; omega
  have hint : toInt32 (c.rs.position + p) = ((c.rs.position + p : ℕ) : ℤ) := by
    unfold toInt32
    have hm : (c.rs.position + p) % 4294967296 = c.rs.position + p := by omega
    rw [hm]
    have : c.rs.position + p < 2147483648 := by omega
    simp [this]
  rw [hsum, hint]
  have hge : (((c.rs.position + p : ℕ) : ℤ) ≥ 10100) ↔ c.rs.position + p ≥ 10100 := by
    constructor <;> intro h <;> omega
  simp only [hge]
  by_cases hp0 : p > 0
  · by_cases hlim : c.rs.position + p ≥ 10100
    · have hmin : min (c.rs.position + p) 10100 = 10100 := by omega
      simp only [hp0, hlim, hmin, if_true]
      by_cases hq : c.rs.position = 10100 <;> simp [hq, hcmp]
    · have hmin : min (c.rs.position + p) 10100 = c.rs.position + p := by omega
      have hne : c.rs.position + p ≠ 10100 := by omega
      have hne2 : ¬ c.rs.position = c.rs.position + p := by omega
      simp only [hp0, hlim, hmin, if_true, if_false, hne, ne_eq, hne2, not_false_eq_true]
      have hsub : ∀ x, x ≤ c.rs.down_time → usub c.rs.down_time x = c.rs.down_time - x := by
        intro x hx
        unfold usub
        simp only [ULONG_SIZE] at hF32
        omega
      by_cases hx : umul p F / 10000 ≤ c.rs.down_time
      · simp [hx, hsub _ hx]
      · simp [hx]
  · have hp00 : p = 0 := by omega
    subst hp00
    simp only [lt_irrefl, if_false, Nat.add_zero]
    by_cases hq : c.rs.position = 10100
    · have hmin : min c.rs.position 10100 = 10100 := by omega
      simp [hq, hcmp]
    · have hmin : min c.rs.position 10100 = c.rs.position := by omega
      have hsub : ∀ x, x ≤ c.rs.down_time → usub c.rs.down_time x = c.rs.down_time - x := by
        intro x hx
        unfold usub
        simp only [ULONG_SIZE] at hF32
        omega
      simp only [hq, hmin, if_false]
      by_cases hx : umul 0 F / 10000 ≤ c.rs.down_time
      · simp [hx, hsub _ hx]
      · simp [hx]

theorem rs_calibrate_known (rs : SuplaDeviceRollerShutter) (full_time time dest_pos : Nat)
    (h1 : 100 ≤ rs.position) (h2 : rs.position ≤ 10100) :
    rs_calibrate rs full_time time dest_pos = rs := by
  unfold rs_calibrate
  have : ¬ (full_time > 0 ∧ (rs.position < 100 ∨ rs.position > 10100)) := by omega
  simp only [this, if_false]

theorem closingInv_step (F : Nat) (b : SuplaChannelPin) (io : Io)
    (r1 r2 : SuplaDeviceRollerShutterCVR) (E d now : Nat) (s : RsCtx)
    (hF : 0 < F) (hF32 : F < ULONG_SIZE) (hE : E + d ≤ F)
    (hdown : suplaDigitalRead_isHI ⟨s.rs, b, io⟩ b.pin1 = true)
    (h : ClosingInv F b io r1 r2 E s) :
    ClosingInv F b io r1 r2 (E + d) (rs_integrate s d now) := by
  obtain ⟨hb, hio, hr1, hr2, hFc, hdt, hp1, hp2, hdisj⟩ := h
  subst hFc
  have hcal : ∀ rs2 : SuplaDeviceRollerShutter, rs2.position = s.rs.position →
      ∀ x y z, rs_calibrate rs2 x y z = rs2 :=
    fun rs2 h x y z => rs_calibrate_known rs2 x y z (by omega) (by omega)
  have hHI : suplaDigitalRead_isHI s s.pin.pin1 = true := by
    have : s = ⟨s.rs, b, io⟩ := by cases s; simp_all
    rw [this]; exact hdown
  have hadd : uadd s.rs.down_time d = s.rs.down_time + d := by
    unfold uadd
    simp only [ULONG_SIZE] at hF32
    omega
  have hstep : rs_integrate s d now =
      rs_move_position
        { s with rs := { s.rs with up_time := 0, down_time := s.rs.down_time + d } }
        s.rs.full_closing_time .down false now := by
    unfold rs_integrate
    simp only [hHI, if_true, hadd]
    rw [hcal]
    rfl
  rw [hstep]
  obtain ⟨c1, c2, c3, c4, c5, c6, c7⟩ := rs_move_position_closing
    { s with rs := { s.rs with up_time := 0, down_time := s.rs.down_time + d } }
    s.rs.full_closing_time now hF hp1 hp2 (by simp only []; omega) hF32
  simp only [] at c1 c2 c3 c4 c5 c6 c7
  obtain ⟨hpb, hlow⟩ := positionDelta_bounds (s.rs.down_time + d) s.rs.full_closing_time hF
    (by omega)
  norm_num at hlow
  generalize positionDelta (s.rs.down_time + d) s.rs.full_closing_time = p at *
  have hx : umul p s.rs.full_closing_time / 10000 * 10000 ≤ p * s.rs.full_closing_time :=
    le_trans (Nat.div_mul_le_self _ _) (Nat.mod_le _ _)
  generalize umul p s.rs.full_closing_time / 10000 = x at *
  refine ⟨by rw [c1, hb], by rw [c2, hio], by rw [c3, hr1], by rw [c4, hr2],
    by rw [c5], ?_, by rw [c6]; omega, by rw [c6]; omega, ?_⟩
  · rw [c7]; split_ifs <;> omega
  · by_cases hlim : min (s.rs.position + p) 10100 = 10100
    · left; rw [c6]; exact hlim
    · right
      have hP : s.rs.position ≠ 10100 := by omega
      rcases hdisj with h10 | ⟨g1, _⟩
      · exact absurd h10 hP
      · have e1 : min (s.rs.position + p) 10100 - 100 = (s.rs.position - 100) + p := by omega
        rw [c6, c7, e1]
        simp only [hlim, if_false]
        clear c1 c2 c3 c4 c5 c6 c7 hstep
        generalize s.rs.full_closing_time = F at *
        have e2 : ((s.rs.position - 100) + p) * F = (s.rs.position - 100) * F + p * F := by
          ring
        have e3 : ((s.rs.position - 100) + p + 1) * F * 2251799813685248
            = ((s.rs.position - 100) * F + p * F + F) * 2251799813685248 := by ring
        have e4 : (p + 1) * F * 2251799813685248 = (p * F + F) * 2251799813685248 := by ring
        rw [e2, e3]
        rw [e4] at hlow
        generalize (s.rs.position - 100) * F = A at *
        generalize p * F = B at *
        constructor
        · split_ifs <;> omega
        · omega

theorem closingInv_run (F : Nat) (b : SuplaChannelPin) (io : Io)
    (r1 r2 : SuplaDeviceRollerShutterCVR) (hF : 0 < F) (hF32 : F < ULONG_SIZE)
    (hdown : ∀ rs, suplaDigitalRead_isHI ⟨rs, b, io⟩ b.pin1 = true) (ds : List Nat) :
    ∀ (E now : Nat) (s : RsCtx), E + ds.sum ≤ F → ClosingInv F b io r1 r2 E s →
      ClosingInv F b io r1 r2 (E + ds.sum) (rs_integrate_run s now ds) := by
  induction ds with
  | nil => intro E now s _ h; simpa [rs_integrate_run] using h
  | cons d ds ih =>
    intro E now s hE h
    rw [List.sum_cons] at hE
    have hstep := closingInv_step F b io r1 r2 E d (uadd now d) s hF hF32 (by omega)
      (hdown s.rs) h
    have := ih (E + d) (uadd now d) (rs_integrate s d (uadd now d)) (by omega) hstep
    rw [List.sum_cons, rs_integrate_run, ← Nat.add_assoc]
    exact this

/-- C10 (counterexample): a shutter calibrated to 1000 ms at position 100 with
the down relay sensed active.  After exactly 1000 ms of motion, in one tick or
in four, the position is 10100 but no off request has been issued: cvr1 is not
active.  It is still not active after 1099 ms; the off request comes in the
pass in which the accumulated time reaches 1100 ms. -/
theorem C10_no_auto_stop_after_full_closing_time :
    exClosing.rs.position = 100 ∧ exClosing.rs.full_closing_time = 1000 ∧
    suplaDigitalRead_isHI exClosing exClosing.pin.pin1 = true ∧
    (rs_integrate_run exClosing 0 [1000]).rs.position = 10100 ∧
    (rs_integrate_run exClosing 0 [1000]).rs.cvr1.active = false ∧
    (rs_integrate_run exClosing 0 [250, 250, 250, 250]).rs.position = 10100 ∧
    (rs_integrate_run exClosing 0 [250, 250, 250, 250]).rs.cvr1.active = false ∧
    (rs_integrate_run exClosing 0 [1000, 99]).rs.cvr1.active = false ∧
    (rs_integrate_run exClosing 0 [1000, 100]).rs.cvr1 = ⟨RS_RELAY_OFF, 1100, true⟩ := by
  decide

/-- C10 (amended): for a calibrated shutter (0 < full_closing_time) at known
position 100 with no accumulated time and the down relay sensed active, for
every partition of exactly full_closing_time milliseconds into service ticks,
the position estimate ends at 10099 or 10100, and the position integration
issues no off request within that interval: cvr1 and cvr2 are as they were at
the start. -/
theorem C10_closing_run_reaches_limit (c : RsCtx) (now : Nat) (ds : List Nat)
    (hF : 0 < c.rs.full_closing_time) (hF32 : c.rs.full_closing_time < ULONG_SIZE)
    (hpos : c.rs.position = 100) (htime : c.rs.down_time = 0)
    (hdown : suplaDigitalRead_isHI c c.pin.pin1 = true)
    (hsum : ds.sum = c.rs.full_closing_time) :
    10099 ≤ (rs_integrate_run c now ds).rs.position ∧
    (rs_integrate_run c now ds).rs.position ≤ 10100 ∧
    (rs_integrate_run c now ds).rs.cvr1 = c.rs.cvr1 ∧
    (rs_integrate_run c now ds).rs.cvr2 = c.rs.cvr2 := by
  have h0 : ClosingInv c.rs.full_closing_time c.pin c.io c.rs.cvr1 c.rs.cvr2 0 c :=
    ⟨rfl, rfl, rfl, rfl, rfl, by omega, by omega, by omega, Or.inr ⟨by simp, by simp⟩⟩
  have hrun := closingInv_run c.rs.full_closing_time c.pin c.io c.rs.cvr1 c.rs.cvr2 hF hF32
    (fun rs => by simpa [suplaDigitalRead_isHI] using hdown) ds 0 now c (by omega) h0
  obtain ⟨_, _, hr1, hr2, _, _, hp1, hp2, hdisj⟩ := hrun
  refine ⟨?_, hp2, hr1, hr2⟩
  rcases hdisj with h | ⟨_, g2⟩
  · omega
  · rw [Nat.zero_add, hsum] at g2
    have e1 : c.rs.full_closing_time * 10000 * 2251799813685247
        = (10000 * 2251799813685247) * c.rs.full_closing_time := by ring
    have e2 : ((rs_integrate_run c now ds).rs.position - 100 + 1) * c.rs.full_closing_time
        * 2251799813685248
        = (((rs_integrate_run c now ds).rs.position - 100 + 1) * 2251799813685248)
          * c.rs.full_closing_time := by ring
    rw [e1, e2] at g2
    have g3 := Nat.le_of_mul_le_mul_right g2 hF
    omega

/-- Witness of C10 (amended): 1000 ms of closing in ticks of 300, 300 and 400
ms. -/
theorem C10_closing_run_reaches_limit_witness :
    10099 ≤ (rs_integrate_run exClosing 0 [300, 300, 400]).rs.position ∧
    (rs_integrate_run exClosing 0 [300, 300, 400]).rs.position ≤ 10100 ∧
    (rs_integrate_run exClosing 0 [300, 300, 400]).rs.cvr1 = exClosing.rs.cvr1 ∧
    (rs_integrate_run exClosing 0 [300, 300, 400]).rs.cvr2 = exClosing.rs.cvr2 :=
  C10_closing_run_reaches_limit exClosing 0 [300, 300, 400] (by decide) (by decide)
    (by decide) (by decide) (by decide) (by decide)

/-! ## Plain and bistable relays -/

theorem channelSetValue_finish_false (c : RelayCtx) (value : Int) :
    (channelSetValue_finish c value false).io = c.io ∧
    (channelSetValue_finish c value false).pin = c.pin ∧
    (channelSetValue_finish c value false).ch = c.ch ∧
    (channelSetValue_finish c value false).up = c.up := by
  unfold channelSetValue_finish
  by_cases hb : c.pin.bistable = true <;> simp [hb]

theorem channelSetValue_finish_bistable (c : RelayCtx) (value : Int) (success : Bool)
    (hb : c.pin.bistable = true) :
    (channelSetValue_finish c value success).io = c.io ∧
    (channelSetValue_finish c value success).pin = c.pin ∧
    (channelSetValue_finish c value success).up = c.up := by
  unfold channelSetValue_finish
  cases success <;> simp [hb]

theorem channelSetValue_finish_true (c : RelayCtx) (value : Int)
    (hb : c.pin.bistable = false) :
    (channelSetValue_finish c value true).io = c.io ∧
    (channelSetValue_finish c value true).pin = c.pin ∧
    (channelSetValue_finish c value true).ch.value0 = value ∧
    (channelSetValue_finish c value true).up.sent
      = if c.up.registered = 1 ∧ c.up.srpc = true then c.up.sent ++ [(c.ch.Number, value)]
        else c.up.sent := by
  unfold channelSetValue_finish channelValueChanged
  by_cases hr : c.up.registered = 1 <;> by_cases hs : c.up.srpc = true <;> simp [hb, hr, hs]

theorem channelSetValue_bistable_plain (c : RelayCtx) (value : Int)
    (hb : c.pin.bistable = false) : channelSetValue_bistable c value = (value, c) := by
  unfold channelSetValue_bistable
  simp [hb]

theorem channelSetValue_on_plain (c : RelayCtx) (d : Int) (hb : c.pin.bistable = false)
    (hp1 : c.pin.pin1 ≠ 0) :
    (channelSetValue_on c d).1.io.writes
      = c.io.writes ++ (if c.pin.pin2 ≠ 0 then [(c.pin.pin2 % 256, c.pin.hiIsLo)] else [])
          ++ [(c.pin.pin1 % 256, !c.pin.hiIsLo)] ∧
    (channelSetValue_on c d).1.io.out (c.pin.pin1 % 256) = (!c.pin.hiIsLo) ∧
    (c.pin.pin1 % 256 ≠ c.pin.pin2 % 256 → c.pin.pin2 ≠ 0 →
      (channelSetValue_on c d).1.io.out (c.pin.pin2 % 256) = c.pin.hiIsLo) ∧
    (channelSetValue_on c d).1.io.sense = c.io.sense ∧
    (channelSetValue_on c d).2
      = ((channelSetValue_on c d).1.io.digitalRead c.pin.pin1 == !c.pin.hiIsLo) ∧
    (channelSetValue_on c d).1.pin.time_left
      = (if d > 0 then d.toNat else c.pin.time_left) ∧
    (channelSetValue_on c d).1.pin.pin1 = c.pin.pin1 ∧
    (channelSetValue_on c d).1.pin.pin2 = c.pin.pin2 ∧
    (channelSetValue_on c d).1.pin.hiIsLo = c.pin.hiIsLo ∧
    (channelSetValue_on c d).1.pin.bistable = c.pin.bistable ∧
    (channelSetValue_on c d).1.ch = c.ch ∧ (channelSetValue_on c d).1.up = c.up := by
  unfold channelSetValue_on
  by_cases hp2 : c.pin.pin2 = 0 <;> by_cases hd : d > 0 <;> cases hl : c.pin.hiIsLo <;>
    simp [hb, hp1, hp2, hd, hl, Io.digitalWrite, Io.digitalRead] <;>
    (intro h1 h2; exact h1 h2.symm)

theorem channelSetValue_off_plain (c : RelayCtx) (hb : c.pin.bistable = false)
    (hp1 : c.pin.pin1 ≠ 0) (hp2 : c.pin.pin2 ≠ 0) :
    (channelSetValue_off c).1.io.writes
      = c.io.writes ++ [(c.pin.pin1 % 256, c.pin.hiIsLo), (c.pin.pin2 % 256, c.pin.hiIsLo)] ∧
    (channelSetValue_off c).1.io.out (c.pin.pin1 % 256) = c.pin.hiIsLo ∧
    (channelSetValue_off c).1.io.out (c.pin.pin2 % 256) = c.pin.hiIsLo ∧
    (channelSetValue_off c).1.pin = c.pin := by
  unfold channelSetValue_off
  cases hl : c.pin.hiIsLo <;>
    simp [hb, hp1, hp2, hl, Io.digitalWrite, Io.digitalRead] <;>
    split_ifs <;> simp_all

/-- C14: for a plain (non-bistable) relay channel whose primary pin reads back
the level written, on an initialised device, set(channel, 1, 0) drives pin1
active, sets the mirrored value to 1, leaves the auto-off timer as it was, and
appends exactly one value-changed notification (this channel, value 1) if
registered = 1 and none otherwise. -/
theorem C14_set_on_plain_relay (c : RelayCtx)
    (htype : c.ch.chType = SUPLA_CHANNELTYPE_RELAY) (hb : c.pin.bistable = false)
    (hp1 : c.pin.pin1 ≠ 0)
    (hback : ∀ o, c.io.sense o (c.pin.pin1 % 256) = o (c.pin.pin1 % 256))
    (hsrpc : c.up.srpc = true) :
    drivenActive (channelSetValue c 1 0).pin (channelSetValue c 1 0).io.out c.pin.pin1 = true ∧
    (channelSetValue c 1 0).ch.value0 = 1 ∧
    (channelSetValue c 1 0).pin.time_left = c.pin.time_left ∧
    (c.up.registered = 1 →
      (channelSetValue c 1 0).up.sent = c.up.sent ++ [(c.ch.Number, 1)]) ∧
    (c.up.registered ≠ 1 → (channelSetValue c 1 0).up.sent = c.up.sent) := by
  obtain ⟨_, o1, _, o3, o4, o5, _, _, o8, o9, o10, o11⟩ := channelSetValue_on_plain c 0 hb hp1
  have hsucc : (channelSetValue_on c 0).2 = true := by
    rw [o4]
    simp [Io.digitalRead, o3, hback, o1]
  have hfin := channelSetValue_finish_true (channelSetValue_on c 0).1 1 (by rw [o9]; exact hb)
  obtain ⟨f1, f2, f3, f4⟩ := hfin
  have heq : channelSetValue c 1 0 = channelSetValue_finish (channelSetValue_on c 0).1 1 true := by
    unfold channelSetValue
    simp only [htype, if_true, channelSetValue_bistable_plain c 1 hb]
    simp [hsucc]
  rw [heq]
  refine ⟨?_, f3, ?_, ?_, ?_⟩
  · simp [drivenActive, f1, f2, o1, o8]
  · rw [f2, o5]; simp
  · intro hr; rw [f4, o11, o10]; simp [hr, hsrpc]
  · intro hr; rw [f4, o11]; simp [hr]

/-- Witness of C14: the registered relay on pins 4 and 5. -/
theorem C14_set_on_plain_relay_witness :
    drivenActive (channelSetValue exRelay 1 0).pin (channelSetValue exRelay 1 0).io.out
      exRelay.pin.pin1 = true ∧
    (channelSetValue exRelay 1 0).ch.value0 = 1 ∧
    (channelSetValue exRelay 1 0).up.sent = exRelay.up.sent ++ [(exRelay.ch.Number, 1)] :=
  have h := C14_set_on_plain_relay exRelay rfl rfl (by decide) (fun _ => rfl) rfl
  ⟨h.1, h.2.1, h.2.2.2.1 rfl⟩

/-- C15: for a plain (non-bistable) relay, if no read-back after a write
returns the level written (low level for value 0 on either pin, high level for
value 1 on the primary pin), set(channel, value, durationMs) leaves the
mirrored value unchanged and sends no notification, for every value, duration
and registration state. -/
theorem C15_unconfirmed_write_changes_nothing (c : RelayCtx) (value DurationMS : Int)
    (hb : c.pin.bistable = false)
    (hfail0 : value = 0 → ∀ o, c.io.sense o (c.pin.pin1 % 256) ≠ c.pin.hiIsLo ∧
      c.io.sense o (c.pin.pin2 % 256) ≠ c.pin.hiIsLo)
    (hfail1 : value = 1 → ∀ o, c.io.sense o (c.pin.pin1 % 256) ≠ !c.pin.hiIsLo) :
    (channelSetValue c value DurationMS).ch.value0 = c.ch.value0 ∧
    (channelSetValue c value DurationMS).up.sent = c.up.sent := by
  by_cases htype : c.ch.chType = SUPLA_CHANNELTYPE_RELAY
  · have hsucc : (if value = 0 then channelSetValue_off c
        else if value = 1 then channelSetValue_on c DurationMS else (c, false)).2 = false ∧
        (if value = 0 then channelSetValue_off c
        else if value = 1 then channelSetValue_on c DurationMS else (c, false)).1.ch = c.ch ∧
        (if value = 0 then channelSetValue_off c
        else if value = 1 then channelSetValue_on c DurationMS else (c, false)).1.up = c.up := by
      by_cases h0 : value = 0
      · have hf := hfail0 h0
        simp only [h0, if_true]
        unfold channelSetValue_off
        cases hl : c.pin.hiIsLo <;> rw [hl] at hf <;>
          by_cases hp1 : c.pin.pin1 = 0 <;> by_cases hp2 : c.pin.pin2 = 0 <;>
          simp [hb, hp1, hp2, hl, Io.digitalWrite, Io.digitalRead, hf]
      · by_cases h1 : value = 1
        · have hf := hfail1 h1
          simp only [h0, h1, if_true, if_false]
          unfold channelSetValue_on
          cases hl : c.pin.hiIsLo <;> rw [hl] at hf <;> simp at hf <;>
            by_cases hp1 : c.pin.pin1 = 0 <;> by_cases hp2 : c.pin.pin2 = 0 <;>
            by_cases hd : DurationMS > 0 <;>
            simp [hb, hp1, hp2, hl, hd, Io.digitalWrite, Io.digitalRead, hf]
        · simp [h0, h1]
    have heq : channelSetValue c value DurationMS = channelSetValue_finish
        (if value = 0 then channelSetValue_off c
          else if value = 1 then channelSetValue_on c DurationMS else (c, false)).1
        value false := by
      unfold channelSetValue
      simp only [htype, if_true, channelSetValue_bistable_plain c value hb]
      rw [hsucc.1]
    obtain ⟨_, _, f3, f4⟩ := channelSetValue_finish_false
      (if value = 0 then channelSetValue_off c
        else if value = 1 then channelSetValue_on c DurationMS else (c, false)).1 value
    rw [heq, f3, f4, hsucc.2.1, hsucc.2.2]
    exact ⟨rfl, rfl⟩
  · simp [channelSetValue, htype]

/-- Witness of C15: the relay whose pins are stuck high, switched off. -/
theorem C15_unconfirmed_write_changes_nothing_witness :
    (channelSetValue exRelayStuck 0 0).ch.value0 = exRelayStuck.ch.value0 ∧
    (channelSetValue exRelayStuck 0 0).up.sent = exRelayStuck.up.sent :=
  C15_unconfirmed_write_changes_nothing exRelayStuck 0 0 rfl
    (fun _ _ => ⟨by simp [exRelayStuck, exRelay, exPin], by simp [exRelayStuck, exRelay, exPin]⟩)
    (fun h => absurd h (by decide))

/-- C16: for a bistable relay channel, set(channel, v, d) is dropped whenever
a pulse is in flight (bi_time_left > 0) or the sense pin already reads the
requested value v: the digital I/O (latch and write log), the pin binding with
all its timers, the channel entry with the mirrored value, and the uplink
with its notifications are all unchanged. -/
theorem C16_bistable_request_dropped (c : RelayCtx) (v d : Int)
    (hb : c.pin.bistable = true)
    (hdrop : c.pin.bi_time_left > 0 ∨ levelValue (c.io.digitalRead c.pin.pin2) = v) :
    (channelSetValue c v d).io = c.io ∧ (channelSetValue c v d).pin = c.pin ∧
    (channelSetValue c v d).ch = c.ch ∧ (channelSetValue c v d).up = c.up := by
  by_cases htype : c.ch.chType = SUPLA_CHANNELTYPE_RELAY
  · have hpre : channelSetValue_bistable c v = (-1, c) := by
      unfold channelSetValue_bistable
      simp [hb, hdrop]
    have heq : channelSetValue c v d = channelSetValue_finish c (-1) false := by
      unfold channelSetValue
      simp [htype, hpre]
    rw [heq]
    exact channelSetValue_finish_false c (-1)
  · simp [channelSetValue, htype]

/-- Witness of C16: a second set(on) on the bistable relay that is already on. -/
theorem C16_bistable_request_dropped_witness :
    (channelSetValue exBistableOn 1 0).io = exBistableOn.io ∧
    (channelSetValue exBistableOn 1 0).pin = exBistableOn.pin ∧
    (channelSetValue exBistableOn 1 0).ch = exBistableOn.ch ∧
    (channelSetValue exBistableOn 1 0).up = exBistableOn.up :=
  C16_bistable_request_dropped exBistableOn 1 0 rfl (Or.inr (by decide))

/-- C17: for a bistable relay (with its drive pin set, as `addChannel`
guarantees) whose request is not dropped, set(channel, v, d) performs exactly
one pin write, the drive pin to its active level, so the sense pin is not
written; it arms the pulse timer to 500 ms whatever v and d are; and it sends
no notification, whatever the registration state and the read-back. -/
theorem C17_bistable_pulse (c : RelayCtx) (v d : Int)
    (htype : c.ch.chType = SUPLA_CHANNELTYPE_RELAY) (hb : c.pin.bistable = true)
    (hp1 : c.pin.pin1 ≠ 0)
    (hkeep : ¬ (c.pin.bi_time_left > 0 ∨ levelValue (c.io.digitalRead c.pin.pin2) = v)) :
    (channelSetValue c v d).io.writes = c.io.writes ++ [(c.pin.pin1 % 256, !c.pin.hiIsLo)] ∧
    drivenActive (channelSetValue c v d).pin (channelSetValue c v d).io.out c.pin.pin1 = true ∧
    (channelSetValue c v d).pin.bi_time_left = 500 ∧
    (channelSetValue c v d).up.sent = c.up.sent := by
  have hpre : channelSetValue_bistable c v
      = (1, { c with pin := { c.pin with bi_time_left := 500 } }) := by
    unfold channelSetValue_bistable
    simp [hb, hkeep]
  have hon : (channelSetValue_on { c with pin := { c.pin with bi_time_left := 500 } } d).1.io.writes
        = c.io.writes ++ [(c.pin.pin1 % 256, !c.pin.hiIsLo)] ∧
      (channelSetValue_on { c with pin := { c.pin with bi_time_left := 500 } } d).1.io.out
        (c.pin.pin1 % 256) = (!c.pin.hiIsLo) ∧
      (channelSetValue_on { c with pin := { c.pin with bi_time_left := 500 } } d).1.pin.bi_time_left
        = 500 ∧
      (channelSetValue_on { c with pin := { c.pin with bi_time_left := 500 } } d).1.pin.bistable
        = true ∧
      (channelSetValue_on { c with pin := { c.pin with bi_time_left := 500 } } d).1.pin.hiIsLo
        = c.pin.hiIsLo ∧
      (channelSetValue_on { c with pin := { c.pin with bi_time_left := 500 } } d).1.up = c.up := by
    unfold channelSetValue_on
    by_cases hd : d > 0 <;> cases hl : c.pin.hiIsLo <;>
      simp [hb, hp1, hd, hl, Io.digitalWrite]
  obtain ⟨o1, o2, o3, o4, o5, o6⟩ := hon
  have heq : channelSetValue c v d = channelSetValue_finish
      (channelSetValue_on { c with pin := { c.pin with bi_time_left := 500 } } d).1 1
      (channelSetValue_on { c with pin := { c.pin with bi_time_left := 500 } } d).2 := by
    unfold channelSetValue
    simp [htype, hpre]
  obtain ⟨f1, f2, f3⟩ := channelSetValue_finish_bistable
    (channelSetValue_on { c with pin := { c.pin with bi_time_left := 500 } } d).1 1
    (channelSetValue_on { c with pin := { c.pin with bi_time_left := 500 } } d).2 o4
  rw [heq]
  refine ⟨by rw [f1, o1], ?_, by rw [f2, o3], by rw [f3, o6]⟩
  simp [drivenActive, f1, f2, o2, o5]

/-- Witness of C17: set(off) on the bistable relay that is on. -/
theorem C17_bistable_pulse_witness :
    (channelSetValue exBistableOn 0 0).io.writes = exBistableOn.io.writes ++ [(4, true)] ∧
    (channelSetValue exBistableOn 0 0).pin.bi_time_left = 500 ∧
    (channelSetValue exBistableOn 0 0).up.sent = exBistableOn.up.sent :=
  have h := C17_bistable_pulse exBistableOn 0 0 rfl rfl (by decide) (by decide)
  ⟨h.1, h.2.2.1, h.2.2.2⟩

/-- C18 (counterexample): the plain relay with primary pin 4 and secondary
pin 5, both low.  After set(on) the primary pin is active but the secondary
pin is not: it was written low before the primary pin was written high. -/
theorem C18_set_on_drives_secondary_inactive :
    exRelay.pin.bistable = false ∧ exRelay.pin.pin2 ≠ 0 ∧
    (channelSetValue exRelay 1 0).io.writes = [(5, false), (4, true)] ∧
    drivenActive exRelay.pin (channelSetValue exRelay 1 0).io.out exRelay.pin.pin1 = true ∧
    drivenActive exRelay.pin (channelSetValue exRelay 1 0).io.out exRelay.pin.pin2 = false := by
  decide

/-- C18 (amended): for a plain (non-bistable) relay with both pins present and
distinct, set(off) writes the inactive level to the primary and then to the
secondary pin, so both end inactive; set(on) writes the inactive level to the
secondary pin first and then the active level to the primary pin, so the
primary ends active and the secondary inactive. -/
theorem C18_plain_relay_pin_levels (c : RelayCtx) (d : Int)
    (htype : c.ch.chType = SUPLA_CHANNELTYPE_RELAY) (hb : c.pin.bistable = false)
    (hp1 : c.pin.pin1 ≠ 0) (hp2 : c.pin.pin2 ≠ 0)
    (hpins : c.pin.pin1 % 256 ≠ c.pin.pin2 % 256) :
    (channelSetValue c 0 d).io.writes
      = c.io.writes ++ [(c.pin.pin1 % 256, c.pin.hiIsLo), (c.pin.pin2 % 256, c.pin.hiIsLo)] ∧
    drivenActive c.pin (channelSetValue c 0 d).io.out c.pin.pin1 = false ∧
    drivenActive c.pin (channelSetValue c 0 d).io.out c.pin.pin2 = false ∧
    (channelSetValue c 1 d).io.writes
      = c.io.writes ++ [(c.pin.pin2 % 256, c.pin.hiIsLo), (c.pin.pin1 % 256, !c.pin.hiIsLo)] ∧
    drivenActive c.pin (channelSetValue c 1 d).io.out c.pin.pin1 = true ∧
    drivenActive c.pin (channelSetValue c 1 d).io.out c.pin.pin2 = false := by
  obtain ⟨a1, a2, a3, a4⟩ := channelSetValue_off_plain c hb hp1 hp2
  obtain ⟨b1, b2, b3, _, _, _, _, _, b9, b10, _, _⟩ := channelSetValue_on_plain c d hb hp1
  have hfin : ∀ (x : RelayCtx) (val : Int) (s : Bool), x.pin.bistable = false →
      (channelSetValue_finish x val s).io = x.io := by
    intro x val s hx
    cases s
    · exact (channelSetValue_finish_false x val).1
    · exact (channelSetValue_finish_true x val hx).1
  have h0 : (channelSetValue c 0 d).io = (channelSetValue_off c).1.io := by
    unfold channelSetValue
    simp only [htype, if_true, channelSetValue_bistable_plain c 0 hb]
    exact hfin _ _ _ (by rw [a4]; exact hb)
  have h1 : (channelSetValue c 1 d).io = (channelSetValue_on c d).1.io := by
    unfold channelSetValue
    simp only [htype, if_true, channelSetValue_bistable_plain c 1 hb]
    exact hfin _ _ _ (by simpa [b10] using hb)
  rw [h0, h1]
  refine ⟨a1, ?_, ?_, ?_, ?_, ?_⟩
  · simp [drivenActive, a2]
  · simp [drivenActive, a3]
  · rw [b1]; simp [hp2]
  · simp [drivenActive, b2]
  · simp [drivenActive, b3 hpins hp2]

/-- Witness of C18 (amended): the relay on pins 4 and 5. -/
theorem C18_plain_relay_pin_levels_witness :
    (channelSetValue exRelay 1 0).io.writes
      = exRelay.io.writes ++ [(exRelay.pin.pin2 % 256, exRelay.pin.hiIsLo),
          (exRelay.pin.pin1 % 256, !exRelay.pin.hiIsLo)] ∧
    drivenActive exRelay.pin (channelSetValue exRelay 1 0).io.out exRelay.pin.pin1 = true ∧
    drivenActive exRelay.pin (channelSetValue exRelay 1 0).io.out exRelay.pin.pin2 = false :=
  (C18_plain_relay_pin_levels exRelay 0 rfl rfl (by decide) (by decide) (by decide)).2.2.2

/-! ## Backoff of the connection state machine -/

theorem ungated_iff (s : ConnState) (now : Nat) :
    ungated s now = true ↔ ¬ (s.wait_for_iterate ≠ 0 ∧ now < s.wait_for_iterate) := by
  unfold ungated
  by_cases h1 : s.wait_for_iterate = 0 <;> by_cases h2 : now < s.wait_for_iterate <;>
    simp [h1, h2]

/-- One ungated tick whose connect attempt fails, below the escalation
threshold. -/
theorem iterate_connect_failure (s : ConnState) (env : NetEnv) (now : Nat)
    (hi : s.initialized = true) (hu : ungated s now = true)
    (hc : s.connectionFailCounter ≤ 30) (hf : connectFails env = true) :
    iterate s env now =
      { s with
        registered := 0
        connectionFailCounter := s.connectionFailCounter + 1
        networkIsNotReadyCounter := 0
        wait_for_iterate := uadd now 2000
        log := s.log ++ [.elementsIterateAlways, .updateStorageOccasionally, .networkIsReady,
          .networkConnected, .status .SERVER_DISCONNECTED, .networkConnect,
          .networkDisconnect] } := by
  have hg := (ungated_iff s now).1 hu
  have hc2 : ¬ s.connectionFailCounter > 30 := by omega
  unfold connectFails at hf
  simp only [Bool.and_eq_true, Bool.not_eq_true', decide_eq_true_eq] at hf
  obtain ⟨⟨hr, hn⟩, hres⟩ := hf
  have hres2 : ¬ (1 = env.connectResult) := fun h => hres h.symm
  unfold iterate iterate_connect
  simp [hi, ConnState.did, hg, hc2, hr, hn, hres2]

/-- One ungated tick at or above the escalation threshold. -/
theorem iterate_escalation (s : ConnState) (env : NetEnv) (now : Nat)
    (hi : s.initialized = true) (hu : ungated s now = true)
    (hc : s.connectionFailCounter > 30) :
    iterate s env now =
      { s with
        connectionFailCounter := 0
        wait_for_iterate := 0
        log := s.log ++ [.elementsIterateAlways, .updateStorageOccasionally, .networkSetup] } := by
  have hg := (ungated_iff s now).1 hu
  unfold iterate
  simp [hi, ConnState.did, hg, hc]

theorem iterate_run_failures (ticks : List (NetEnv × Nat)) :
    ∀ (s : ConnState), s.initialized = true →
      s.connectionFailCounter + ticks.length ≤ 31 →
      ungatedRun s ticks = true → (∀ t ∈ ticks, connectFails t.1 = true) →
      (iterate_run s ticks).connectionFailCounter = s.connectionFailCounter + ticks.length ∧
      setupCount (iterate_run s ticks) = setupCount s ∧
      (iterate_run s ticks).initialized = true := by
  induction ticks with
  | nil => intro s hi _ _ _; exact ⟨rfl, rfl, hi⟩
  | cons t ts ih =>
    intro s hi hlen hu hf
    simp only [List.length_cons] at hlen
    simp only [ungatedRun, Bool.and_eq_true] at hu
    have hstep := iterate_connect_failure s t.1 t.2 hi hu.1 (by omega)
      (hf t (List.mem_cons_self _ _))
    have hnext := ih (iterate s t.1 t.2) (by rw [hstep]; exact hi)
      (by rw [hstep]; simp only []; omega) hu.2
      (fun x hx => hf x (List.mem_cons_of_mem _ hx))
    rw [iterate_run]
    refine ⟨?_, ?_, hnext.2.2⟩
    · rw [hnext.1, hstep]; simp only [List.length_cons]; omega
    · rw [hnext.2.1, hstep]
      simp [setupCount, List.count_append]

theorem ungatedRun_take (ticks : List (NetEnv × Nat)) :
    ∀ (s : ConnState) (k : Nat), ungatedRun s ticks = true →
      ungatedRun s (ticks.take k) = true := by
  induction ticks with
  | nil => intro s k h; simp [ungatedRun]
  | cons t ts ih =>
    intro s k h
    cases k with
    | zero => simp [ungatedRun]
    | succ k =>
      simp only [ungatedRun, Bool.and_eq_true, List.take_succ_cons] at h ⊢
      exact ⟨h.1, ih _ k h.2⟩

theorem onInbound_counter (now : Nat) (s : ConnState) (i : Inbound) :
    (onInbound now s i).connectionFailCounter = s.connectionFailCounter := by
  cases i with
  | registerResult code t =>
    unfold onInbound onRegisterResult
    by_cases h : code = .TRUE
    · by_cases h2 : t = ACTIVITY_TIMEOUT <;> simp [h, h2, ConnState.did]
    · simp only [h, if_false]
      cases registerFailureStatus code <;> simp [ConnState.did]
  | versionError => simp [onInbound, onVersionError, ConnState.did]

theorem inbound_counter (now : Nat) (l : List Inbound) :
    ∀ s : ConnState, (l.foldl (onInbound now) s).connectionFailCounter
      = s.connectionFailCounter := by
  induction l with
  | nil => intro s; rfl
  | cons i l ih => intro s; rw [List.foldl_cons, ih, onInbound_counter]

theorem serviceChannels_counter (s : ConnState) (time_diff : Nat) :
    (serviceChannels s time_diff).connectionFailCounter = s.connectionFailCounter := by
  unfold serviceChannels
  generalize List.range s.channel_pin_count = l
  induction l generalizing s with
  | nil => rfl
  | cons a l ih => rw [List.foldl_cons, ih]; rfl

theorem iterate_connected_counter (s : ConnState) (env : NetEnv) (now time_diff : Nat) :
    (iterate_connected s env now time_diff).connectionFailCounter
      = s.connectionFailCounter := by
  unfold iterate_connected
  have hin := inbound_counter now env.inbound ((s.did .networkIterate).did .srpcIterate)
  simp only []
  split_ifs <;> simp [ConnState.did, serviceChannels_counter] <;>
    simpa [ConnState.did] using hin

/-- C19: backoff escalation.  From connectionFailCounter = 0, over 31 ticks
that each pass the gate with the network ready, the transport not connected
and the connect attempt failing: after the first k of them (k = 0..31) the
counter is k and no network re-setup has been recorded; every such tick
increments the counter by one and sets wait_for_iterate to now + 2000.  The
next ungated tick after the 31st failure records exactly one network re-setup
and no connect attempt, and leaves the counter at 0.  A tick whose connect
attempt succeeds leaves the counter at 0. -/
theorem C19_backoff_escalation (s : ConnState) (ticks : List (NetEnv × Nat))
    (env : NetEnv) (now : Nat)
    (hi : s.initialized = true) (h0 : s.connectionFailCounter = 0)
    (hlen : ticks.length = 31) (hu : ungatedRun s ticks = true)
    (hf : ∀ t ∈ ticks, connectFails t.1 = true)
    (hnext : ungated (iterate_run s ticks) now = true) :
    (∀ k, k ≤ 31 →
      (iterate_run s (ticks.take k)).connectionFailCounter = k ∧
      setupCount (iterate_run s (ticks.take k)) = setupCount s) ∧
    (∀ (s2 : ConnState) (env2 : NetEnv) (now2 : Nat), s2.initialized = true →
      ungated s2 now2 = true → s2.connectionFailCounter ≤ 30 → connectFails env2 = true →
      (iterate s2 env2 now2).connectionFailCounter = s2.connectionFailCounter + 1 ∧
      (iterate s2 env2 now2).wait_for_iterate = uadd now2 2000 ∧
      setupCount (iterate s2 env2 now2) = setupCount s2) ∧
    ((iterate (iterate_run s ticks) env now).connectionFailCounter = 0 ∧
      (iterate (iterate_run s ticks) env now).log
        = (iterate_run s ticks).log
          ++ [.elementsIterateAlways, .updateStorageOccasionally, .networkSetup] ∧
      setupCount (iterate (iterate_run s ticks) env now) = setupCount s + 1) ∧
    (∀ (s2 : ConnState) (env2 : NetEnv) (now2 : Nat), s2.initialized = true →
      ungated s2 now2 = true → s2.connectionFailCounter ≤ 30 → env2.isReady = true →
      env2.connected = false → env2.connectResult = 1 →
      (iterate s2 env2 now2).connectionFailCounter = 0) := by
  refine ⟨?_, ?_, ?_, ?_⟩
  · intro k hk
    have hlk : (ticks.take k).length = k := by
      rw [List.length_take]; omega
    have h := iterate_run_failures (ticks.take k) s hi (by rw [hlk, h0]; omega)
      (ungatedRun_take ticks s k hu) (fun t ht => hf t (List.mem_of_mem_take ht))
    rw [hlk, h0] at h
    exact ⟨by rw [h.1]; omega, h.2.1⟩
  · intro s2 env2 now2 hi2 hu2 hc2 hf2
    rw [iterate_connect_failure s2 env2 now2 hi2 hu2 hc2 hf2]
    simp [setupCount, List.count_append]
  · have h := iterate_run_failures ticks s hi (by rw [hlen, h0]) hu hf
    rw [hlen, h0] at h
    rw [iterate_escalation (iterate_run s ticks) env now h.2.2 hnext (by rw [h.1]; omega)]
    refine ⟨rfl, rfl, ?_⟩
    rw [← h.2.1]
    simp [setupCount, List.count_append]
  · intro s2 env2 now2 hi2 hu2 hc2 hr hn hres
    have hg := (ungated_iff s2 now2).1 hu2
    have hc3 : ¬ s2.connectionFailCounter > 30 := by omega
    unfold iterate iterate_connect
    simp [hi2, ConnState.did, hg, hc3, hr, hn, hres, iterate_connected_counter]

set_option maxRecDepth 8000 in
/-- Witness of C19: 31 failing ticks 2000 ms apart from time 1000, then a tick
at time 63000. -/
theorem C19_backoff_escalation_witness :
    (iterate (iterate_run exConn exFailTicks) exEnvFail 63000).connectionFailCounter = 0 ∧
    (iterate (iterate_run exConn exFailTicks) exEnvFail 63000).log
      = (iterate_run exConn exFailTicks).log
        ++ [.elementsIterateAlways, .updateStorageOccasionally, .networkSetup] ∧
    setupCount (iterate (iterate_run exConn exFailTicks) exEnvFail 63000)
      = setupCount exConn + 1 :=
  (C19_backoff_escalation exConn exFailTicks exEnvFail 63000 rfl rfl (by decide) (by decide)
    (by decide) (by decide)).2.2.1

/-- C20: if wait_for_iterate is non-zero and the current time is before it,
iterate leaves registered, connectionFailCounter, networkIsNotReadyCounter,
wait_for_iterate and last_iterate_time unchanged, and records at most the
element hook and the pulse-counter storage call that precede the gate: no
network set-up, readiness check, connect, register, ping or channel
servicing. -/
theorem C20_gated_tick_does_nothing (s : ConnState) (env : NetEnv) (now : Nat)
    (hw : s.wait_for_iterate ≠ 0) (hnow : now < s.wait_for_iterate) :
    (iterate s env now).registered = s.registered ∧
    (iterate s env now).connectionFailCounter = s.connectionFailCounter ∧
    (iterate s env now).networkIsNotReadyCounter = s.networkIsNotReadyCounter ∧
    (iterate s env now).wait_for_iterate = s.wait_for_iterate ∧
    (iterate s env now).last_iterate_time = s.last_iterate_time ∧
    ((iterate s env now).log = s.log ∨
      (iterate s env now).log
        = s.log ++ [.elementsIterateAlways, .updateStorageOccasionally]) := by
  unfold iterate
  by_cases hi : s.initialized = true
  · simp [hi, ConnState.did, hw, hnow]
  · simp [hi]

/-- Witness of C20: a tick at time 1500 against a gate set to 3000. -/
theorem C20_gated_tick_does_nothing_witness :
    (iterate { exConn with wait_for_iterate := 3000 } exEnvOk 1500).registered
      = exConn.registered ∧
    (iterate { exConn with wait_for_iterate := 3000 } exEnvOk 1500).wait_for_iterate = 3000 :=
  have h := C20_gated_tick_does_nothing { exConn with wait_for_iterate := 3000 } exEnvOk 1500
    (by decide) (by decide)
  ⟨h.1, h.2.2.2.1⟩

/-! ## Server commands for a roller shutter -/

theorem rs_set_relay_cancels_task (c : RsCtx) (value : Nat) (stop_delay : Bool) (now : Nat) :
    (rs_set_relay c value true stop_delay now).rs.task = ⟨0, RS_DIRECTION_NONE, false⟩ := by
  by_cases hv : value = RS_RELAY_OFF
  · subst hv
    simp only [rs_set_relay_rs_off, rs_set_relay_off_eq]
    by_cases h1 : c.rs.cvr1.active = true <;> simp [rs_cancel_task, h1]
  · simp only [rs_set_relay_rs_dir c value _ stop_delay now hv]
    by_cases h2 : c.rs.cvr2.active = true <;>
      by_cases hp : suplaDigitalRead_isHI c (oppositePin c.pin value) = true <;>
      simp [rs_cancel_task, h2, hp]

theorem rs_server_settings_frame (rs : SuplaDeviceRollerShutter) (DurationMS : Int) :
    (rs_server_settings rs DurationMS).channel_number = rs.channel_number ∧
    (rs_server_settings rs DurationMS).cvr1 = rs.cvr1 ∧
    (rs_server_settings rs DurationMS).cvr2 = rs.cvr2 ∧
    (rs_server_settings rs DurationMS).task = rs.task := by
  unfold rs_server_settings
  simp only []
  split_ifs <;> simp

theorem rs_add_task_eq (rs : SuplaDeviceRollerShutter) (percent : Nat) (hp : percent ≤ 100) :
    rs_add_task rs percent =
      if positionPercent rs = percent then rs
      else { rs with task := ⟨percent, RS_DIRECTION_NONE, true⟩ } := by
  unfold rs_add_task
  have : ¬ percent > 100 := by omega
  simp [this]

/-- C13: a server command for the channel of a roller shutter.  After the
travel times of the command have been applied to the record: a value v with
10 <= v <= 110 leaves cvr1 and cvr2 alone (no relay request) and, when the
current percent differs from v - 10, sets the task to target v - 10, direction
none, active, else leaves the record as it is; v = 1 is the relay request
"down", v = 2 the relay request "up", every other value the relay request
"off", each made with cancel_task, so that the task ends inactive with percent
0 and direction none. -/
theorem C13_server_command_decoding (d : DevSlice) (rs : SuplaDeviceRollerShutter)
    (v DurationMS : Int) (now : Nat)
    (htype : d.relay.ch.chType = SUPLA_CHANNELTYPE_RELAY)
    (hfunc : d.relay.ch.FuncList = SUPLA_BIT_FUNC_CONTROLLINGTHEROLLERSHUTTER)
    (hrs : d.roller_shutter = some rs) (hch : rs.channel_number = d.relay.ch.Number) :
    (10 ≤ v ∧ v ≤ 110 →
      (channelSetValueByServer d d.relay.ch.Number v DurationMS now).roller_shutter
        = some (if positionPercent (rs_server_settings rs DurationMS) = (v - 10).toNat
            then rs_server_settings rs DurationMS
            else { rs_server_settings rs DurationMS with
                   task := ⟨(v - 10).toNat, RS_DIRECTION_NONE, true⟩ }) ∧
      (∀ r, (channelSetValueByServer d d.relay.ch.Number v DurationMS now).roller_shutter
          = some r → r.cvr1 = rs.cvr1 ∧ r.cvr2 = rs.cvr2)) ∧
    (∀ value : Nat,
      (v = 1 ∧ value = RS_RELAY_DOWN) ∨ (v = 2 ∧ value = RS_RELAY_UP) ∨
        (¬ (10 ≤ v ∧ v ≤ 110) ∧ v ≠ 1 ∧ v ≠ 2 ∧ value = RS_RELAY_OFF) →
      (channelSetValueByServer d d.relay.ch.Number v DurationMS now).roller_shutter
        = some (rs_set_relay ⟨rs_server_settings rs DurationMS, d.relay.pin, d.relay.io⟩
            value true true now).rs ∧
      (∀ r, (channelSetValueByServer d d.relay.ch.Number v DurationMS now).roller_shutter
          = some r → r.task = ⟨0, RS_DIRECTION_NONE, false⟩)) := by
  obtain ⟨f1, f2, f3, _⟩ := rs_server_settings_frame rs DurationMS
  have hlook : rsByChannelNumber d d.relay.ch.Number = some rs := by
    simp [rsByChannelNumber, hrs, hch]
  constructor
  · intro hv
    have hp : (v - 10).toNat ≤ 100 := by omega
    have heq : (channelSetValueByServer d d.relay.ch.Number v DurationMS now).roller_shutter
        = some (rs_add_task (rs_server_settings rs DurationMS) (v - 10).toNat) := by
      unfold channelSetValueByServer
      simp [htype, hfunc, hlook, hv]
    rw [heq, rs_add_task_eq _ _ hp]
    refine ⟨rfl, ?_⟩
    intro r hr
    simp only [Option.some.injEq] at hr
    subst hr
    split_ifs <;> simp [f2, f3]
  · intro value hcase
    have hv : ¬ (v ≥ 10 ∧ v ≤ 110) := by
      rcases hcase with ⟨h, _⟩ | ⟨h, _⟩ | ⟨h, _⟩ <;> omega
    have heq : (channelSetValueByServer d d.relay.ch.Number v DurationMS now).roller_shutter
        = some (rs_set_relay ⟨rs_server_settings rs DurationMS, d.relay.pin, d.relay.io⟩
            value true true now).rs := by
      unfold channelSetValueByServer
      simp only [htype, hfunc, hlook, if_true, hv, if_false]
      rcases hcase with ⟨h, hval⟩ | ⟨h, hval⟩ | ⟨_, h1, h2, hval⟩
      · subst hval
        simp [h, rs_set_relay_channel, rsByChannelNumber]
        split_ifs <;> rfl
      · subst hval
        simp [h, rs_set_relay_channel, rsByChannelNumber]
        split_ifs <;> rfl
      · subst hval
        simp [h1, h2, rs_set_relay_channel, rsByChannelNumber]
        split_ifs <;> rfl
    rw [heq]
    refine ⟨rfl, ?_⟩
    intro r hr
    simp only [Option.some.injEq] at hr
    subst hr
    exact rs_set_relay_cancels_task _ _ _ _

/-- Witness of C13: value 40 (go to 30 %) for the shutter at 50 %. -/
theorem C13_server_command_decoding_witness :
    (channelSetValueByServer exShutterSlice exShutterSlice.relay.ch.Number 40 exDuration
        7000).roller_shutter
      = some (if positionPercent (rs_server_settings
                { rsZero 3 with position := 5100, full_opening_time := 10000,
                                full_closing_time := 10000 } exDuration) = (40 - 10 : Int).toNat
          then rs_server_settings
                { rsZero 3 with position := 5100, full_opening_time := 10000,
                                full_closing_time := 10000 } exDuration
          else { rs_server_settings
                { rsZero 3 with position := 5100, full_opening_time := 10000,
                                full_closing_time := 10000 } exDuration with
                 task := ⟨(40 - 10 : Int).toNat, RS_DIRECTION_NONE, true⟩ }) :=
  ((C13_server_command_decoding exShutterSlice
      { rsZero 3 with position := 5100, full_opening_time := 10000,
                      full_closing_time := 10000 }
      40 exDuration 7000 rfl rfl rfl rfl).1 (by decide)).1

/-! ## Calibration while opening -/

theorem calibrate_threshold_10000 :
    Dbl.toULong (Dbl.mul (Dbl.ofNat 10000) Dbl.c1_1) = 11000 := by decide

theorem positionDelta_11000_10000 : positionDelta 11000 10000 = 11000 := by decide

theorem autostop_reached_11000 :
    Dbl.le (Dbl.mul (Dbl.ofNat 10000) Dbl.c1_1) (Dbl.ofNat 11000) = true := by decide

theorem toInt32_100_minus_11000 : toInt32 (usub 100 11000) ≤ 100 := by decide

/-- One opening pass with unknown position before the calibration threshold
of 11000 ms (full opening time 10000 ms) is reached: only the accumulators
change. -/
theorem rs_integrate_opening_unknown (s : RsCtx) (d now : Nat)
    (hdown : suplaDigitalRead_isHI s s.pin.pin1 = false)
    (hup : suplaDigitalRead_isHI s s.pin.pin2 = true)
    (hfo : s.rs.full_opening_time = 10000)
    (hunk : s.rs.position < 100 ∨ s.rs.position > 10100)
    (ht : s.rs.up_time + d < 11000) :
    rs_integrate s d now
      = { s with rs := { s.rs with up_time := s.rs.up_time + d, down_time := 0 } } := by
  have hadd : uadd s.rs.up_time d = s.rs.up_time + d := by
    unfold uadd; omega
  have hnot : ¬ (s.rs.up_time + d ≥ 11000) := by omega
  have hg : s.rs.position < 100 ∨ s.rs.position > 10100 ∨ 10000 = 0 := by omega
  unfold rs_integrate
  simp only [hdown, hup, if_true, Bool.false_eq_true, if_false, hadd, hfo]
  unfold rs_calibrate
  simp only [hunk, and_true, gt_iff_lt, calibrate_threshold_10000, hnot, if_false,
    show (0 : Nat) < 10000 by norm_num, if_true]
  unfold rs_move_position
  simp only [hg, if_true]

theorem rs_integrate_run_opening_unknown (b : SuplaChannelPin) (io : Io)
    (hdown : ∀ rs, suplaDigitalRead_isHI ⟨rs, b, io⟩ b.pin1 = false)
    (hup : ∀ rs, suplaDigitalRead_isHI ⟨rs, b, io⟩ b.pin2 = true) (ds : List Nat) :
    ∀ (s : RsCtx) (now : Nat), s.pin = b → s.io = io → s.rs.full_opening_time = 10000 →
      (s.rs.position < 100 ∨ s.rs.position > 10100) → s.rs.up_time + ds.sum < 11000 →
      (rs_integrate_run s now ds).pin = b ∧ (rs_integrate_run s now ds).io = io ∧
      (rs_integrate_run s now ds).rs.full_opening_time = 10000 ∧
      (rs_integrate_run s now ds).rs.position = s.rs.position ∧
      (rs_integrate_run s now ds).rs.save_position = s.rs.save_position ∧
      (rs_integrate_run s now ds).rs.cvr1 = s.rs.cvr1 ∧
      (rs_integrate_run s now ds).rs.cvr2 = s.rs.cvr2 ∧
      (rs_integrate_run s now ds).rs.start_time = s.rs.start_time ∧
      (rs_integrate_run s now ds).rs.up_time = s.rs.up_time + ds.sum := by
  induction ds with
  | nil => intro s now hb hio hfo _ _; simp [rs_integrate_run, hb, hio, hfo]
  | cons d ds ih =>
    intro s now hb hio hfo hunk ht
    rw [List.sum_cons] at ht
    have hs : s = ⟨s.rs, b, io⟩ := by cases s; simp_all
    have hstep := rs_integrate_opening_unknown s d (uadd now d)
      (by rw [hs]; exact hdown _) (by rw [hs]; exact hup _) hfo hunk (by omega)
    have h := ih (rs_integrate s d (uadd now d)) (uadd now d)
      (by rw [hstep]; exact hb) (by rw [hstep]; exact hio) (by rw [hstep]; exact hfo)
      (by rw [hstep]; exact hunk) (by rw [hstep]; simp only []; omega)
    rw [rs_integrate_run, List.sum_cons]
    obtain ⟨h1, h2, h3, h4, h5, h6, h7, h8, h9⟩ := h
    have e4 : (rs_integrate s d (uadd now d)).rs.position = s.rs.position := by rw [hstep]
    have e5 : (rs_integrate s d (uadd now d)).rs.save_position = s.rs.save_position := by
      rw [hstep]
    have e6 : (rs_integrate s d (uadd now d)).rs.cvr1 = s.rs.cvr1 := by rw [hstep]
    have e7 : (rs_integrate s d (uadd now d)).rs.cvr2 = s.rs.cvr2 := by rw [hstep]
    have e8 : (rs_integrate s d (uadd now d)).rs.start_time = s.rs.start_time := by
      rw [hstep]
    have e9 : (rs_integrate s d (uadd now d)).rs.up_time = s.rs.up_time + d := by rw [hstep]
    exact ⟨h1, h2, h3, h4.trans e4, h5.trans e5, h6.trans e6, h7.trans e7, h8.trans e8,
      by rw [h9, e9]; omega⟩

/-- The opening pass in which the accumulated time reaches 11000 ms, with
unknown position and full opening time 10000 ms: the calibration sets
position 100 and the dirty flag, then rs_move_position runs. -/
theorem rs_integrate_opening_reaches_threshold (s : RsCtx) (d now : Nat)
    (hdown : suplaDigitalRead_isHI s s.pin.pin1 = false)
    (hup : suplaDigitalRead_isHI s s.pin.pin2 = true)
    (hfo : s.rs.full_opening_time = 10000)
    (hunk : s.rs.position < 100 ∨ s.rs.position > 10100)
    (ht : s.rs.up_time + d = 11000) :
    rs_integrate s d now
      = rs_move_position
          { s with rs := { s.rs with up_time := 11000, down_time := 0, position := 100,
                                     save_position := 1 } } 10000 .up true now := by
  have hadd : uadd s.rs.up_time d = 11000 := by
    unfold uadd; omega
  unfold rs_integrate
  simp only [hdown, hup, if_true, Bool.false_eq_true, if_false, hadd, hfo]
  unfold rs_calibrate
  simp only [hunk, and_true, gt_iff_lt, calibrate_threshold_10000, ge_iff_le, le_refl,
    if_true, show (0 : Nat) < 10000 by norm_num]

/-- At position 100 with 11000 ms of opening time and full opening time
10000 ms, rs_move_position leaves the record as it is and issues the off
request. -/
theorem rs_move_position_opening_limit (c : RsCtx) (now : Nat)
    (hp : c.rs.position = 100) (ht : c.rs.up_time = 11000) :
    rs_move_position c 10000 .up true now = rs_set_relay c RS_RELAY_OFF false false now := by
  unfold rs_move_position
  have hg : ¬ (c.rs.position < 100 ∨ c.rs.position > 10100 ∨ 10000 = 0) := by omega
  simp only [hg, if_false, TimeSel.get, ht, positionDelta_11000_10000, hp,
    toInt32_100_minus_11000, if_true, autostop_reached_11000]
  simp only [autostop_reached_11000, if_true, show (0 : Nat) < 11000 by norm_num, ne_eq,
    not_true_eq_false, if_false, and_self, true_or, true_and]
  cases c with | mk rs pin io => cases rs; simp_all

theorem rs_integrate_run_append (l : List Nat) (d : Nat) (c : RsCtx) (m : Nat) :
    rs_integrate_run c m (l ++ [d])
      = rs_integrate (rs_integrate_run c m l) d
          (uadd (l.foldl (fun t x => uadd t x) m) d) := by
  induction l generalizing c m with
  | nil => simp [rs_integrate_run]
  | cons x l ih =>
    simp only [List.cons_append, rs_integrate_run, List.foldl_cons]
    exact ih _ _

/-- C11: scenario.  A shutter with unknown position and full opening time
10000 ms has the up relay sensed active (and the down relay not) over service
ticks that total 11000 ms, the last of them not empty, with no stop in flight
at the start.  After any number of the ticks before the last, position, dirty
flag and cvr1 are as at the start: the position is still unknown.  The pass in
which the accumulated up_time reaches 11000 sets position to 100, sets the
dirty flag and issues the off request: cvr1 becomes active with value off. -/
theorem C11_opening_calibration_scenario (c : RsCtx) (now : Nat) (ds : List Nat) (d : Nat)
    (hunk : c.rs.position < 100 ∨ c.rs.position > 10100)
    (hfo : c.rs.full_opening_time = 10000) (ht0 : c.rs.up_time = 0)
    (hdown : suplaDigitalRead_isHI c c.pin.pin1 = false)
    (hup : suplaDigitalRead_isHI c c.pin.pin2 = true)
    (hstop : c.rs.cvr1.active = false)
    (hsum : ds.sum + d = 11000) (hd : 0 < d) :
    (∀ k,
      (rs_integrate_run c now (ds.take k)).rs.position = c.rs.position ∧
      (rs_integrate_run c now (ds.take k)).rs.save_position = c.rs.save_position ∧
      (rs_integrate_run c now (ds.take k)).rs.cvr1 = c.rs.cvr1) ∧
    (rs_integrate_run c now (ds ++ [d])).rs.position = 100 ∧
    (rs_integrate_run c now (ds ++ [d])).rs.save_position = 1 ∧
    (rs_integrate_run c now (ds ++ [d])).rs.cvr1.active = true ∧
    (rs_integrate_run c now (ds ++ [d])).rs.cvr1.value = RS_RELAY_OFF := by
  have hdn : ∀ rs, suplaDigitalRead_isHI ⟨rs, c.pin, c.io⟩ c.pin.pin1 = false := by
    intro rs; simpa [suplaDigitalRead_isHI] using hdown
  have hu : ∀ rs, suplaDigitalRead_isHI ⟨rs, c.pin, c.io⟩ c.pin.pin2 = true := by
    intro rs; simpa [suplaDigitalRead_isHI] using hup
  constructor
  · intro k
    have hle : (ds.take k).sum ≤ ds.sum := by
      have := List.sum_take_add_sum_drop ds k
      omega
    obtain ⟨_, _, _, h4, h5, h6, _⟩ := rs_integrate_run_opening_unknown c.pin c.io hdn hu
      (ds.take k) c now rfl rfl hfo hunk (by omega)
    exact ⟨h4, h5, h6⟩
  · obtain ⟨h1, h2, h3, h4, h5, h6, _, _, h9⟩ := rs_integrate_run_opening_unknown c.pin c.io
      hdn hu ds c now rfl rfl hfo hunk (by omega)
    have hs : rs_integrate_run c now ds
        = ⟨(rs_integrate_run c now ds).rs, c.pin, c.io⟩ := by
      cases hr : rs_integrate_run c now ds
      rw [hr] at h1 h2
      simp only [] at h1 h2
      rw [h1, h2]
    have hfinal := rs_integrate_opening_reaches_threshold (rs_integrate_run c now ds) d
      (uadd (ds.foldl (fun t x => uadd t x) now) d)
      (by rw [hs]; exact hdn _) (by rw [hs]; exact hu _) h3 (by rw [h4]; exact hunk)
      (by rw [h9]; omega)
    rw [rs_integrate_run_append ds d c now, hfinal,
      rs_move_position_opening_limit _ _ rfl rfl, rs_set_relay_rs_off, rs_set_relay_off_eq]
    simp [h6, hstop]

/-- Witness of C11: ticks of 5000, 5999 and 1 ms. -/
theorem C11_opening_calibration_scenario_witness :
    (rs_integrate_run exOpeningUnknown 0 ([5000, 5999] ++ [1])).rs.position = 100 ∧
    (rs_integrate_run exOpeningUnknown 0 ([5000, 5999] ++ [1])).rs.save_position = 1 ∧
    (rs_integrate_run exOpeningUnknown 0 ([5000, 5999] ++ [1])).rs.cvr1.active = true ∧
    (rs_integrate_run exOpeningUnknown 0 ([5000, 5999] ++ [1])).rs.cvr1.value = RS_RELAY_OFF :=
  (C11_opening_calibration_scenario exOpeningUnknown 0 [5000, 5999] 1 (by decide) (by decide)
    (by decide) (by decide) (by decide) (by decide) (by decide) (by decide)).2

/-! ## Task convergence -/

theorem setHI_rs (c : RsCtx) (p : Nat) (v : Bool) : (suplaDigitalWrite_setHI c p v).rs = c.rs :=
  rfl

theorem setHI_pin (c : RsCtx) (p : Nat) (v : Bool) :
    (suplaDigitalWrite_setHI c p v).pin = c.pin := rfl

theorem setHI_sense (c : RsCtx) (p : Nat) (v : Bool) :
    (suplaDigitalWrite_setHI c p v).io.sense = c.io.sense := rfl

theorem isHI_rs (rs rs2 : SuplaDeviceRollerShutter) (b : SuplaChannelPin) (io : Io) (q : Nat) :
    suplaDigitalRead_isHI ⟨rs, b, io⟩ q = suplaDigitalRead_isHI ⟨rs2, b, io⟩ q := rfl

theorem positionPercent_known (rs : SuplaDeviceRollerShutter)
    (h1 : 100 ≤ rs.position) (h2 : rs.position ≤ 10100) :
    positionPercent rs % 256 = (rs.position - 100) / 100 ∧
    positionPercent rs = (rs.position - 100) / 100 ∧
    (rs.position - 100) / 100 ≤ 100 := by
  have e : usub rs.position 100 = rs.position - 100 := by
    unfold usub
    omega
  unfold positionPercent
  rw [e]
  omega

/-- The record of `onRegisterResult` for a result code other than success. -/
theorem onRegisterResult_failure (s : ConnState) (code : ResultCode) (t : Int) (now : Nat)
    (h : code ≠ .TRUE) :
    onRegisterResult s code t now
      = { s with
          log := s.log ++ (match registerFailureStatus code with
                           | some st => [Action.status st]
                           | none => []) ++ [Action.networkDisconnect]
          wait_for_iterate := uadd now 5000 } := by
  unfold onRegisterResult
  simp only [h, if_false]
  cases hst : registerFailureStatus code <;> simp [ConnState.did]

/-- The record of `onRegisterResult` for the success code. -/
theorem onRegisterResult_success (s : ConnState) (t : Int) (now : Nat) :
    onRegisterResult s .TRUE t now
      = { s with
          log := s.log ++ [Action.networkSetActivityTimeout t,
                           Action.status .REGISTERED_AND_READY] ++
                 (if t ≠ ACTIVITY_TIMEOUT then [Action.srpcSetActivityTimeout ACTIVITY_TIMEOUT]
                  else [])
          registered := 1
          last_iterate_time := now } := by
  unfold onRegisterResult
  by_cases ht : t = ACTIVITY_TIMEOUT <;> simp [ht, ConnState.did]

/-- C21: register results.  For every result code other than success, the
codes without a case label included, onRegisterResult calls Disconnect as the
last thing it records, sets wait_for_iterate to now + 5000 (an unsigned long
sum: exactly now + 5000 below the wrap of the clock) and leaves registered and
last_iterate_time as they were.  For the success code it sets registered to 1
and last_iterate_time to now, leaves wait_for_iterate as it was and records
the activity timeout, the status "registered and ready" and, when the granted
timeout differs from the preferred one, the request to change it: no
Disconnect. -/
theorem C21_register_result_recovery (s : ConnState) (code : ResultCode) (t : Int)
    (now : Nat) :
    (code ≠ .TRUE →
      (onRegisterResult s code t now).log
        = s.log ++ (match registerFailureStatus code with
                    | some st => [Action.status st]
                    | none => []) ++ [Action.networkDisconnect] ∧
      (onRegisterResult s code t now).wait_for_iterate = (now + 5000) % 4294967296 ∧
      (now + 5000 < 4294967296 →
        (onRegisterResult s code t now).wait_for_iterate = now + 5000) ∧
      (onRegisterResult s code t now).registered = s.registered ∧
      (onRegisterResult s code t now).last_iterate_time = s.last_iterate_time) ∧
    (code = .TRUE →
      (onRegisterResult s code t now).registered = 1 ∧
      (onRegisterResult s code t now).last_iterate_time = now ∧
      (onRegisterResult s code t now).wait_for_iterate = s.wait_for_iterate ∧
      (onRegisterResult s code t now).log
        = s.log ++ [Action.networkSetActivityTimeout t,
                    Action.status .REGISTERED_AND_READY] ++
          (if t ≠ ACTIVITY_TIMEOUT then [Action.srpcSetActivityTimeout ACTIVITY_TIMEOUT]
           else []) ∧
      Action.networkDisconnect ∉
        [Action.networkSetActivityTimeout t, Action.status .REGISTERED_AND_READY] ++
          (if t ≠ ACTIVITY_TIMEOUT then [Action.srpcSetActivityTimeout ACTIVITY_TIMEOUT]
           else [])) := by
  constructor
  · intro h
    rw [onRegisterResult_failure s code t now h]
    refine ⟨rfl, rfl, ?_, rfl, rfl⟩
    intro hlt
    exact Nat.mod_eq_of_lt hlt
  · intro h
    subst h
    rw [onRegisterResult_success]
    refine ⟨rfl, rfl, rfl, rfl, ?_⟩
    by_cases ht : t = ACTIVITY_TIMEOUT <;> simp [ht]

/-- Witness of C21: a code without a case label (99) at time 1000, and the
success code with a granted timeout of 60 s. -/
theorem C21_register_result_recovery_witness :
    ((onRegisterResult exConn (.OTHER 99) 0 1000).log = [Action.networkDisconnect] ∧
     (onRegisterResult exConn (.OTHER 99) 0 1000).wait_for_iterate = 6000 ∧
     (onRegisterResult exConn (.OTHER 99) 0 1000).registered = 0) ∧
    ((onRegisterResult exConn .TRUE 60 1000).registered = 1 ∧
     (onRegisterResult exConn .TRUE 60 1000).last_iterate_time = 1000 ∧
     (onRegisterResult exConn .TRUE 60 1000).wait_for_iterate = 0) :=
  have h1 := (C21_register_result_recovery exConn (.OTHER 99) 0 1000).1 (by decide)
  have h2 := (C21_register_result_recovery exConn .TRUE 60 1000).2 rfl
  ⟨⟨h1.1, h1.2.2.1 (by decide), h1.2.2.2.1⟩, ⟨h2.1, h2.2.1, h2.2.2.1⟩⟩

/-- C29 (counterexample): the result codes "GUID error" and "auth-key error"
are different, and onRegisterResult records the same calls for both: the
status "invalid GUID", then Disconnect. -/
theorem C29_guid_and_authkey_share_a_status :
    ResultCode.GUID_ERROR ≠ ResultCode.AUTHKEY_ERROR ∧
    (onRegisterResult exConn .GUID_ERROR 0 1000).log
      = [Action.status .INVALID_GUID, Action.networkDisconnect] ∧
    (onRegisterResult exConn .AUTHKEY_ERROR 0 1000).log
      = [Action.status .INVALID_GUID, Action.networkDisconnect] := by
  decide

/-- C29 (amended): every failure code of the taxonomy is reported with one
status, recorded before the Disconnect.  On the seven codes bad credentials,
temporarily unavailable, location conflict, channel conflict, device disabled,
location disabled and device limit exceeded the status is injective and is
never "invalid GUID"; the five codes GUID error, auth-key error, registration
disabled, no location available and user conflict are all reported as
"invalid GUID". -/
theorem C29_failure_status_classes (s : ConnState) (t : Int) (now : Nat)
    (c1 c2 : ResultCode)
    (h1 : c1 ∈ [ResultCode.BAD_CREDENTIALS, .TEMPORARILY_UNAVAILABLE, .LOCATION_CONFLICT,
      .CHANNEL_CONFLICT, .DEVICE_DISABLED, .LOCATION_DISABLED, .DEVICE_LIMITEXCEEDED])
    (h2 : c2 ∈ [ResultCode.BAD_CREDENTIALS, .TEMPORARILY_UNAVAILABLE, .LOCATION_CONFLICT,
      .CHANNEL_CONFLICT, .DEVICE_DISABLED, .LOCATION_DISABLED, .DEVICE_LIMITEXCEEDED]) :
    (∃ st1 st2, st1 ≠ Status.INVALID_GUID ∧
      (onRegisterResult s c1 t now).log = s.log ++ [Action.status st1, Action.networkDisconnect] ∧
      (onRegisterResult s c2 t now).log = s.log ++ [Action.status st2, Action.networkDisconnect] ∧
      (c1 ≠ c2 → st1 ≠ st2)) ∧
    (∀ c ∈ [ResultCode.GUID_ERROR, .AUTHKEY_ERROR, .REGISTRATION_DISABLED,
        .NO_LOCATION_AVAILABLE, .USER_CONFLICT],
      (onRegisterResult s c t now).log
        = s.log ++ [Action.status .INVALID_GUID, Action.networkDisconnect]) := by
  have key : ∀ c st, c ≠ ResultCode.TRUE → registerFailureStatus c = some st →
      (onRegisterResult s c t now).log = s.log ++ [Action.status st, Action.networkDisconnect] := by
    intro c st hc hst
    rw [onRegisterResult_failure s c t now hc, hst]
    simp
  constructor
  · simp only [List.mem_cons, List.mem_singleton, List.not_mem_nil, or_false] at h1 h2
    rcases h1 with h1 | h1 | h1 | h1 | h1 | h1 | h1 <;>
      rcases h2 with h2 | h2 | h2 | h2 | h2 | h2 | h2 <;>
      subst h1 <;> subst h2 <;>
      exact ⟨_, _, by decide, key _ _ (by decide) rfl, key _ _ (by decide) rfl, by decide⟩
  · intro c hc
    simp only [List.mem_cons, List.mem_singleton, List.not_mem_nil, or_false] at hc
    rcases hc with hc | hc | hc | hc | hc <;> subst hc <;> exact key _ _ (by decide) rfl

/-- Witness of C29 (amended): bad credentials and device disabled. -/
theorem C29_failure_status_classes_witness :
    (∃ st1 st2, st1 ≠ Status.INVALID_GUID ∧
      (onRegisterResult exConn .BAD_CREDENTIALS 0 1000).log
        = exConn.log ++ [Action.status st1, Action.networkDisconnect] ∧
      (onRegisterResult exConn .DEVICE_DISABLED 0 1000).log
        = exConn.log ++ [Action.status st2, Action.networkDisconnect] ∧
      (ResultCode.BAD_CREDENTIALS ≠ ResultCode.DEVICE_DISABLED → st1 ≠ st2)) :=
  (C29_failure_status_classes exConn 0 1000 .BAD_CREDENTIALS .DEVICE_DISABLED (by decide)
    (by decide)).1

/-! ## The registered tick -/

theorem serviceChannels_fold (time_diff n : Nat) (s : ConnState) :
    (List.range n).foldl
        (fun s a =>
          (s.did (.iterate_relay a time_diff)).did (.iterate_impulse_counter a time_diff)) s
      = { s with
          log := s.log ++ (List.range n).flatMap (fun a =>
            [Action.iterate_relay a time_diff, Action.iterate_impulse_counter a time_diff]) } := by
  induction n with
  | zero => simp
  | succ n ih =>
    rw [List.range_succ, List.foldl_append, List.flatMap_append, ih]
    simp [ConnState.did]

theorem serviceChannels_log (s : ConnState) (time_diff : Nat) :
    serviceChannels s time_diff
      = { s with
          log := s.log ++ (List.range s.channel_pin_count).flatMap (fun a =>
            [Action.iterate_relay a time_diff, Action.iterate_impulse_counter a time_diff]) } := by
  unfold serviceChannels
  exact serviceChannels_fold time_diff s.channel_pin_count s

/-- C22 (counterexample): a device whose registration is pending (registered
is -1), last serviced at time 900, in a tick at time 1000 that passes the gate,
finds the network ready and the transport connected and whose transport I/O
succeeds: the tick records the readiness and connection checks and the
transport I/O and nothing else, no liveness probe and no channel servicing,
and registered stays -1. -/
theorem C22_pending_tick_services_nothing :
    exConnPending.registered = -1 ∧ usub 1000 exConnPending.last_iterate_time = 100 ∧
    (iterate exConnPending exEnvConnected 1000).log
      = [Action.elementsIterateAlways, Action.updateStorageOccasionally,
         Action.networkIsReady, Action.networkConnected, Action.networkIterate,
         Action.srpcIterate] ∧
    (iterate exConnPending exEnvConnected 1000).registered = -1 := by
  decide

/-- C22 (amended): a tick that passes the gate, finds the network ready and
the transport connected, whose transport I/O succeeds without inbound calls.
With the device registered (registered is 1) and a non-zero elapsed time td
since the last connected pass: after the checks and the transport I/O the tick
sends the liveness probe (followed by Disconnect when the probe fails), runs
the connected hook of the elements and then services every channel index below
the channel count exactly once, in ascending order, the relay service and then
the impulse counter service of each, with td; it ends by stamping
last_iterate_time.  With the registration pending (registered is -1): the tick
records the checks and the transport I/O and nothing else, no liveness probe
and no channel servicing, and registered and last_iterate_time stay as they
were. -/
theorem C22_registered_tick_probes_and_services (s : ConnState) (env : NetEnv) (now : Nat)
    (hinit : s.initialized = true) (hgate : ungated s now = true)
    (hcnt : s.connectionFailCounter ≤ 30)
    (hready : env.isReady = true) (hconn : env.connected = true)
    (hok : env.srpcIterateOk = true) (hin : env.inbound = []) :
    (s.registered = 1 → usub now s.last_iterate_time > 0 →
      (iterate s env now).log
        = s.log ++ [Action.elementsIterateAlways, Action.updateStorageOccasionally,
                    Action.networkIsReady, Action.networkConnected, Action.networkIterate,
                    Action.srpcIterate, Action.networkPing] ++
          (if env.pingOk = true then [] else [Action.networkDisconnect]) ++
          [Action.elementsIterateConnected] ++
          (List.range s.channel_pin_count).flatMap
            (fun a => [Action.iterate_relay a (usub now s.last_iterate_time),
                       Action.iterate_impulse_counter a (usub now s.last_iterate_time)]) ∧
      (iterate s env now).last_iterate_time = now) ∧
    (s.registered = -1 →
      (iterate s env now).log
        = s.log ++ [Action.elementsIterateAlways, Action.updateStorageOccasionally,
                    Action.networkIsReady, Action.networkConnected, Action.networkIterate,
                    Action.srpcIterate] ∧
      (iterate s env now).registered = -1 ∧
      (iterate s env now).last_iterate_time = s.last_iterate_time) := by
  have hg : ¬ (s.wait_for_iterate ≠ 0 ∧ now < s.wait_for_iterate) := by
    have := (ungated_iff s now).1 hgate
    tauto
  have hc : ¬ (s.connectionFailCounter > 30) := by omega
  constructor
  · intro hreg htd
    unfold iterate iterate_connect iterate_connected
    simp only [hinit, ConnState.did, hg, hc, hready, hconn, hok, hin, hreg, htd,
      List.foldl_nil, not_true_eq_false, not_false_eq_true, if_true, if_false,
      Bool.not_eq_true, Bool.true_eq_false]
    cases hp : env.pingOk
    · simp [ConnState.did, serviceChannels_log]
    · simp [ConnState.did, serviceChannels_log]
  · intro hreg
    have h0 : ¬ ((-1 : Int) = 0) := by decide
    have h1 : ¬ ((-1 : Int) = 1) := by decide
    unfold iterate iterate_connect iterate_connected
    simp only [hinit, ConnState.did, hg, hc, hready, hconn, hok, hin, hreg, h0, h1,
      List.foldl_nil, not_true_eq_false, not_false_eq_true, if_true, if_false,
      Bool.not_eq_true, Bool.true_eq_false]
    simp

/-- Witness of C22 (amended): the registered device with two channels, last
serviced at time 900, in a connected tick at time 1000. -/
theorem C22_registered_tick_probes_and_services_witness :
    (iterate exConnRegistered exEnvConnected 1000).log
      = exConnRegistered.log ++
        [Action.elementsIterateAlways, Action.updateStorageOccasionally,
         Action.networkIsReady, Action.networkConnected, Action.networkIterate,
         Action.srpcIterate, Action.networkPing] ++
        (if exEnvConnected.pingOk = true then [] else [Action.networkDisconnect]) ++
        [Action.elementsIterateConnected] ++
        (List.range exConnRegistered.channel_pin_count).flatMap
          (fun a => [Action.iterate_relay a (usub 1000 exConnRegistered.last_iterate_time),
                     Action.iterate_impulse_counter a
                       (usub 1000 exConnRegistered.last_iterate_time)]) ∧
    (iterate exConnRegistered exEnvConnected 1000).last_iterate_time = 1000 :=
  (C22_registered_tick_probes_and_services exConnRegistered exEnvConnected 1000 (by decide)
    (by decide) (by decide) (by decide) (by decide) (by decide) rfl).1 (by decide) (by decide)

/-! ## Task processing with a chosen direction -/

/-- The 5 % margin test when the product does not wrap. -/
theorem rs_time_margin_iff (F t : Nat) (ht : t * 100 < 4294967296) :
    rs_time_margin F t 5 = true ↔ t * 100 < 5 * F := by
  unfold rs_time_margin umul
  rw [Nat.mod_eq_of_lt ht]
  simp only [decide_eq_true_eq]
  constructor
  · rintro ⟨hF, h⟩
    rw [Nat.div_lt_iff_lt_mul hF] at h
    exact h
  · intro h
    have hF : 0 < F := by omega
    exact ⟨hF, by rw [Nat.div_lt_iff_lt_mul hF]; exact h⟩

/-- Task processing with an active task, a known position and the direction
chosen, as one case distinction. -/
theorem rs_task_processing_chosen (c : RsCtx) (now : Nat)
    (ha : c.rs.task.active = true)
    (h1 : 100 ≤ c.rs.position) (h2 : c.rs.position ≤ 10100)
    (hd : c.rs.task.direction = RS_DIRECTION_UP ∨ c.rs.task.direction = RS_DIRECTION_DOWN) :
    rs_task_processing c now =
      if (c.rs.task.direction = RS_DIRECTION_UP ∧ positionPercent c.rs ≤ c.rs.task.percent) ∨
          (c.rs.task.direction = RS_DIRECTION_DOWN ∧
            positionPercent c.rs ≥ c.rs.task.percent) then
        if (c.rs.task.percent = 0 ∧
              rs_time_margin c.rs.full_opening_time c.rs.up_time 5 = true) ∨
            (c.rs.task.percent = 100 ∧
              rs_time_margin c.rs.full_closing_time c.rs.down_time 5 = true) then c
        else rs_set_relay (taskDeactivate c) RS_RELAY_OFF false false now
      else c := by
  have hk : ¬ (c.rs.position < 100 ∨ c.rs.position > 10100) := by omega
  have hpc : positionPercent c.rs % 256 = positionPercent c.rs := by
    obtain ⟨e1, e2, _⟩ := positionPercent_known c.rs h1 h2
    rw [e1, e2]
  have hn : ¬ c.rs.task.direction = RS_DIRECTION_NONE := by
    rcases hd with h | h <;> rw [h] <;> decide
  unfold rs_task_processing
  simp only [ha, Bool.true_eq_false, if_false, hk]
  unfold rs_task_processing_known
  simp only [hpc, hn, if_false]
  split_ifs <;> first | rfl | (exfalso; tauto)

/-- C25: task processing with an active task, a known position and a direction
already chosen (up or down), with accumulated times whose hundredfold does not
wrap.  While the percent has not reached the target (above it when going up,
below it when going down) nothing changes: the task stays active and nothing
is requested.  Once it has reached or passed the target: for target 0 while
up_time is below 5 % of full_opening_time, and for target 100 while down_time
is below 5 % of full_closing_time, nothing changes either; in every other case
the task is deactivated and the off request is made, after which the task is
inactive and a stop is in flight. -/
theorem C25_task_processing_chosen_direction (c : RsCtx) (now : Nat)
    (ha : c.rs.task.active = true)
    (h1 : 100 ≤ c.rs.position) (h2 : c.rs.position ≤ 10100)
    (hd : c.rs.task.direction = RS_DIRECTION_UP ∨ c.rs.task.direction = RS_DIRECTION_DOWN)
    (hut : c.rs.up_time * 100 < 4294967296) (hdt : c.rs.down_time * 100 < 4294967296) :
    (((c.rs.task.direction = RS_DIRECTION_UP ∧ positionPercent c.rs > c.rs.task.percent) ∨
      (c.rs.task.direction = RS_DIRECTION_DOWN ∧ positionPercent c.rs < c.rs.task.percent)) →
      rs_task_processing c now = c) ∧
    (((c.rs.task.direction = RS_DIRECTION_UP ∧ positionPercent c.rs ≤ c.rs.task.percent) ∨
      (c.rs.task.direction = RS_DIRECTION_DOWN ∧ positionPercent c.rs ≥ c.rs.task.percent)) →
      (((c.rs.task.percent = 0 ∧ c.rs.up_time * 100 < 5 * c.rs.full_opening_time) ∨
        (c.rs.task.percent = 100 ∧ c.rs.down_time * 100 < 5 * c.rs.full_closing_time)) →
        rs_task_processing c now = c) ∧
      (¬ ((c.rs.task.percent = 0 ∧ c.rs.up_time * 100 < 5 * c.rs.full_opening_time) ∨
          (c.rs.task.percent = 100 ∧ c.rs.down_time * 100 < 5 * c.rs.full_closing_time)) →
        rs_task_processing c now = rs_set_relay (taskDeactivate c) RS_RELAY_OFF false false now ∧
        (rs_task_processing c now).rs.task.active = false ∧
        (rs_task_processing c now).rs.task.percent = c.rs.task.percent ∧
        (rs_task_processing c now).rs.cvr1.active = true)) := by
  have hform := rs_task_processing_chosen c now ha h1 h2 hd
  simp only [rs_time_margin_iff _ _ hut, rs_time_margin_iff _ _ hdt] at hform
  have hdu : RS_DIRECTION_UP ≠ RS_DIRECTION_DOWN := by decide
  refine ⟨?_, ?_⟩
  · intro hnot
    have hc : ¬ ((c.rs.task.direction = RS_DIRECTION_UP ∧
        positionPercent c.rs ≤ c.rs.task.percent) ∨
        (c.rs.task.direction = RS_DIRECTION_DOWN ∧
        positionPercent c.rs ≥ c.rs.task.percent)) := by
      rcases hnot with ⟨e, h⟩ | ⟨e, h⟩
      · rw [e]; simp only [hdu, false_and, or_false, true_and]; omega
      · rw [e]; simp only [hdu.symm, false_and, false_or, true_and]; omega
    rw [hform]
    simp only [hc, if_false]
  · intro hr
    rw [hform]
    simp only [hr, if_true]
    refine ⟨fun hm => by simp only [hm, if_true], fun hm => ?_⟩
    simp only [hm, if_false, true_and]
    rw [rs_set_relay_rs_off, rs_set_relay_off_eq]
    simp only [Bool.false_eq_true, if_false, taskDeactivate]
    split_ifs with hc
    · exact ⟨rfl, rfl, hc⟩
    · exact ⟨rfl, rfl, rfl⟩

/-- Witness of C25: at 51 % with the task for 51 % going down, the target is
reached and is no end point, so the task ends and the stop is requested. -/
theorem C25_task_processing_chosen_direction_witness :
    rs_task_processing exTaskReached 0
      = rs_set_relay (taskDeactivate exTaskReached) RS_RELAY_OFF false false 0 ∧
    (rs_task_processing exTaskReached 0).rs.task.active = false ∧
    (rs_task_processing exTaskReached 0).rs.task.percent = exTaskReached.rs.task.percent ∧
    (rs_task_processing exTaskReached 0).rs.cvr1.active = true :=
  ((C25_task_processing_chosen_direction exTaskReached 0 (by decide) (by decide) (by decide)
    (by decide) (by decide) (by decide)).2 (by decide)).2 (by decide)

/-! ## The 10-minute timeout -/

/-- C26: the 1-second bookkeeping, the block `iterate_rollershutter` runs when
last_iterate_time - tick_1s >= 1000.  If up_time or down_time exceeds 600000
ms, the off request is made without cancelling the task: afterwards a stop
record is in flight (cvr1 is active), the task is as it was, and if no stop
was in flight before, cvr1 is the off record with the fire time of an accepted
off request and the start record is not active.  If neither exceeds 600000 ms,
no relay request is made: cvr1, cvr2, the task and the digital I/O are as they
were. -/
theorem C26_runaway_timeout (d : ShutterDev) (now : Nat) :
    ((d.c.rs.up_time > 600000 ∨ d.c.rs.down_time > 600000) →
      (rs_tick_1s d now).c.rs.cvr1.active = true ∧
      (rs_tick_1s d now).c.rs.task = d.c.rs.task ∧
      (d.c.rs.cvr1.active = false →
        (rs_tick_1s d now).c.rs.cvr1
          = ⟨RS_RELAY_OFF, stopFireTime d.c.rs.start_time now, true⟩ ∧
        (rs_tick_1s d now).c.rs.cvr2.active = false)) ∧
    (¬ (d.c.rs.up_time > 600000 ∨ d.c.rs.down_time > 600000) →
      (rs_tick_1s d now).c.rs.cvr1 = d.c.rs.cvr1 ∧
      (rs_tick_1s d now).c.rs.cvr2 = d.c.rs.cvr2 ∧
      (rs_tick_1s d now).c.rs.task = d.c.rs.task ∧
      (rs_tick_1s d now).c.io = d.c.io) := by
  constructor
  · intro ht
    unfold rs_tick_1s
    by_cases hl : d.c.rs.last_position = d.c.rs.position <;>
      by_cases hs : d.c.rs.save_position = 0 <;>
      by_cases hc : d.c.rs.cvr1.active = true <;>
      simp [hl, hs, ht, hc, rs_set_relay_rs_off, rs_set_relay_off_eq]
  · intro ht
    unfold rs_tick_1s
    by_cases hl : d.c.rs.last_position = d.c.rs.position <;>
      by_cases hs : d.c.rs.save_position = 0 <;>
      simp [hl, hs, ht]

/-- Witness of C26: 600001 ms of closing time, and none. -/
theorem C26_runaway_timeout_witness :
    ((rs_tick_1s exRunaway 7000).c.rs.cvr1.active = true ∧
     (rs_tick_1s exRunaway 7000).c.rs.task = exRunaway.c.rs.task) ∧
    ((rs_tick_1s exShutterHalf 7000).c.rs.cvr1 = exShutterHalf.c.rs.cvr1 ∧
     (rs_tick_1s exShutterHalf 7000).c.rs.cvr2 = exShutterHalf.c.rs.cvr2) :=
  have h1 := (C26_runaway_timeout exRunaway 7000).1 (by decide)
  have h2 := (C26_runaway_timeout exShutterHalf 7000).2 (by decide)
  ⟨⟨h1.1, h1.2.1⟩, ⟨h2.1, h2.2.1⟩⟩

/-! ## Button debounce -/

/-- C27 (failing input): a button on pin 7, released (stored level 1), with
the time stamp 0 it has from the start.  At time 1000 the pin reads 0: the
transition is accepted, the stored level becomes 0, and the time stamp stays
0.  At time 1001 the pin reads 1: the opposite transition is accepted 1 ms
later and reported as a release.  The time stamp is 0 throughout. -/
theorem C27_opposite_transitions_1ms_apart_both_accepted :
    (rs_button_released exButton (fun _ => 0) 1000).1 = ⟨7, 0, 0⟩ ∧
    (rs_button_released exButton (fun _ => 0) 1000).2 = false ∧
    (rs_button_released (rs_button_released exButton (fun _ => 0) 1000).1
      (fun _ => 1) 1001).1 = ⟨7, 1, 0⟩ ∧
    (rs_button_released (rs_button_released exButton (fun _ => 0) 1000).1
      (fun _ => 1) 1001).2 = true := by
  decide

/-- What `rs_button_released` does: it never writes the time stamp; it accepts
a read that differs from the stored level when now - time >= 50, and then
returns whether the new level is 1. -/
theorem rs_button_released_spec (btn : SuplaDeviceRollerShutterButton) (level : Nat → Nat)
    (now : Nat) :
    (rs_button_released btn level now).1.time = btn.time ∧
    (rs_button_released btn level now).1.pin = btn.pin ∧
    ((rs_button_released btn level now).2 = true ↔
      (btn.pin > 0 ∧ level btn.pin % 256 ≠ btn.value ∧ usub now btn.time ≥ 50 ∧
        level btn.pin % 256 = 1)) := by
  unfold rs_button_released
  by_cases hp : btn.pin > 0
  · by_cases hv : level btn.pin % 256 ≠ btn.value ∧ usub now btn.time ≥ 50
    · simp only [hp, hv, ne_eq, not_false_eq_true, and_self, if_true, decide_eq_true_eq,
        true_and]
    · simp only [hp, hv, if_true, if_false, true_and]
      simp only [Bool.false_eq_true, false_iff, not_and]
      intro a b
      exact absurd ⟨a, b⟩ hv
  · simp [hp]

/-! ## The bistable poll -/

/-- The poll stage for a bistable relay, as one case distinction: the sense
pin is consulted exactly when `time_diff < vc_time`. -/
theorem iterate_relay_poll_bistable (c : RelayCtx) (time_diff : Nat)
    (ht : c.ch.chType = SUPLA_CHANNELTYPE_RELAY) (hb : c.pin.bistable = true) :
    (time_diff ≥ c.pin.vc_time →
      iterate_relay_poll c time_diff
        = { c with pin := { c.pin with vc_time := usub c.pin.vc_time time_diff } }) ∧
    (time_diff < c.pin.vc_time → c.io.digitalRead c.pin.pin2 = c.pin.last_val →
      iterate_relay_poll c time_diff = c) ∧
    (time_diff < c.pin.vc_time → c.io.digitalRead c.pin.pin2 ≠ c.pin.last_val →
      (iterate_relay_poll c time_diff).pin.last_val = c.io.digitalRead c.pin.pin2 ∧
      (iterate_relay_poll c time_diff).pin.vc_time = 200) := by
  unfold iterate_relay_poll
  refine ⟨fun h => ?_, fun h e => ?_, fun h e => ?_⟩
  · simp only [ht, hb, and_self, if_true, h]
  · have h2 : ¬ time_diff ≥ c.pin.vc_time := by omega
    simp only [ht, hb, and_self, if_true, h2, if_false, e, ne_eq, not_true_eq_false]
  · have h2 : ¬ time_diff ≥ c.pin.vc_time := by omega
    simp only [ht, hb, and_self, if_true, h2, if_false, e, ne_eq, not_false_eq_true]

/-- C28 (failing input): the bistable relay on channel 3 with sense pin 5
reading high, last observed level low, poll timer 200, device registered.
The pass with time_diff 10 detects the level: last_val becomes high, the
mirrored value 1, the notification (3, 1) is sent and the timer is set to 200.
The relay is then toggled by hand (pin 5 reads low).  The next pass, 10 ms
later, reads the sense pin and detects again: notification (3, 0), mirrored
value 0, although only 10 ms of the 200 have elapsed.  A pass with time_diff
200 instead of 10 does not read the pin: nothing is notified, last_val stays
high and the timer goes to 0. -/
theorem C28_poll_reads_before_200ms_and_not_at_200ms :
    (iterate_relay exBistableArmed 10).pin.last_val = true ∧
    (iterate_relay exBistableArmed 10).ch.value0 = 1 ∧
    (iterate_relay exBistableArmed 10).up.sent = [(3, 1)] ∧
    (iterate_relay exBistableArmed 10).pin.vc_time = 200 ∧
    (iterate_relay ((iterate_relay exBistableArmed 10).senseBecomes exSenseLow) 10).up.sent
      = [(3, 1), (3, 0)] ∧
    (iterate_relay ((iterate_relay exBistableArmed 10).senseBecomes exSenseLow) 10).ch.value0
      = 0 ∧
    (iterate_relay ((iterate_relay exBistableArmed 10).senseBecomes exSenseLow) 10).pin.last_val
      = false ∧
    (iterate_relay ((iterate_relay exBistableArmed 10).senseBecomes exSenseLow) 200).up.sent
      = [(3, 1)] ∧
    (iterate_relay ((iterate_relay exBistableArmed 10).senseBecomes exSenseLow) 200).pin.last_val
      = true ∧
    (iterate_relay ((iterate_relay exBistableArmed 10).senseBecomes exSenseLow) 200).pin.vc_time
      = 0 := by
  decide

/-! ## The calibrate step of the service pass -/

/-- What `rs_calibrate` does, as one case distinction. -/
theorem rs_calibrate_eq (rs : SuplaDeviceRollerShutter) (full_time time dest_pos : Nat) :
    rs_calibrate rs full_time time dest_pos =
      if full_time > 0 ∧ (rs.position < 100 ∨ rs.position > 10100) ∧
          time ≥ Dbl.toULong (Dbl.mul (Dbl.ofNat full_time) Dbl.c1_1) then
        { rs with position := dest_pos, save_position := 1 }
      else rs := by
  unfold rs_calibrate
  by_cases h1 : full_time > 0 ∧ (rs.position < 100 ∨ rs.position > 10100)
  · obtain ⟨ha, hb⟩ := h1
    by_cases h2 : time ≥ Dbl.toULong (Dbl.mul (Dbl.ofNat full_time) Dbl.c1_1)
    · simp [ha, hb, h2]
    · simp [ha, hb, h2]
  · have h3 : ¬ (full_time > 0 ∧ (rs.position < 100 ∨ rs.position > 10100) ∧
        time ≥ Dbl.toULong (Dbl.mul (Dbl.ofNat full_time) Dbl.c1_1)) :=
      fun h => h1 ⟨h.1, h.2.1⟩
    simp only [h1, h3, if_false]

/-- The closing branch of the position integration is its calibrate step
followed by `rs_move_position`. -/
theorem rs_integrate_closing_split (c : RsCtx) (time_diff now : Nat)
    (h : suplaDigitalRead_isHI c c.pin.pin1 = true) :
    rs_integrate c time_diff now =
      rs_move_position (rs_integrate_closing_calibrate c time_diff)
        (rs_integrate_closing_calibrate c time_diff).rs.full_closing_time .down false now := by
  unfold rs_integrate rs_integrate_closing_calibrate
  simp only [h, if_true]

/-- The opening branch of the position integration is its calibrate step
followed by `rs_move_position`. -/
theorem rs_integrate_opening_split (c : RsCtx) (time_diff now : Nat)
    (h1 : suplaDigitalRead_isHI c c.pin.pin1 = false)
    (h2 : suplaDigitalRead_isHI c c.pin.pin2 = true) :
    rs_integrate c time_diff now =
      rs_move_position (rs_integrate_opening_calibrate c time_diff)
        (rs_integrate_opening_calibrate c time_diff).rs.full_opening_time .up true now := by
  unfold rs_integrate rs_integrate_opening_calibrate
  simp only [h1, h2, if_true, if_false, Bool.false_eq_true]

/-- C23 (failing input): a shutter with unknown position (0), full closing
time 10000 ms, the down relay sensed active, 10900 ms of closing time
accumulated, serviced 100 ms later.  The accumulated time reaches 11000 =
10000 * 1.10, and the calibrate step of the closing branch sets the dirty flag
and sets the position to 1100, not to 10100.  The calibrate step of the
opening branch, in the mirrored situation, sets the position to 100. -/
theorem C23_closing_calibrate_step_sets_1100 :
    suplaDigitalRead_isHI exClosingUnknown exClosingUnknown.pin.pin1 = true ∧
    exClosingUnknown.rs.position = 0 ∧
    exClosingUnknown.rs.full_closing_time = 10000 ∧
    (rs_integrate_closing_calibrate exClosingUnknown 100).rs.down_time = 11000 ∧
    (rs_integrate_closing_calibrate exClosingUnknown 100).rs.position = 1100 ∧
    (rs_integrate_closing_calibrate exClosingUnknown 100).rs.save_position = 1 ∧
    (rs_integrate_opening_calibrate exOpeningUnknownLate 100).rs.up_time = 11000 ∧
    (rs_integrate_opening_calibrate exOpeningUnknownLate 100).rs.position = 100 ∧
    (rs_integrate_opening_calibrate exOpeningUnknownLate 100).rs.save_position = 1 := by
  decide

/-! ## The position delta as a floor -/

/-- For an accumulated time that fits an `unsigned long`, the double value of
the delta expression truncates to the exact quotient `t * 10000 / F` or to one
less: with `k` the truncated value, `k * F <= t * 10000 < (k + 2) * F`. -/
theorem positionDelta_floor (t F : Nat) (hF : 0 < F) (ht : t < 4294967296) :
    ∃ k : Nat, positionDelta t F = k % 4294967296 ∧ k * F ≤ t * 10000 ∧
      t * 10000 < (k + 2) * F := by
  obtain ⟨n, d, hd, hp, hl, hu⟩ := positionDelta_val t F hF
  have hF2 : (0 : ℚ) < (F : ℚ) := by exact_mod_cast hF
  have hd2 : (0 : ℚ) < (d : ℚ) := by exact_mod_cast hd
  have ht0 : (0 : ℚ) ≤ (t : ℚ) := by exact_mod_cast Nat.zero_le t
  have ht2 : (t : ℚ) ≤ 4294967295 := by
    have : t ≤ 4294967295 := by omega
    exact_mod_cast this
  have hF1 : (1 : ℚ) ≤ (F : ℚ) := by exact_mod_cast hF
  have hcu : ((1 : ℚ) + 1 / 2 ^ 53) ^ 3 ≤ 1 + 1 / 2 ^ 51 := by norm_num
  have hcl : (1 : ℚ) - 1 / 2 ^ 51 ≤ (1 - 1 / 2 ^ 53) ^ 3 := by norm_num
  -- the truncated value and the double value
  have hk1 : ((n / d : ℕ) : ℚ) ≤ (n : ℚ) / d := Nat.cast_div_le
  have hk2 : (n : ℚ) / d < ((n / d : ℕ) : ℚ) + 1 := by
    rw [div_lt_iff₀ hd2]
    have h1 : n < (n / d + 1) * d := by
      have := Nat.div_add_mod n d
      have := Nat.mod_lt n hd
      nlinarith
    exact_mod_cast h1
  -- the double value against the exact quotient, multiplied out
  have hq0 : (0 : ℚ) ≤ (t : ℚ) * 10000 / F := by positivity
  have hu2 : (n : ℚ) / d * F ≤ (t : ℚ) * 10000 * (1 + 1 / 2 ^ 51) := by
    have h1 : (n : ℚ) / d ≤ (t : ℚ) * 10000 / F * (1 + 1 / 2 ^ 51) :=
      le_trans hu (mul_le_mul_of_nonneg_left hcu hq0)
    have h2 := mul_le_mul_of_nonneg_right h1 (le_of_lt hF2)
    have e : (t : ℚ) * 10000 / F * (1 + 1 / 2 ^ 51) * F = (t : ℚ) * 10000 * (1 + 1 / 2 ^ 51) := by
      field_simp
      ring
    rw [e] at h2
    exact h2
  have hl2 : (t : ℚ) * 10000 * (1 - 1 / 2 ^ 51) ≤ (n : ℚ) / d * F := by
    have h1 : (t : ℚ) * 10000 / F * (1 - 1 / 2 ^ 51) ≤ (n : ℚ) / d :=
      le_trans (mul_le_mul_of_nonneg_left hcl hq0) hl
    have h2 := mul_le_mul_of_nonneg_right h1 (le_of_lt hF2)
    have e : (t : ℚ) * 10000 / F * (1 - 1 / 2 ^ 51) * F = (t : ℚ) * 10000 * (1 - 1 / 2 ^ 51) := by
      field_simp
      ring
    rw [e] at h2
    exact h2
  refine ⟨n / d, hp, ?_, ?_⟩
  · by_contra hcon
    have h1 : t * 10000 + 1 ≤ n / d * F := by omega
    have h2 : ((t : ℚ) * 10000 + 1) ≤ ((n / d : ℕ) : ℚ) * F := by exact_mod_cast h1
    have h3 : ((n / d : ℕ) : ℚ) * F ≤ (n : ℚ) / d * F :=
      mul_le_mul_of_nonneg_right hk1 (le_of_lt hF2)
    norm_num at hu2
    linarith
  · have h3 : (n : ℚ) / d * F < (((n / d : ℕ) : ℚ) + 1) * F :=
      mul_lt_mul_of_pos_right hk2 hF2
    have h4 : (t : ℚ) * 10000 < (((n / d : ℕ) : ℚ) + 2) * F := by
      norm_num at hl2
      nlinarith
    exact_mod_cast h4

/-! ## The update and the time bookkeeping of move-position -/

/-- With a known position and a full time set, `rs_move_position` is its update
block followed by the bookkeeping of the accumulated time. -/
theorem rs_move_position_split (c : RsCtx) (F : Nat) (time : TimeSel) (up : Bool) (now : Nat)
    (hg : ¬ (c.rs.position < 100 ∨ c.rs.position > 10100 ∨ F = 0)) :
    rs_move_position c F time up now =
      if (up = true ∧
            (rs_move_position_update c (positionDelta (time.get c.rs) F) up).rs.position = 100) ∨
          (¬ up = true ∧
            (rs_move_position_update c (positionDelta (time.get c.rs) F) up).rs.position
              = 10100) then
        if Dbl.le (Dbl.mul (Dbl.ofNat F) Dbl.c1_1)
            (Dbl.ofNat
              (time.get (rs_move_position_update c (positionDelta (time.get c.rs) F) up).rs))
        then
          rs_set_relay (rs_move_position_update c (positionDelta (time.get c.rs) F) up)
            RS_RELAY_OFF false false now
        else rs_move_position_update c (positionDelta (time.get c.rs) F) up
      else if umul (positionDelta (time.get c.rs) F) F / 10000
          ≤ time.get (rs_move_position_update c (positionDelta (time.get c.rs) F) up).rs then
        { rs_move_position_update c (positionDelta (time.get c.rs) F) up with
          rs := time.set (rs_move_position_update c (positionDelta (time.get c.rs) F) up).rs
            (usub (time.get (rs_move_position_update c (positionDelta (time.get c.rs) F) up).rs)
              (umul (positionDelta (time.get c.rs) F) F / 10000)) }
      else
        { rs_move_position_update c (positionDelta (time.get c.rs) F) up with
          rs := time.set (rs_move_position_update c (positionDelta (time.get c.rs) F) up).rs 0 } := by
  unfold rs_move_position rs_move_position_update
  simp only [hg, if_false]

/-- Storing a position and then raising the dirty flag when it differs from
the one before, as a record update. -/
theorem store_position_dirty (c : RsCtx) (q : Nat) :
    (if c.rs.position ≠ q then
        ({ c with rs := { c.rs with position := q, save_position := 1 } } : RsCtx)
      else { c with rs := { c.rs with position := q } })
      = { c with rs := { c.rs with
            position := q
            save_position := if q = c.rs.position then c.rs.save_position else 1 } } := by
  by_cases h : q = c.rs.position
  · rw [if_neg (not_not.mpr h.symm), if_pos h]
  · rw [if_pos (Ne.symm h), if_neg h]

/-- The update block as a record update. -/
theorem rs_move_position_update_eq (c : RsCtx) (p : Nat) (up : Bool) :
    rs_move_position_update c p up =
      { c with rs := { c.rs with
          position := movedPosition c.rs.position p up
          save_position :=
            if movedPosition c.rs.position p up = c.rs.position then c.rs.save_position
            else 1 } } := by
  unfold rs_move_position_update movedPosition
  by_cases hp : p > 0
  · cases up
    · by_cases h1 : toInt32 (uadd c.rs.position p) ≥ 10100
      · simp only [hp, h1, if_true, if_false, Bool.false_eq_true]
        exact store_position_dirty c 10100
      · simp only [hp, h1, if_true, if_false, Bool.false_eq_true]
        exact store_position_dirty c (uadd c.rs.position p)
    · by_cases h1 : toInt32 (usub c.rs.position p) ≤ 100
      · simp only [hp, h1, if_true, if_false]
        exact store_position_dirty c 100
      · simp only [hp, h1, if_true, if_false]
        exact store_position_dirty c (usub c.rs.position p)
  · simp only [hp, if_false, if_true]

/-- The stored position when neither the 32-bit difference or sum nor its
reading as `int` wraps: the clamp to the limit of the direction. -/
theorem movedPosition_eq (pos p : Nat) (up : Bool)
    (hp1 : 100 ≤ pos) (hp2 : pos ≤ 10100) (hp : p < 2147473548) :
    movedPosition pos p up = if up = true then max 100 (pos - p) else min 10100 (pos + p) := by
  unfold movedPosition toInt32 usub uadd
  cases up
  · simp only [Bool.false_eq_true, if_false]
    have e : (pos + p) % 4294967296 = pos + p := by omega
    have e2 : (pos + p) % 4294967296 % 4294967296 = pos + p := by omega
    rw [e2, e]
    have hlt : pos + p < 2147483648 := by omega
    simp only [hlt, if_true]
    split_ifs <;> omega
  · simp only [if_true]
    by_cases hle : p ≤ pos
    · have e : (pos + (4294967296 - p % 4294967296)) % 4294967296 = pos - p := by omega
      have e2 : (pos + (4294967296 - p % 4294967296)) % 4294967296 % 4294967296 = pos - p := by
        omega
      rw [e2, e]
      have hlt : pos - p < 2147483648 := by omega
      simp only [hlt, if_true]
      split_ifs <;> omega
    · have e : (pos + (4294967296 - p % 4294967296)) % 4294967296
          = 4294967296 - (p - pos) := by omega
      have e2 : (pos + (4294967296 - p % 4294967296)) % 4294967296 % 4294967296
          = 4294967296 - (p - pos) := by omega
      rw [e2, e]
      have hlt : ¬ 4294967296 - (p - pos) < 2147483648 := by omega
      simp only [hlt, if_false]
      split_ifs <;> omega

/-- The off request without task cancellation leaves the position, the dirty
flag and both accumulators as they are. -/
theorem rs_set_relay_off_frame (c : RsCtx) (now : Nat) :
    (rs_set_relay c RS_RELAY_OFF false false now).rs.position = c.rs.position ∧
    (rs_set_relay c RS_RELAY_OFF false false now).rs.save_position = c.rs.save_position ∧
    (rs_set_relay c RS_RELAY_OFF false false now).rs.up_time = c.rs.up_time ∧
    (rs_set_relay c RS_RELAY_OFF false false now).rs.down_time = c.rs.down_time := by
  rw [rs_set_relay_rs_off, rs_set_relay_off_eq]
  simp only [Bool.false_eq_true, if_false]
  split_ifs <;> exact ⟨rfl, rfl, rfl, rfl⟩

theorem TimeSel.set_frame (time : TimeSel) (rs : SuplaDeviceRollerShutter) (v : Nat) :
    (time.set rs v).position = rs.position ∧
    (time.set rs v).save_position = rs.save_position ∧
    time.get (time.set rs v) = v := by
  cases time <;> exact ⟨rfl, rfl, rfl⟩

/-- Position, dirty flag and accumulated time after `rs_move_position` with a
known position and a full time set. -/
theorem rs_move_position_fields (c : RsCtx) (F : Nat) (time : TimeSel) (up : Bool) (now : Nat)
    (hg : ¬ (c.rs.position < 100 ∨ c.rs.position > 10100 ∨ F = 0)) :
    (rs_move_position c F time up now).rs.position
      = movedPosition c.rs.position (positionDelta (time.get c.rs) F) up ∧
    (rs_move_position c F time up now).rs.save_position
      = (if movedPosition c.rs.position (positionDelta (time.get c.rs) F) up = c.rs.position
          then c.rs.save_position else 1) ∧
    time.get (rs_move_position c F time up now).rs
      = (if (up = true ∧
              movedPosition c.rs.position (positionDelta (time.get c.rs) F) up = 100) ∨
            (¬ up = true ∧
              movedPosition c.rs.position (positionDelta (time.get c.rs) F) up = 10100)
          then time.get c.rs
          else if umul (positionDelta (time.get c.rs) F) F / 10000 ≤ time.get c.rs then
            usub (time.get c.rs) (umul (positionDelta (time.get c.rs) F) F / 10000)
          else 0) := by
  rw [rs_move_position_split c F time up now hg]
  generalize positionDelta (time.get c.rs) F = p
  have hu := rs_move_position_update_eq c p up
  have h1 : (rs_move_position_update c p up).rs.position = movedPosition c.rs.position p up := by
    rw [hu]
  have h2 : (rs_move_position_update c p up).rs.save_position
      = (if movedPosition c.rs.position p up = c.rs.position then c.rs.save_position else 1) := by
    rw [hu]
  have h3 : time.get (rs_move_position_update c p up).rs = time.get c.rs := by
    rw [hu]
    cases time <;> rfl
  have h3u : (rs_move_position_update c p up).rs.up_time = c.rs.up_time := by rw [hu]
  have h3d : (rs_move_position_update c p up).rs.down_time = c.rs.down_time := by rw [hu]
  rw [h1, h3]
  generalize rs_move_position_update c p up = u at h1 h2 h3 h3u h3d
  clear hu
  obtain ⟨f1, f2, f3, f4⟩ := rs_set_relay_off_frame u now
  have f5 : time.get (rs_set_relay u RS_RELAY_OFF false false now).rs = time.get c.rs := by
    cases time
    · show (rs_set_relay u RS_RELAY_OFF false false now).rs.up_time = c.rs.up_time
      rw [f3, h3u]
    · show (rs_set_relay u RS_RELAY_OFF false false now).rs.down_time = c.rs.down_time
      rw [f4, h3d]
  by_cases hl : (up = true ∧ movedPosition c.rs.position p up = 100) ∨
      (¬ up = true ∧ movedPosition c.rs.position p up = 10100)
  · simp only [hl, if_true]
    by_cases hd : Dbl.le (Dbl.mul (Dbl.ofNat F) Dbl.c1_1) (Dbl.ofNat (time.get c.rs)) = true
    · simp only [hd, if_true]
      exact ⟨f1.trans h1, f2.trans h2, f5⟩
    · simp only [hd, if_false]
      exact ⟨h1, h2, h3⟩
  · simp only [hl, if_false]
    by_cases hx : umul p F / 10000 ≤ time.get c.rs
    · simp only [hx, if_true]
      obtain ⟨g1, g2, g3⟩ := TimeSel.set_frame time u.rs (usub (time.get c.rs) (umul p F / 10000))
      exact ⟨g1.trans h1, g2.trans h2, g3⟩
    · simp only [hx, if_false]
      obtain ⟨g1, g2, g3⟩ := TimeSel.set_frame time u.rs 0
      exact ⟨g1.trans h1, g2.trans h2, g3⟩

/-! ## Move-position: the advance and the consumed time -/

/-- C24 (counterexample): (1) at position 5000 with full time 10000 and 29 ms
accumulated while closing, floor(29 * 10000 / 10000) is 29, but the double
expression `29 * 100.00 / 10000 * 100` truncates to 28 and the new position is
5028, not min(10100, 5000 + 29) = 5029.  (2) At position 5000 with full time
100 and 30000000 ms accumulated while closing, the delta is 3000000000, the
sum read as `int` is negative, the clamp does not apply and the stored
position leaves [100, 10100]. -/
theorem C24_delta_is_not_the_floor_and_can_wrap :
    29 * 10000 / 10000 = 29 ∧
    positionDelta 29 10000 = 28 ∧
    (rs_move_position exCreep 10000 .down false 0).rs.position = 5028 ∧
    min 10100 (exCreep.rs.position + 29 * 10000 / 10000) = 5029 ∧
    positionDelta 30000000 100 = 3000000000 ∧
    toInt32 (uadd 5000 3000000000) < 0 ∧
    (rs_move_position exLongRun 100 .down false 0).rs.position = 3000005000 ∧
    ¬ (rs_move_position exLongRun 100 .down false 0).rs.position ≤ 10100 := by
  decide

/-- C24 (amended): move-position with full time `F` and the accumulated time
selected by `time`.  When the position is unknown or `F = 0` nothing changes.
For a known position in [100, 10100], `F > 0`, an accumulated time `t` below
2^32 and `t * 10000 < 2147473548 * F` (the delta fits a signed `int` next to
the position): the delta `d`, the truncated double value, is
floor(t * 10000 / F) or one less (`d * F <= t * 10000 < (d + 2) * F`); the new
position is max(100, p - d) when moving up and min(10100, p + d) when moving
down, so it stays in [100, 10100]; the dirty flag is set when the position
changed and is as before when it did not. -/
theorem C24_move_position_advances_and_clamps (c : RsCtx) (F : Nat) (time : TimeSel)
    (up : Bool) (now : Nat) :
    ((c.rs.position < 100 ∨ c.rs.position > 10100 ∨ F = 0) →
      rs_move_position c F time up now = c) ∧
    (100 ≤ c.rs.position → c.rs.position ≤ 10100 → 0 < F →
      time.get c.rs < 4294967296 → time.get c.rs * 10000 < 2147473548 * F →
      positionDelta (time.get c.rs) F * F ≤ time.get c.rs * 10000 ∧
      time.get c.rs * 10000 < (positionDelta (time.get c.rs) F + 2) * F ∧
      (rs_move_position c F time up now).rs.position
        = (if up = true then max 100 (c.rs.position - positionDelta (time.get c.rs) F)
            else min 10100 (c.rs.position + positionDelta (time.get c.rs) F)) ∧
      100 ≤ (rs_move_position c F time up now).rs.position ∧
      (rs_move_position c F time up now).rs.position ≤ 10100 ∧
      ((rs_move_position c F time up now).rs.position ≠ c.rs.position →
        (rs_move_position c F time up now).rs.save_position = 1) ∧
      ((rs_move_position c F time up now).rs.position = c.rs.position →
        (rs_move_position c F time up now).rs.save_position = c.rs.save_position)) := by
  constructor
  · intro h
    unfold rs_move_position
    simp only [h, if_true]
  · intro hp1 hp2 hF ht hw
    have hg : ¬ (c.rs.position < 100 ∨ c.rs.position > 10100 ∨ F = 0) := by omega
    obtain ⟨k, hk, hk1, hk2⟩ := positionDelta_floor (time.get c.rs) F hF ht
    have hkb : k < 2147473548 := by
      have : k * F < 2147473548 * F := lt_of_le_of_lt hk1 hw
      exact Nat.lt_of_mul_lt_mul_right this
    have hkd : positionDelta (time.get c.rs) F = k := by
      rw [hk]
      omega
    obtain ⟨f1, f2, _⟩ := rs_move_position_fields c F time up now hg
    rw [f1, f2, hkd, movedPosition_eq c.rs.position k up hp1 hp2 hkb]
    refine ⟨hk1, hk2, rfl, ?_, ?_, ?_, ?_⟩
    · cases up
      · simp only [Bool.false_eq_true, if_false]
        omega
      · simp only [if_true]
        omega
    · cases up
      · simp only [Bool.false_eq_true, if_false]
        omega
      · simp only [if_true]
        omega
    · intro hne
      rw [if_neg hne]
    · intro heq
      rw [if_pos heq]

/-- Witness of C24: position 5000, full time 10000, 29 ms accumulated, closing. -/
theorem C24_move_position_advances_and_clamps_witness :
    100 ≤ (rs_move_position exCreep 10000 .down false 0).rs.position ∧
    (rs_move_position exCreep 10000 .down false 0).rs.position ≤ 10100 ∧
    ((rs_move_position exCreep 10000 .down false 0).rs.position ≠ exCreep.rs.position →
      (rs_move_position exCreep 10000 .down false 0).rs.save_position = 1) :=
  have h := (C24_move_position_advances_and_clamps exCreep 10000 .down false 0).2
    (by decide) (by decide) (by decide) (by decide) (by decide)
  ⟨h.2.2.2.1, h.2.2.2.2.1, h.2.2.2.2.2.1⟩

/-- C30 (counterexample): at position 5000 with full time 10000 and 29 ms
accumulated while closing, delta = floor(29 * 10000 / 10000) = 29 gives
x = floor(29 * 10000 / 10000) = 29 and t - x = 0; the code computes the delta
28, consumes 28 ms and leaves 1 ms, with the position 5028 not at the limit. -/
theorem C30_remaining_time_is_not_t_minus_floor :
    29 - (29 * 10000 / 10000) * 10000 / 10000 = 0 ∧
    umul (positionDelta 29 10000) 10000 / 10000 = 28 ∧
    exCreep.rs.down_time = 29 ∧
    (rs_move_position exCreep 10000 .down false 0).rs.down_time = 1 ∧
    (rs_move_position exCreep 10000 .down false 0).rs.position = 5028 := by
  decide

/-- C30 (amended): move-position with a known position in [100, 10100], full
time `F > 0` and an accumulated time `t` below 2^32.  With `d` the delta the
code computes (the truncated double value, for which `d * F <= t * 10000`) and
`x = floor((d * F mod 2^32) / 10000)` the consumed time: `x <= t`, so the
branch that zeroes the remaining time is not taken; when the new position is
not at the limit of the direction of travel the remaining time is `t - x`, and
when it is at the limit the accumulated time is left as it is. -/
theorem C30_consumed_time_within_accumulated (c : RsCtx) (F : Nat) (time : TimeSel)
    (up : Bool) (now : Nat)
    (hp1 : 100 ≤ c.rs.position) (hp2 : c.rs.position ≤ 10100) (hF : 0 < F)
    (ht : time.get c.rs < 4294967296) :
    positionDelta (time.get c.rs) F * F ≤ time.get c.rs * 10000 ∧
    umul (positionDelta (time.get c.rs) F) F / 10000 ≤ time.get c.rs ∧
    (¬ ((up = true ∧ (rs_move_position c F time up now).rs.position = 100) ∨
        (up = false ∧ (rs_move_position c F time up now).rs.position = 10100)) →
      time.get (rs_move_position c F time up now).rs
        = time.get c.rs - umul (positionDelta (time.get c.rs) F) F / 10000) ∧
    (((up = true ∧ (rs_move_position c F time up now).rs.position = 100) ∨
      (up = false ∧ (rs_move_position c F time up now).rs.position = 10100)) →
      time.get (rs_move_position c F time up now).rs = time.get c.rs) := by
  have hg : ¬ (c.rs.position < 100 ∨ c.rs.position > 10100 ∨ F = 0) := by omega
  obtain ⟨k, hk, hk1, _⟩ := positionDelta_floor (time.get c.rs) F hF ht
  obtain ⟨f1, _, f3⟩ := rs_move_position_fields c F time up now hg
  have hdk : positionDelta (time.get c.rs) F ≤ k := by
    rw [hk]
    exact Nat.mod_le _ _
  have hdF : positionDelta (time.get c.rs) F * F ≤ time.get c.rs * 10000 :=
    le_trans (Nat.mul_le_mul_right F hdk) hk1
  have hx : umul (positionDelta (time.get c.rs) F) F / 10000 ≤ time.get c.rs := by
    have h1 : umul (positionDelta (time.get c.rs) F) F
        ≤ positionDelta (time.get c.rs) F * F := Nat.mod_le _ _
    have h2 : umul (positionDelta (time.get c.rs) F) F ≤ time.get c.rs * 10000 :=
      le_trans h1 hdF
    exact Nat.div_le_of_le_mul (by rw [Nat.mul_comm]; exact h2)
  have hsub : usub (time.get c.rs) (umul (positionDelta (time.get c.rs) F) F / 10000)
      = time.get c.rs - umul (positionDelta (time.get c.rs) F) F / 10000 := by
    unfold usub
    omega
  rw [f3, f1]
  refine ⟨hdF, hx, fun hn => ?_, fun hl => ?_⟩
  · rw [if_neg (by simpa using hn), if_pos hx, hsub]
  · rw [if_pos (by simpa using hl)]

/-- Witness of C30: position 5000, full time 10000, 29 ms accumulated, closing:
28 ms are consumed and 1 ms is left. -/
theorem C30_consumed_time_within_accumulated_witness :
    umul (positionDelta (TimeSel.down.get exCreep.rs) 10000) 10000 / 10000
      ≤ TimeSel.down.get exCreep.rs ∧
    TimeSel.down.get (rs_move_position exCreep 10000 .down false 0).rs
      = TimeSel.down.get exCreep.rs
        - umul (positionDelta (TimeSel.down.get exCreep.rs) 10000) 10000 / 10000 :=
  have h := C30_consumed_time_within_accumulated exCreep 10000 .down false 0
    (by decide) (by decide) (by decide) (by decide)
  ⟨h.2.1, h.2.2.1 (by decide)⟩

/-! ## Calibration while closing: the whole integration step -/

/-- The calibration threshold `(unsigned long)(full_time * 1.1)` when the
product fits an `unsigned long`: it is at least `full_time`, and an
accumulated time `t` with `t >= full_time * 11 / 10` has reached it. -/
theorem calibrate_threshold_bounds (F : Nat) (hF : F * 11 < 4294967296 * 10) :
    F ≤ Dbl.toULong (Dbl.mul (Dbl.ofNat F) Dbl.c1_1) ∧
    ∀ t : Nat, F * 11 ≤ t * 10 → t < 4294967296 →
      Dbl.toULong (Dbl.mul (Dbl.ofNat F) Dbl.c1_1) ≤ t := by
  have hc : Dbl.c1_1 = ⟨4953959590107546, 4503599627370496⟩ := by decide
  rw [hc]
  unfold Dbl.toULong Dbl.mul Dbl.ofNat
  simp only [Nat.mul_one, Nat.one_mul]
  obtain ⟨d1, l1, u1⟩ := round_val (F * 4953959590107546) 4503599627370496 (by norm_num)
  generalize Dbl.round (F * 4953959590107546) 4503599627370496 = r at *
  have hd : 0 < r.den := by exact_mod_cast d1
  have hF0 : (0 : ℚ) ≤ (F : ℚ) := by exact_mod_cast Nat.zero_le F
  have hF2 : (F : ℚ) * 11 ≤ 42949672959 := by
    have : F * 11 ≤ 42949672959 := by omega
    exact_mod_cast this
  push_cast at l1 u1
  have hlo : (F : ℚ) ≤ (r.num : ℚ) / r.den := by
    refine le_trans ?_ l1
    have h2 : (1 : ℚ) ≤ 4953959590107546 / 4503599627370496 * (1 - 1 / 2 ^ 53) := by
      norm_num
    have e : (F : ℚ) * 4953959590107546 / 4503599627370496 * (1 - 1 / 2 ^ 53)
        = (F : ℚ) * (4953959590107546 / 4503599627370496 * (1 - 1 / 2 ^ 53)) := by ring
    rw [e]
    nlinarith
  have hup : (r.num : ℚ) / r.den
      ≤ (F : ℚ) * 11 / 10 * (1 + 1 / 2 ^ 51) := by
    refine le_trans u1 ?_
    have h2 : (4953959590107546 : ℚ) / 4503599627370496 * (1 + 1 / 2 ^ 53)
        ≤ 11 / 10 * (1 + 1 / 2 ^ 51) := by norm_num
    have e : (F : ℚ) * 4953959590107546 / 4503599627370496 * (1 + 1 / 2 ^ 53)
        = (F : ℚ) * (4953959590107546 / 4503599627370496 * (1 + 1 / 2 ^ 53)) := by ring
    have e2 : (F : ℚ) * 11 / 10 * (1 + 1 / 2 ^ 51)
        = (F : ℚ) * (11 / 10 * (1 + 1 / 2 ^ 51)) := by ring
    rw [e, e2]
    exact mul_le_mul_of_nonneg_left h2 hF0
  have hlo2 : F * r.den ≤ r.num := by
    rw [le_div_iff₀ d1] at hlo
    exact_mod_cast hlo
  have hFd : F ≤ r.num / r.den := (Nat.le_div_iff_mul_le hd).2 hlo2
  have hlt : r.num / r.den < 4294967296 := by
    rw [Nat.div_lt_iff_lt_mul hd]
    have h3 : (r.num : ℚ) < 4294967296 * r.den := by
      rw [← div_lt_iff₀ d1]
      refine lt_of_le_of_lt hup ?_
      norm_num
      linarith
    exact_mod_cast h3
  rw [Nat.mod_eq_of_lt hlt]
  refine ⟨hFd, fun t h11 ht => ?_⟩
  have h11q : (F : ℚ) * 11 ≤ (t : ℚ) * 10 := by exact_mod_cast h11
  have htq : (t : ℚ) ≤ 4294967295 := by
    have : t ≤ 4294967295 := by omega
    exact_mod_cast this
  have h4 : r.num / r.den < t + 1 := by
    rw [Nat.div_lt_iff_lt_mul hd]
    have h3 : (r.num : ℚ) < ((t : ℚ) + 1) * r.den := by
      rw [← div_lt_iff₀ d1]
      refine lt_of_le_of_lt hup ?_
      norm_num
      linarith
    exact_mod_cast h3
  omega

/-- The record the closing branch hands to `rs_move_position`. -/
theorem rs_integrate_closing_calibrate_rs (c : RsCtx) (time_diff : Nat) :
    (rs_integrate_closing_calibrate c time_diff).rs
      = rs_calibrate { c.rs with up_time := 0, down_time := uadd c.rs.down_time time_diff }
          c.rs.full_closing_time (uadd c.rs.down_time time_diff) 1100 := rfl

/-- The closing branch at the calibration threshold: the calibrate step stores
position 1100 and raises the dirty flag; full closing time and the new
accumulated time are as before the step. -/
theorem rs_integrate_closing_calibrate_fires (c : RsCtx) (time_diff : Nat)
    (hunk : c.rs.position < 100 ∨ c.rs.position > 10100)
    (hF : 0 < c.rs.full_closing_time)
    (hthr : Dbl.toULong (Dbl.mul (Dbl.ofNat c.rs.full_closing_time) Dbl.c1_1)
      ≤ uadd c.rs.down_time time_diff) :
    (rs_integrate_closing_calibrate c time_diff).rs.position = 1100 ∧
    (rs_integrate_closing_calibrate c time_diff).rs.save_position = 1 ∧
    (rs_integrate_closing_calibrate c time_diff).rs.full_closing_time
      = c.rs.full_closing_time ∧
    (rs_integrate_closing_calibrate c time_diff).rs.down_time
      = uadd c.rs.down_time time_diff := by
  rw [rs_integrate_closing_calibrate_rs, rs_calibrate_eq]
  rw [if_pos ⟨hF, hunk, hthr⟩]
  exact ⟨rfl, rfl, rfl, rfl⟩

/-- The position integration of a pass for a shutter with unknown position and
full closing time `F > 0`, with `F * 1.1` below 2^32, in which the down relay
is sensed active, the accumulated down_time `t` (with this pass's elapsed time
added) has reached the threshold `(unsigned long)(F * 1.1)` and
`t * 10000 < 2147473548 * F` (the delta fits a signed `int` next to the
position): the pass ends with position 10100 and the dirty flag set. -/
theorem closing_calibration_reaches_limit (c : RsCtx) (time_diff now : Nat)
    (hunk : c.rs.position < 100 ∨ c.rs.position > 10100)
    (hF : 0 < c.rs.full_closing_time)
    (hF11 : c.rs.full_closing_time * 11 < 4294967296 * 10)
    (hdown : suplaDigitalRead_isHI c c.pin.pin1 = true)
    (hthr : Dbl.toULong (Dbl.mul (Dbl.ofNat c.rs.full_closing_time) Dbl.c1_1)
      ≤ uadd c.rs.down_time time_diff)
    (hw : uadd c.rs.down_time time_diff * 10000 < 2147473548 * c.rs.full_closing_time) :
    (rs_integrate c time_diff now).rs.position = 10100 ∧
    (rs_integrate c time_diff now).rs.save_position = 1 := by
  obtain ⟨hpos, hsave, hfc, hdt⟩ := rs_integrate_closing_calibrate_fires c time_diff hunk hF hthr
  rw [rs_integrate_closing_split c time_diff now hdown, hfc]
  have hg : ¬ ((rs_integrate_closing_calibrate c time_diff).rs.position < 100 ∨
      (rs_integrate_closing_calibrate c time_diff).rs.position > 10100 ∨
      c.rs.full_closing_time = 0) := by
    rw [hpos]
    omega
  obtain ⟨f1, f2, _⟩ := rs_move_position_fields (rs_integrate_closing_calibrate c time_diff)
    c.rs.full_closing_time .down false now hg
  have htime : TimeSel.down.get (rs_integrate_closing_calibrate c time_diff).rs
      = uadd c.rs.down_time time_diff := hdt
  rw [htime, hpos] at f1 f2
  rw [hsave] at f2
  have ht32 : uadd c.rs.down_time time_diff < 4294967296 := by
    unfold uadd
    exact Nat.mod_lt _ (by norm_num)
  obtain ⟨k, hk, hk1, hk2⟩ :=
    positionDelta_floor (uadd c.rs.down_time time_diff) c.rs.full_closing_time hF ht32
  have hkb : k < 2147473548 := by
    have : k * c.rs.full_closing_time < 2147473548 * c.rs.full_closing_time :=
      lt_of_le_of_lt hk1 hw
    exact Nat.lt_of_mul_lt_mul_right this
  have hkd : positionDelta (uadd c.rs.down_time time_diff) c.rs.full_closing_time = k := by
    rw [hk]
    omega
  have hFt : c.rs.full_closing_time ≤ uadd c.rs.down_time time_diff :=
    le_trans (calibrate_threshold_bounds c.rs.full_closing_time hF11).1 hthr
  have hk9 : 9000 ≤ k := by
    have h1 : 10000 * c.rs.full_closing_time < (k + 2) * c.rs.full_closing_time := by
      calc 10000 * c.rs.full_closing_time
          = c.rs.full_closing_time * 10000 := Nat.mul_comm _ _
        _ ≤ uadd c.rs.down_time time_diff * 10000 := Nat.mul_le_mul_right _ hFt
        _ < (k + 2) * c.rs.full_closing_time := hk2
    have h2 : 10000 < k + 2 := Nat.lt_of_mul_lt_mul_right h1
    omega
  have hm : movedPosition 1100 k false = 10100 := by
    rw [movedPosition_eq 1100 k false (by norm_num) (by norm_num) hkb]
    simp only [Bool.false_eq_true, if_false]
    omega
  rw [hkd, hm] at f1 f2
  refine ⟨f1, ?_⟩
  rw [f2]
  simp

/-- An instance of the step above: unknown position, full closing time 10000
ms, 10900 ms accumulated, serviced 100 ms later. -/
theorem closing_calibration_reaches_limit_example :
    (rs_integrate exClosingUnknown 100 0).rs.position = 10100 ∧
    (rs_integrate exClosingUnknown 100 0).rs.save_position = 1 :=
  closing_calibration_reaches_limit exClosingUnknown 100 0 (by decide) (by decide)
    (by decide) (by decide) (by decide) (by decide)

end SuplaDevice
